import Mathlib

/-!
Verification of the league simulation engine of `league.py` (clash-league-fantasy).

The engine is shallowly embedded: Python floats are modelled as `ℚ`, Python
ints as `ℤ` (or `ℕ` where the source value is provably non-negative), Python
dicts as insertion-ordered association lists, and the `random.Random` instance
as an oracle stream of naturals together with a cursor; each primitive call of
the random API consumes draws from the stream.  All definitions follow the
source `league.py`; the one definition that follows the specification text
instead is explicitly marked `Modelled from the spec`.
-/

namespace CLF

/-- Python `round` on a rational (round half to even), as used by
`int(round(...))` in the source. -/
def pyRound (q : ℚ) : ℤ :=
  if q - (q.floor : ℚ) < 1/2 then q.floor
  else if 1/2 < q - (q.floor : ℚ) then q.floor + 1
  else if q.floor % 2 = 0 then q.floor else q.floor + 1

/-- Python `round(x, 3)` (three decimal places, half to even). -/
def pyRound3 (q : ℚ) : ℚ := (pyRound (q * 1000) : ℚ) / 1000

/-- `max lo (min hi x)` on integers, the `max(0, min(3, x))` idiom. -/
def iclamp (lo hi x : ℤ) : ℤ := max lo (min hi x)

/-- `max lo (min hi x)` on rationals. -/
def qclamp (lo hi x : ℚ) : ℚ := max lo (min hi x)

/-- `statistics.mean` on rationals (0 on the empty list, which the source
never queries). -/
def qmean (l : List ℚ) : ℚ := l.sum / l.length

/-- Python `max(xs, key=f)`: the first element attaining the maximal key. -/
def pyMaxBy (key : α → ℚ) : List α → Option α
  | [] => none
  | x :: xs => some (xs.foldl (fun best c => if key best < key c then c else best) x)

/-- Insert `x` after every already-placed element whose key does not exceed
it; auxiliary to `stableSort`. -/
def insSorted (le : α → α → Bool) (x : α) : List α → List α
  | [] => [x]
  | y :: ys => if le y x then y :: insSorted le x ys else x :: y :: ys

/-- A stable sort (insertion sort).  Python's `sorted`/`list.sort` are stable,
so any stable sort computes the same list; `le a b = true` means `a` may stay
before `b`. -/
def stableSort (le : α → α → Bool) (l : List α) : List α :=
  l.foldr (insSorted le) []

/-! ### Oracle model of `random.Random`

A seeded `random.Random(seed)` is a deterministic stream of outputs: the same
seed yields the same stream.  We model it as a function `ℕ → ℕ` with a cursor;
each primitive of the random API consumes one underlying draw.  Every theorem
below quantifies over the stream, hence holds for the real generator. -/

structure RS where
  s : ℕ → ℕ
  i : ℕ

def RS.draw (r : RS) : ℕ × RS := (r.s r.i, ⟨r.s, r.i + 1⟩)

def RS.randBelow (r : RS) (n : ℕ) : ℕ × RS :=
  let p := r.draw
  (p.1 % n, p.2)

/-- `rng.randint(a, b)` on natural bounds. -/
def RS.randintN (r : RS) (a b : ℕ) : ℕ × RS :=
  let p := r.randBelow (b + 1 - a)
  (a + p.1, p.2)

/-- `rng.random()`, a rational in `[0, 1)`. -/
def RS.random01 (r : RS) : ℚ × RS :=
  let p := r.draw
  (((p.1 % 1000000 : ℕ) : ℚ) / 1000000, p.2)

/-- `rng.uniform(a, b)`. -/
def RS.uniform (r : RS) (a b : ℚ) : ℚ × RS :=
  let p := r.random01
  (a + (b - a) * p.1, p.2)

/-- `rng.choice(l)` (`dflt` stands in for the `IndexError` on an empty
sequence, which the source never triggers). -/
def RS.choice (r : RS) (l : List α) (dflt : α) : α × RS :=
  let p := r.randBelow l.length
  (l.getD p.1 dflt, p.2)

/-- Swap the entries at positions `i` and `j`. -/
def listSwap (l : List α) (i j : ℕ) (dflt : α) : List α :=
  (l.set i (l.getD j dflt)).set j (l.getD i dflt)

/-- The Fisher–Yates loop of `random.shuffle`: for `i` from `len-1` down
to `1`, draw `j ≤ i` and swap positions `i` and `j`. -/
def RS.shuffleGo (dflt : α) : ℕ → List α → RS → List α × RS
  | 0, l, r => (l, r)
  | i+1, l, r =>
    let p := r.randBelow (i + 2)
    RS.shuffleGo dflt i (listSwap l (i+1) p.1 dflt) p.2

/-- `rng.shuffle(l)`. -/
def RS.shuffle (r : RS) (l : List α) (dflt : α) : List α × RS :=
  RS.shuffleGo dflt (l.length - 1) l r

/-- Index of the first position whose running cumulative weight exceeds `x`
(`len` if none does). -/
def firstCumGt (x : ℚ) : ℚ → ℕ → List ℤ → ℕ
  | _, idx, [] => idx
  | acc, idx, w :: ws =>
    if x < acc + (w : ℚ) then idx else firstCumGt x (acc + (w : ℚ)) (idx + 1) ws

/-- The index drawn by `rng.choices(pool, weights=ws, k=1)`: one `random()`
draw, scaled by the total weight and located in the cumulative-weight list,
capped at `len - 1` as CPython's `bisect(..., hi=n-1)` does. -/
def RS.choicesIdx (r : RS) (ws : List ℤ) : ℕ × RS :=
  let total : ℤ := ws.sum
  let p := r.random01
  (min (firstCumGt (p.1 * total) 0 0 ws) (ws.length - 1), p.2)

/-! ### Enums and constants (`league.py` lines 35–106) -/

inductive Archetype where
  | TANK | HEALER | BURST | CONTROL | UTILITY | BALANCED
deriving DecidableEq, Repr

/-- `list(Archetype)` in Python declaration order. -/
def allArchetypes : List Archetype :=
  [.TANK, .HEALER, .BURST, .CONTROL, .UTILITY, .BALANCED]

inductive AtkType where
  | MELEE | RANGED | SPELL
deriving DecidableEq, Repr

/-- `list(AtkType)` in Python declaration order. -/
def allAtkTypes : List AtkType := [.MELEE, .RANGED, .SPELL]

def NUM_TEAMS : ℕ := 30
def ROSTER_SIZE : ℕ := 4
def STARTERS : ℕ := 3
def MIN_CARD_POOL : ℕ := 160
def MAX_CARD_POOL : ℕ := 170
def SEASON_MIN_LIFE : ℕ := 5
def SEASON_MAX_LIFE : ℕ := 8
def RIVALRY_INITIAL : ℕ := 10
def RIVALRY_DECAY : ℕ := 2
def RIVALRY_GAIN : ℕ := 6
def RIVALRY_WIN_BUFF_PCT : ℚ := 2/100
def RIVALRY_WIN_BUFF_GAMES : ℕ := 2
def POWER_WEIGHT : ℚ := 75/100
def LUCK_WEIGHT : ℚ := 25/100
def CHAMPIONSHIP_POINTS : ℕ := 5
def HOF_GUARANTEE : ℚ := 85
def HOF_BUBBLE_MIN : ℚ := 70
def GRADE_W_OVR : ℚ := 45/100
def GRADE_W_SYNERGY : ℚ := 35/100
def GRADE_W_VALUE : ℚ := 20/100

def NAME_SYLLABLES : List String :=
  ["sha", "dor", "wyr", "val", "kai", "zen", "ran", "qua", "ion", "dra",
   "sil", "ark", "lix", "kor", "pyre", "nox", "vela", "zho", "ra", "myr"]

def TEAM_WORDS : List String :=
  ["Phoenix", "Wyrms", "Valkyries", "Titans", "Spectres", "Sentinels", "Drakes",
   "Ronin", "Warlocks", "Samurai", "Lancers", "Gladiators", "Marauders", "Stalkers",
   "Aces", "Blitz", "Nightfall", "Embers", "Cyclones", "Stormbreak", "Invictus",
   "Onyx", "Eclipse", "Aurora", "Nebula", "Tempest", "Rampage", "Genesis", "Revenant"]

def GM_STYLES : List String := ["risk_taker", "conservative", "synergy_focused", "star_chaser"]
def GM_SOCIAL : List String := ["trash", "humble", "meme", "quiet"]
def GM_RIVALRY : List String := ["grudge", "forgiver"]

/-! ### Insertion-ordered association lists (Python `dict` / `Counter`) -/

/-- `d.get(k)` on an insertion-ordered association list. -/
def alGet (l : List (κ × β)) (k : κ) [DecidableEq κ] : Option β :=
  (l.find? (fun p => p.1 = k)).map (·.2)

/-- `d.get(k, dflt)`. -/
def alGetD (l : List (κ × β)) (k : κ) (dflt : β) [DecidableEq κ] : β :=
  (alGet l k).getD dflt

/-- `d[k] = v`: replace in place if the key is present (a Python dict keeps
the original insertion position), otherwise append. -/
def alSet (l : List (κ × β)) (k : κ) (v : β) [DecidableEq κ] : List (κ × β) :=
  if l.any (fun p => p.1 = k) then
    l.map (fun p => if p.1 = k then (k, v) else p)
  else
    l ++ [(k, v)]

/-- `d[k] = f(d.get(k, dflt))`, the `Counter`-style update idiom. -/
def alUpd (l : List (κ × β)) (k : κ) (dflt : β) (f : β → β) [DecidableEq κ] :
    List (κ × β) :=
  alSet l k (f (alGetD l k dflt))

/-- `k in d`. -/
def alMem (l : List (κ × β)) (k : κ) [DecidableEq κ] : Bool :=
  l.any (fun p => p.1 = k)

/-! ### Data model (`league.py` lines 109–289) -/

structure Synergy where
  code : String
  name : String
  description : String
  requires_archetypes : List Archetype
  requires_atktypes : List AtkType
  power_mult : ℚ
  history : List (ℕ × ℚ)
deriving DecidableEq, Repr

structure Card where
  id : ℕ
  name : String
  archetype : Archetype
  atk_type : AtkType
  atk : ℤ
  defense : ℤ
  speed : ℤ
  hit_speed : ℤ
  stamina : ℤ
  seasons_left : ℤ
  rookie_season : ℕ
  seasonal_special : Bool := false
  legend : Bool := false
  ovr : ℤ := 0
  games_played : ℕ := 0
  crowns_total : ℕ := 0
  crowns_high : ℕ := 0
  contribution_sum : ℚ := 0
  usage_games : ℕ := 0
  teams_history : List String := []
  awards : List (String × ℕ) := []
  all_star_appearances : ℕ := 0
  pick_seasons : ℕ := 0
  ovr_history : List (ℕ × ℤ) := []
  stat_history : List (ℕ × List (String × ℤ)) := []
  patch_reactions : List String := []
deriving DecidableEq, Repr

/-- A zeroed card; stands in for the `KeyError` of a failed dict lookup,
which the source never triggers.  The queried id is preserved so that the
lookup result carries it. -/
def defaultCard : Card :=
  { id := 0, name := "", archetype := .BALANCED, atk_type := .MELEE,
    atk := 0, defense := 0, speed := 0, hit_speed := 0, stamina := 0,
    seasons_left := 0, rookie_season := 0 }

/-- `self.cards[cid]`; a missing id yields `defaultCard` tagged with `cid`. -/
def lookupCard (cards : List Card) (cid : ℕ) : Card :=
  (cards.find? (fun c => c.id = cid)).getD { defaultCard with id := cid }

/-- Update the card with the given id in place. -/
def updateCard (cards : List Card) (cid : ℕ) (f : Card → Card) : List Card :=
  cards.map (fun c => if c.id = cid then f c else c)

/-- `Synergy.active`: every required archetype and attack type occurs among
the starters (an empty requirement set imposes nothing, matching the truthy
`if self.requires_archetypes and ...` test in the source). -/
def Synergy.active (s : Synergy) (starters : List Card) : Bool :=
  (s.requires_archetypes.all fun a => starters.any fun c => c.archetype = a) &&
  (s.requires_atktypes.all fun t => starters.any fun c => c.atk_type = t)

/-- `Card.compute_ovr`: archetype-specific weighted average of the five base
stats, rounded and clamped to `[0, 100]`; stored in the `ovr` field. -/
def Card.archWeights (a : Archetype) : ℚ × ℚ × ℚ × ℚ × ℚ :=
  match a with
  | .TANK => (15/100, 35/100, 15/100, 15/100, 20/100)
  | .HEALER => (15/100, 15/100, 15/100, 25/100, 30/100)
  | .BURST => (35/100, 10/100, 25/100, 15/100, 15/100)
  | .CONTROL => (15/100, 20/100, 25/100, 25/100, 15/100)
  | .UTILITY => (20/100, 20/100, 20/100, 20/100, 20/100)
  | .BALANCED => (20/100, 20/100, 20/100, 20/100, 20/100)

def Card.compute_ovr (c : Card) : Card :=
  let w := Card.archWeights c.archetype
  let score : ℚ := (c.atk : ℚ) * w.1 + (c.defense : ℚ) * w.2.1 +
    (c.speed : ℚ) * w.2.2.1 + (c.hit_speed : ℚ) * w.2.2.2.1 +
    (c.stamina : ℚ) * w.2.2.2.2
  { c with ovr := max 0 (min 100 (pyRound score)) }

/-- `Card.usage_pct`. -/
def Card.usage_pct (c : Card) : ℚ :=
  ((c.usage_games : ℚ) / (max 1 c.games_played : ℕ)) * 100

/-- `Card.pick_rate_pct`. -/
def Card.pick_rate_pct (c : Card) (seasons_elapsed : ℕ) : ℚ :=
  let eligible : ℤ := max 1 ((seasons_elapsed : ℤ) - ((c.rookie_season : ℤ) - 1))
  let eligible : ℤ := min eligible (SEASON_MAX_LIFE : ℤ)
  ((c.pick_seasons : ℚ) / (eligible : ℚ)) * 100

structure GameResult where
  season : ℕ
  week : ℕ
  home : String
  away : String
  home_crowns : ℤ
  away_crowns : ℤ
  details : List (String × List (ℕ × ℕ))
  highlights : List String := []
  rivalry_proc : Option String := none
  win_prob_series : List (ℕ × ℚ) := []
deriving DecidableEq, Repr

structure DraftGrade where
  team : String
  letter : String
  score : ℚ
  components : List (String × ℚ)
deriving DecidableEq, Repr

structure PatchChange where
  season : ℕ
  card_id : Option ℕ
  stat_deltas : List (String × ℤ)
  ovr_before : Option ℤ
  ovr_after : Option ℤ
  reason : String
  msg : String
deriving DecidableEq, Repr

structure AwardWinners where
  season : ℕ
  mvp : Option ℕ
  most_improved : Option ℕ
  all_first : List ℕ
  all_second : List ℕ
  all_third : List ℕ
  moty : List (ℕ × ℕ)
  all_stars : List ℕ
deriving DecidableEq, Repr

structure Team where
  name : String
  gm_name : String
  gm_style : String
  gm_social : String
  gm_rivalry : String
  roster : List ℕ := []
  starters : List ℕ := []
  backup : Option ℕ := none
  wins : ℕ := 0
  losses : ℕ := 0
  crowns_for : ℕ := 0
  crowns_against : ℕ := 0
  rivalry_boost_games_left : ℕ := 0
  rivals : List (String × ℕ) := []
  rings : ℕ := 0
  dynasty_points : ℕ := 0
  season_card_crowns : List (ℕ × ℕ) := []
  season_card_contrib : List (ℕ × ℚ) := []
deriving DecidableEq, Repr

/-- A blank team; stands in for the `KeyError` of a failed team lookup. -/
def defaultTeam : Team :=
  { name := "", gm_name := "", gm_style := "", gm_social := "", gm_rivalry := "" }

structure SeasonHistory where
  season : ℕ
  champion : Option String := none
  finalists : Option String × Option String := (none, none)
  awards : Option AwardWinners := none
  draft_grades : List DraftGrade := []
  leaders : List (String × List ℕ) := []
  patch_notes : List PatchChange := []
  synergy_notes : List PatchChange := []
deriving DecidableEq, Repr

/-! ### League state (`League.__init__`, lines 293–307) -/

structure League where
  rng : RS
  season : ℕ
  teams : List Team
  cards : List Card
  synergies : List Synergy
  history : List SeasonHistory
  game_log : List GameResult
  playoff_bracket : List (String × String)
  /-- The module-level `_card_id_counter`; threaded through the state since
  it survives across `League` constructions within one process. -/
  card_counter : ℕ

/-- `self.teams[name]`; a missing name yields a blank team carrying it. -/
def lookupTeam (teams : List Team) (name : String) : Team :=
  (teams.find? (fun t => t.name = name)).getD { defaultTeam with name := name }

/-- Update the team with the given name in place. -/
def updateTeam (teams : List Team) (name : String) (f : Team → Team) : List Team :=
  teams.map (fun t => if t.name = name then f t else t)

/-- `self.teams[t.name] = t`: replace in place if present, else append. -/
def dictInsertTeam (teams : List Team) (t : Team) : List Team :=
  if teams.any (fun u => u.name = t.name) then
    teams.map (fun u => if u.name = t.name then t else u)
  else teams ++ [t]

/-- `next_card_id()` (lines 137–142), reading and bumping the counter. -/
def League.next_card_id (l : League) : ℕ × League :=
  (l.card_counter, { l with card_counter := l.card_counter + 1 })

/-- Thread the league's rng through a primitive of the random API. -/
def League.withRng (l : League) (f : RS → β × RS) : β × League :=
  let p := f l.rng
  (p.1, { l with rng := p.2 })

def CITY_TAGS : List String :=
  ["Aether", "Drakon", "Zenith", "Onyx", "Nova", "Obsidian", "Sol", "Luna", "Orion",
   "Helix", "Nexus", "Volt", "Ember", "Echo", "Vanta", "Nyx"]

/-- `League._random_city_tag`. -/
def League.random_city_tag (l : League) : String × League :=
  l.withRng (fun r => r.choice CITY_TAGS "")

/-- `League._random_name`: two or three syllables, capitalized. -/
def League.random_name (l : League) : String × League :=
  let p := l.withRng (fun r => r.choice [2, 3] 2)
  let q := (List.range p.1).foldl
    (fun (acc : String × League) _ =>
      let syl := acc.2.withRng (fun r => r.choice NAME_SYLLABLES "")
      (acc.1 ++ syl.1, syl.2))
    ("", p.2)
  (q.1.capitalize, q.2)

/-- Itertools `combinations(l, 2)` in order. -/
def pairsComb : List α → List (α × α)
  | [] => []
  | x :: xs => xs.map (fun y => (x, y)) ++ pairsComb xs

/-- One candidate pair of the rivalry-seeding pass. -/
def rivalStep (st : League) (ab : String × String) : League :=
  let u := st.withRng RS.random01
  if u.1 < 6/100 then
    let d1 := u.2.withRng (fun r => r.randintN 0 6)
    let d2 := d1.2.withRng (fun r => r.randintN 0 6)
    let st := d2.2
    let ts1 := updateTeam st.teams ab.1
      (fun t => { t with rivals := alSet t.rivals ab.2 (RIVALRY_INITIAL + d1.1) })
    let ts2 := updateTeam ts1 ab.2
      (fun t => { t with rivals := alSet t.rivals ab.1 (RIVALRY_INITIAL + d2.1) })
    { st with teams := ts2 }
  else u.2

/-- The rivalry-seeding pass at the end of `_generate_teams`. -/
def League.seedRivalries (l : League) : League :=
  let tlist := l.teams.map (·.name)
  (pairsComb tlist).foldl rivalStep l

/-- One team of the creation loop of `_generate_teams`. -/
def genTeamStep (human_team_name : Option String) (names : List String)
    (st : League) (i : ℕ) : League :=
  let tname := names.getD (i % names.length) ""
  let city := st.random_city_tag
  let full := match human_team_name with
    | some h => if i = 0 then h else city.1 ++ " " ++ tname
    | none => city.1 ++ " " ++ tname
  let gm := city.2.random_name
  let style := gm.2.withRng (fun r => r.choice GM_STYLES "")
  let social := style.2.withRng (fun r => r.choice GM_SOCIAL "")
  let riv := social.2.withRng (fun r => r.choice GM_RIVALRY "")
  let newTeam : Team :=
    { name := full, gm_name := gm.1, gm_style := style.1,
      gm_social := social.1, gm_rivalry := riv.1 }
  { riv.2 with teams := dictInsertTeam riv.2.teams newTeam }

/-- `League._generate_teams` (lines 311–331). -/
def League.generate_teams (l : League) (human_team_name : Option String) : League :=
  let p := l.withRng (fun r => r.shuffle TEAM_WORDS "")
  let names := p.1
  let l := (List.range NUM_TEAMS).foldl (genTeamStep human_team_name names) p.2
  l.seedRivalries

def Archetype.value : Archetype → String
  | .TANK => "Tank"
  | .HEALER => "Healer"
  | .BURST => "Burst"
  | .CONTROL => "Control"
  | .UTILITY => "Utility"
  | .BALANCED => "Balanced"

def AtkType.value : AtkType → String
  | .MELEE => "Melee"
  | .RANGED => "Ranged"
  | .SPELL => "Spell"

/-- Three-digit zero padding, the `f"SYN{idx:03d}"` format. -/
def pad3 (n : ℕ) : String :=
  if n < 10 then "00" ++ toString n
  else if n < 100 then "0" ++ toString n
  else toString n

/-- The archetype-pair loop of `_generate_synergies`, including the
`if idx > 60: break` guard (checked after the increment). -/
def synPairsGo : List (Archetype × Archetype) → ℕ → List Synergy × ℕ
  | [], idx => ([], idx)
  | (a1, a2) :: rest, idx =>
    if a1 = a2 then synPairsGo rest idx
    else
      let s : Synergy :=
        { code := "SYN" ++ pad3 idx,
          name := a1.value ++ "+" ++ a2.value,
          description := "Combine " ++ a1.value ++ " and " ++ a2.value ++ " for tempo swing.",
          requires_archetypes := [a1, a2],
          requires_atktypes := [],
          power_mult := 103/100 + (1/100) * ((idx % 3 : ℕ) : ℚ),
          history := [] }
      if idx + 1 > 60 then ([s], idx + 1)
      else
        let q := synPairsGo rest (idx + 1)
        (s :: q.1, q.2)

/-- The attack-type combos of `_generate_synergies`, with the names the
`"+".join(sorted(...))` produces. -/
def atkCombos : List (List AtkType × String) :=
  [([.MELEE, .RANGED], "Melee+Ranged"),
   ([.RANGED, .SPELL], "Ranged+Spell"),
   ([.MELEE, .SPELL], "Melee+Spell"),
   ([.MELEE, .RANGED, .SPELL], "Melee+Ranged+Spell")]

def synAtkGo : List (List AtkType × String) → ℕ → List Synergy × ℕ
  | [], idx => ([], idx)
  | (combo, nm) :: rest, idx =>
    let s : Synergy :=
      { code := "SYN" ++ pad3 idx, name := nm,
        description := "Diverse damage profile.",
        requires_archetypes := [], requires_atktypes := combo,
        power_mult := if combo.length = 3 then 104/100 else 102/100,
        history := [] }
    let q := synAtkGo rest (idx + 1)
    (s :: q.1, q.2)

def synLegendGo : List Archetype → ℕ → List Synergy × ℕ
  | [], idx => ([], idx)
  | a :: rest, idx =>
    let s : Synergy :=
      { code := "SYN" ++ pad3 idx,
        name := "Legendary " ++ a.value ++ " Chain",
        description := "Two " ++ a.value ++ "s and any Control or Utility.",
        requires_archetypes := [a], requires_atktypes := [],
        power_mult := 105/100, history := [] }
    let q := synLegendGo rest (idx + 1)
    (s :: q.1, q.2)

/-- Key the synergy list by code, dict-style. -/
def synDict (ss : List Synergy) : List Synergy :=
  ss.foldl
    (fun acc s =>
      if acc.any (fun t => t.code = s.code) then
        acc.map (fun t => if t.code = s.code then s else t)
      else acc ++ [s])
    []

/-- `League._generate_synergies` (lines 343–383): archetype pairs, attack
combos, legendary chains, trimmed to the first 95 and keyed by code.
The generation consumes no randomness. -/
def generateSynergyTable : List Synergy :=
  let pairs := synPairsGo (allArchetypes.flatMap (fun a => allArchetypes.map (fun b => (a, b)))) 1
  let atks := synAtkGo atkCombos pairs.2
  let legends := synLegendGo allArchetypes atks.2
  synDict ((pairs.1 ++ atks.1 ++ legends.1).take 95)

def League.generate_synergies (l : League) : League :=
  { l with synergies := generateSynergyTable }

/-- `League._generate_card_name`. -/
def League.generate_card_name (l : League) : String × League :=
  let left := l.random_name
  let right := left.2.withRng (fun r => r.choice
    ["Wyrm", "Valkyrie", "Drake", "Spectre", "Arclight", "Nocturne", "Aegis",
     "Tempest", "Ember", "Nighthawk"] "")
  (left.1 ++ " " ++ right.1, right.2)

/-- One iteration of the pool loop in `_generate_card_pool`: draw a fresh
card and append it to `self.cards`. -/
def League.genPoolCard (l : League) : League :=
  let idp := l.next_card_id
  let cid := idp.1
  let namep := idp.2.generate_card_name
  let archep := namep.2.withRng (fun r => r.choice allArchetypes .BALANCED)
  let atypep := archep.2.withRng (fun r => r.choice allAtkTypes .MELEE)
  let a1 := atypep.2.withRng (fun r => r.randintN 45 90)
  let a2 := a1.2.withRng (fun r => r.randintN 45 90)
  let a3 := a2.2.withRng (fun r => r.randintN 45 90)
  let a4 := a3.2.withRng (fun r => r.randintN 45 90)
  let a5 := a4.2.withRng (fun r => r.randintN 45 90)
  let slp := a5.2.withRng (fun r => r.randintN SEASON_MIN_LIFE SEASON_MAX_LIFE)
  let st := slp.2
  let card : Card :=
    ({ id := cid, name := namep.1, archetype := archep.1, atk_type := atypep.1,
       atk := a1.1, defense := a2.1, speed := a3.1, hit_speed := a4.1,
       stamina := a5.1, seasons_left := (slp.1 : ℤ),
       rookie_season := st.season } : Card).compute_ovr
  let card := { card with
    ovr_history := [(st.season, card.ovr)],
    stat_history := [(st.season, [("atk", card.atk), ("defense", card.defense),
      ("speed", card.speed), ("hit_speed", card.hit_speed), ("stamina", card.stamina)])] }
  { st with cards := st.cards ++ [card] }

/-- `League._generate_card_pool` (lines 385–414). -/
def League.generate_card_pool (l : League) : League :=
  let tp := l.withRng (fun r => r.randintN MIN_CARD_POOL MAX_CARD_POOL)
  let l := (List.range tp.1).foldl (fun st _ => st.genPoolCard) tp.2
  let sp := l.withRng (fun r => r.choice (l.cards.map (·.id)) 0)
  let cs := updateCard sp.2.cards sp.1 (fun c => { c with seasonal_special := true })
  { sp.2 with cards := cs }

/-- `League.__init__`: empty state, then teams, synergy table, card pool.
`idStart` is the value the module-level card-id counter happens to hold
when the constructor runs. -/
def mkLeague (rs : RS) (idStart : ℕ) (human_team_name : Option String) : League :=
  let l : League :=
    { rng := rs, season := 1, teams := [], cards := [], synergies := [],
      history := [], game_log := [], playoff_bracket := [], card_counter := idStart }
  ((l.generate_teams human_team_name).generate_synergies).generate_card_pool

/-! ### Patch notes (`league.py` lines 468–552) -/

def lookupSyn (ss : List Synergy) (code : String) : Synergy :=
  (ss.find? (fun s => s.code = code)).getD
    { code := code, name := "", description := "", requires_archetypes := [],
      requires_atktypes := [], power_mult := 1, history := [] }

def updateSyn (ss : List Synergy) (code : String) (f : Synergy → Synergy) : List Synergy :=
  ss.map (fun s => if s.code = code then f s else s)

def clampStat (x : ℤ) : ℤ := max 0 (min 100 x)

/-- Apply the five non-zero stat deltas of a buff/nerf, in declaration
order, clamped to `[0, 100]`. -/
def buffUpd (d1 d2 d3 d4 d5 : ℤ) (c : Card) : Card :=
  let c := if d1 ≠ 0 then { c with atk := clampStat (c.atk + d1) } else c
  let c := if d2 ≠ 0 then { c with defense := clampStat (c.defense + d2) } else c
  let c := if d3 ≠ 0 then { c with speed := clampStat (c.speed + d3) } else c
  let c := if d4 ≠ 0 then { c with hit_speed := clampStat (c.hit_speed + d4) } else c
  if d5 ≠ 0 then { c with stamina := clampStat (c.stamina + d5) } else c

/-- `League._buff_card`: five `choice([0,1,2,3])` draws, one per stat in
declaration order; non-zero deltas are applied (clamped to `[0,100]`) and
recorded. -/
def League.buff_card (l : League) (cid : ℕ) : List (String × ℤ) × League :=
  let d1 := l.withRng (fun r => r.choice ([0, 1, 2, 3] : List ℤ) 0)
  let d2 := d1.2.withRng (fun r => r.choice ([0, 1, 2, 3] : List ℤ) 0)
  let d3 := d2.2.withRng (fun r => r.choice ([0, 1, 2, 3] : List ℤ) 0)
  let d4 := d3.2.withRng (fun r => r.choice ([0, 1, 2, 3] : List ℤ) 0)
  let d5 := d4.2.withRng (fun r => r.choice ([0, 1, 2, 3] : List ℤ) 0)
  let l := d5.2
  let deltas := (([("atk", d1.1), ("defense", d2.1), ("speed", d3.1),
      ("hit_speed", d4.1), ("stamina", d5.1)] : List (String × ℤ))).filter
      (fun p => p.2 ≠ 0)
  (deltas, { l with cards := updateCard l.cards cid (buffUpd d1.1 d2.1 d3.1 d4.1 d5.1) })

/-- `League._nerf_card`: as `_buff_card` with negated draws. -/
def League.nerf_card (l : League) (cid : ℕ) : List (String × ℤ) × League :=
  let d1 := l.withRng (fun r => r.choice ([0, 1, 2, 3] : List ℤ) 0)
  let d2 := d1.2.withRng (fun r => r.choice ([0, 1, 2, 3] : List ℤ) 0)
  let d3 := d2.2.withRng (fun r => r.choice ([0, 1, 2, 3] : List ℤ) 0)
  let d4 := d3.2.withRng (fun r => r.choice ([0, 1, 2, 3] : List ℤ) 0)
  let d5 := d4.2.withRng (fun r => r.choice ([0, 1, 2, 3] : List ℤ) 0)
  let l := d5.2
  let e1 := -d1.1
  let e2 := -d2.1
  let e3 := -d3.1
  let e4 := -d4.1
  let e5 := -d5.1
  let deltas := (([("atk", e1), ("defense", e2), ("speed", e3),
      ("hit_speed", e4), ("stamina", e5)] : List (String × ℤ))).filter
      (fun p => p.2 ≠ 0)
  (deltas, { l with cards := updateCard l.cards cid (buffUpd e1 e2 e3 e4 e5) })

/-- The snapshot of a card's stats appended to `stat_history`. -/
def statSnapshot (c : Card) : List (String × ℤ) :=
  [("atk", c.atk), ("defense", c.defense), ("speed", c.speed),
   ("hit_speed", c.hit_speed), ("stamina", c.stamina)]

/-- `League._gm_or_fan_reaction` (flavor text abbreviated; it feeds no
computation). -/
def gmOrFanReaction (c : Card) (buff : Bool) : String :=
  if buff then "Fan: " ++ c.name ++ " finally got love. Patch W."
  else "GM: " ++ c.name ++ " got nerfed before draft... rigged."

/-- The history/reaction tag appended to a freshly patched card. -/
def patchTag (season : ℕ) (buff : Bool) (c : Card) : Card :=
  { c with ovr_history := c.ovr_history ++ [(season, c.ovr)],
           stat_history := c.stat_history ++ [(season, statSnapshot c)],
           patch_reactions := c.patch_reactions ++ [gmOrFanReaction c buff] }

/-- One card entry of the buff/nerf pass of `_generate_patch_notes`. -/
def League.patchOneCard (l : League) (cid : ℕ) (buff : Bool) :
    PatchChange × League :=
  let dp := if buff then l.buff_card cid else l.nerf_card cid
  let l := dp.2
  let before := (lookupCard l.cards cid).ovr
  let l := { l with cards := updateCard l.cards cid Card.compute_ovr }
  let cAfter := lookupCard l.cards cid
  let note : PatchChange :=
    { season := l.season, card_id := some cid, stat_deltas := dp.1,
      ovr_before := some before, ovr_after := some cAfter.ovr,
      reason := if buff then "buff_low_usage" else "nerf_high_usage",
      msg := (if buff then "Buffed " else "Nerfed ") ++ cAfter.name ++
        " (" ++ toString ((dp.1.map (fun p => if buff then max 0 p.2 else min 0 p.2)).sum) ++
        " total)." }
  let l := { l with cards := updateCard l.cards cid (patchTag l.season buff) }
  (note, l)

/-- Lexicographic order on the `(pick_rate, usage)` sort key. -/
def lexLeQQ (p q : ℚ × ℚ) : Bool := p.1 < q.1 ∨ (p.1 = q.1 ∧ p.2 ≤ q.2)

/-- One synergy of the multiplier-shift pass of `_generate_patch_notes`. -/
def synShiftStep (acc : List PatchChange × League) (code : String) :
    List PatchChange × League :=
  let st := acc.2
  let s := lookupSyn st.synergies code
  let before := s.power_mult
  let shp := st.withRng (fun r => r.choice ([-2/100, -1/100, 1/100, 2/100] : List ℚ) 0)
  let newMult := max (95/100) (min (110/100) (pyRound3 (s.power_mult + shp.1)))
  let st := { shp.2 with synergies := updateSyn shp.2.synergies code (fun t =>
    { t with power_mult := newMult, history := t.history ++ [(shp.2.season, newMult)] }) }
  let note : PatchChange :=
    { season := st.season, card_id := none, stat_deltas := [],
      ovr_before := none, ovr_after := none, reason := "synergy_shift",
      msg := "Synergy " ++ s.name ++ " " ++
        (if before < newMult then "buffed" else "nerfed") }
  (acc.1 ++ [note], st)

/-- `League._generate_patch_notes` (lines 468–526). -/
def League.generate_patch_notes (l : League) :
    (List PatchChange × List PatchChange) × League :=
  let key := fun (c : Card) => (c.pick_rate_pct l.season, c.usage_pct)
  let n := max 8 (l.cards.length / 20)
  let lowIds := ((stableSort (fun a b => lexLeQQ (key a) (key b)) l.cards).take n).map (·.id)
  let highIds := ((stableSort (fun a b => lexLeQQ (key b) (key a)) l.cards).take n).map (·.id)
  let bp := lowIds.foldl
    (fun (acc : List PatchChange × League) cid =>
      let q := acc.2.patchOneCard cid true
      (acc.1 ++ [q.1], q.2))
    ([], l)
  let np := highIds.foldl
    (fun (acc : List PatchChange × League) cid =>
      let q := acc.2.patchOneCard cid false
      (acc.1 ++ [q.1], q.2))
    ([], bp.2)
  let l := np.2
  let sh := l.withRng (fun r => r.shuffle l.synergies
    { code := "", name := "", description := "", requires_archetypes := [],
      requires_atktypes := [], power_mult := 1, history := [] })
  let cc := sh.2.withRng (fun r => r.randintN 2 5)
  let sp := ((sh.1.take cc.1).map (·.code)).foldl synShiftStep ([], cc.2)
  ((bp.1 ++ np.1, sp.1), sp.2)

/-! ### Synergy multiplier and the power model (lines 696–702, 858–863) -/

/-- `League._effective_synergy_multiplier`: the product of the multipliers of
every active rule, clamped to `[0.9, 1.2]`. -/
def League.effective_synergy_multiplier (l : League) (starters : List Card) : ℚ :=
  qclamp (9/10) (6/5)
    (l.synergies.foldl (fun m s => if s.active starters then m * s.power_mult else m) 1)

/-- `League._team_effective_power`: mean starter OVR scaled to `[0,1]` times
the clamped synergy multiplier.  This is the whole power model of the
source; it reads nothing but the starters and the synergy table. -/
def League.team_effective_power (l : League) (starters : List Card) : ℚ :=
  qmean (starters.map (fun c => (c.ovr : ℚ))) / 100 *
    l.effective_synergy_multiplier starters

/-- Modelled from the spec: the Power Model contract of section 4.3 —
base rating times synergy multiplier times a chemistry factor (bounded,
rewarding continuity), minus a fatigue penalty applied multiplicatively,
times any transient buff, all factors multiplicative. -/
def team_power_spec (base syn chem fat buff : ℚ) : ℚ :=
  base * syn * (1 + chem) * (1 - fat) * buff

/-! ### Draft engine (`league.py` lines 556–740) -/

/-- The per-round pick order: the lottery order in even (0-based) rounds,
its reverse in odd rounds — `order if rnd % 2 == 0 else reversed(order)`. -/
def snakeOrder (order : List String) (rnd : ℕ) : List String :=
  if rnd % 2 = 0 then order else order.reverse

/-- The full sequence of `(round, team)` turns of the nested draft loops. -/
def draftTurns (order : List String) (rounds : ℕ) : List (ℕ × String) :=
  (List.range rounds).flatMap (fun rnd => (snakeOrder order rnd).map (fun t => (rnd, t)))

/-- `League._draft_lottery_order` (lines 603–618). -/
def League.draft_lottery_order (l : League) : List String × League :=
  let names := l.teams.map (·.name)
  let p := l.withRng (fun r => r.shuffle names "")
  if l.history.isEmpty then (p.1, p.2)
  else
    let team_perf := fun n =>
      ((lookupTeam l.teams n).wins : ℤ) - ((lookupTeam l.teams n).losses : ℤ)
    (stableSort (fun a b => team_perf a ≤ team_perf b) p.1, p.2)

/-- One rookie of `League._generate_rookies` (lines 620–650). -/
def League.genRookie (l : League) : Card × League :=
  let idp := l.next_card_id
  let cid := idp.1
  let namep := idp.2.generate_card_name
  let archep := namep.2.withRng (fun r => r.choice allArchetypes .BALANCED)
  let atypep := archep.2.withRng (fun r => r.choice allAtkTypes .MELEE)
  let basep := atypep.2.withRng (fun r => r.randintN 40 88)
  let base : ℤ := basep.1
  let v1 := basep.2.withRng (fun r => r.randBelow 16)
  let v2 := v1.2.withRng (fun r => r.randBelow 16)
  let v3 := v2.2.withRng (fun r => r.randBelow 16)
  let v4 := v3.2.withRng (fun r => r.randBelow 16)
  let v5 := v4.2.withRng (fun r => r.randBelow 16)
  let rstat := fun (v : ℕ) => max 35 (min 95 (base + (v : ℤ) - 5))
  let slp := v5.2.withRng (fun r => r.randintN SEASON_MIN_LIFE SEASON_MAX_LIFE)
  let st := slp.2
  let card : Card :=
    ({ id := cid, name := namep.1, archetype := archep.1, atk_type := atypep.1,
       atk := rstat v1.1, defense := rstat v2.1, speed := rstat v3.1,
       hit_speed := rstat v4.1, stamina := rstat v5.1,
       seasons_left := (slp.1 : ℤ), rookie_season := st.season } : Card).compute_ovr
  let card := { card with
    ovr_history := [(st.season, card.ovr)],
    stat_history := [(st.season, statSnapshot card)] }
  (card, { st with cards := st.cards ++ [card] })

def League.generate_rookies (l : League) (count : ℕ) : List Card × League :=
  (List.range count).foldl
    (fun (acc : List Card × League) _ =>
      let p := acc.2.genRookie
      (acc.1 ++ [p.1], p.2))
    ([], l)

/-- `League._draft_combine_view` (lines 652–663): one `choice` draw per card
for the variance tag; the view itself feeds no downstream computation. -/
def League.draft_combine_view (l : League) (cards : List Card) :
    List (ℕ × String) × League :=
  cards.foldl
    (fun (acc : List (ℕ × String) × League) c =>
      let p := acc.2.withRng (fun r => r.choice ["low", "medium", "high"] "")
      (acc.1 ++ [(c.id, p.1)], p.2))
    ([], l)

/-- One candidate of the scoring loop of `_choose_best_pick`: the GM-style
bias (with a per-candidate uniform draw for risk-taker GMs) and the combined
score appended to the scored list. -/
def scoredStep (gm_style : String) (fit value : Card → ℚ)
    (acc : List (Card × ℚ) × League) (c : Card) : List (Card × ℚ) × League :=
  let bias :=
    if gm_style = "star_chaser" then ((c.ovr : ℚ) / 100, acc.2)
    else if gm_style = "synergy_focused" then (fit c * 5, acc.2)
    else if gm_style = "risk_taker" then
      acc.2.withRng (fun r => r.uniform (-5/100) (5/100))
    else (0, acc.2)
  (acc.1 ++ [(c, (c.ovr : ℚ) / 100 + fit c + value c * (1/2) + bias.1)], bias.2)

/-- The candidate-scoring fold of `_choose_best_pick` (lines 676–690). -/
def League.scoredFold (l : League) (gm_style : String) (fit value : Card → ℚ)
    (cands : List Card) : List (Card × ℚ) × League :=
  cands.foldl (scoredStep gm_style fit value) ([], l)

/-- The synergy-fit term of a candidate's score. -/
def pickFit (l : League) (current_starters : List Card) (c : Card) : ℚ :=
  l.effective_synergy_multiplier ((current_starters ++ [c]).take STARTERS) - 1

/-- The OVR-plus-round-bonus value term of a candidate's score. -/
def pickValue (rnd : ℕ) (c : Card) : ℚ :=
  (c.ovr : ℚ) / 100 + (((max 0 (3 - (rnd : ℤ)) * 2 : ℤ) : ℚ)) / 10

/-- `League._choose_best_pick` (lines 665–694). -/
def League.choose_best_pick (l : League) (team_name : String) (board : List Card)
    (taken : List ℕ) (rnd : ℕ) : Option Card × League :=
  let team := lookupTeam l.teams team_name
  let candidates := board.filter (fun c => ¬ taken.contains c.id ∧ 0 < c.seasons_left)
  if candidates.isEmpty then (none, l)
  else
    let current_starters := team.starters.map (lookupCard l.cards)
    let scored := l.scoredFold team.gm_style (pickFit l current_starters)
      (pickValue rnd) candidates
    match pyMaxBy (fun p => p.2) scored.1 with
    | some p => (some p.1, scored.2)
    | none => (none, scored.2)

/-- `League._letter_from_score` (lines 728–740). -/
def letter_from_score (score : ℚ) : String :=
  if 90 ≤ score then "A+"
  else if 85 ≤ score then "A"
  else if 80 ≤ score then "A-"
  else if 75 ≤ score then "B+"
  else if 70 ≤ score then "B"
  else if 65 ≤ score then "B-"
  else if 60 ≤ score then "C+"
  else if 55 ≤ score then "C"
  else if 50 ≤ score then "C-"
  else if 45 ≤ score then "D+"
  else if 40 ≤ score then "D"
  else "F"

/-- `League._compute_draft_grades` (lines 704–726). -/
def League.compute_draft_grades (l : League) (order : List String) : List DraftGrade :=
  order.map (fun team_name =>
    let t := lookupTeam l.teams team_name
    let picked := t.roster.map (lookupCard l.cards)
    if picked.isEmpty then
      { team := team_name, letter := "C", score := 75,
        components := [("ovr", 0), ("synergy", 0), ("value", 0)] }
    else
      let avg_ovr := qmean (picked.map (fun c => (c.ovr : ℚ)))
      let starters := t.starters.map (lookupCard l.cards)
      let synergy_fit := (l.effective_synergy_multiplier starters - 1) * 100
      let league_avg := qmean ((t.roster.map (lookupCard l.cards)).map (fun c => (c.ovr : ℚ)))
      let value := avg_ovr - league_avg
      let score := GRADE_W_OVR * avg_ovr + GRADE_W_SYNERGY * (50 + synergy_fit) +
        GRADE_W_VALUE * (50 + value)
      { team := team_name, letter := letter_from_score score, score := score,
        components := [("ovr", avg_ovr), ("synergy", synergy_fit), ("value", value)] })

/-- The roster/record reset at the top of `_run_draft` (lines 557–566). -/
def resetTeamForSeason (t : Team) : Team :=
  { t with
    roster := [], starters := [], backup := none, wins := 0, losses := 0,
    crowns_for := 0, crowns_against := 0, season_card_crowns := [],
    season_card_contrib := [], rivalry_boost_games_left := 0 }

/-- The draft board: every card with positive remaining lifespan. -/
def draftBoard (cards : List Card) : List Card :=
  cards.filter (fun c => 0 < c.seasons_left)

/-- One turn of the pick loop of `_run_draft`: ask `_choose_best_pick` for a
card; on success append it to the picking team's roster and to `taken`. -/
def draftStep (board : List Card) (acc : League × List ℕ) (turn : ℕ × String) :
    League × List ℕ :=
  let pick := acc.1.choose_best_pick turn.2 board acc.2 turn.1
  match pick.1 with
  | none => (pick.2, acc.2)
  | some c =>
    let ts := updateTeam pick.2.teams turn.2
      (fun t => { t with roster := t.roster ++ [c.id] })
    ({ pick.2 with teams := ts }, acc.2 ++ [c.id])

/-- The pick loop of `_run_draft`: fold the snake turns, tracking taken ids. -/
def League.draftLoop (l : League) (board : List Card) (turns : List (ℕ × String)) :
    League × List ℕ :=
  turns.foldl (draftStep board) (l, [])

/-- The roster-history tag applied to one picked card. -/
def rosterTagStep (name : String) (s2 : League) (cid : ℕ) : League :=
  let cs := updateCard s2.cards cid (fun c =>
    { c with
      pick_seasons := c.pick_seasons + 1,
      teams_history := c.teams_history ++ [name] })
  { s2 with cards := cs }

/-- One team of the starters/backup assignment. -/
def starterStep (st : League) (name : String) : League :=
  let t := lookupTeam st.teams name
  let picked := stableSort (fun a b => b.ovr ≤ a.ovr) (t.roster.map (lookupCard st.cards))
  let starters := (picked.take STARTERS).map (·.id)
  let backup := if STARTERS < picked.length
    then some ((picked.getD STARTERS defaultCard).id) else none
  let ts := updateTeam st.teams name
    (fun u => { u with starters := starters, backup := backup })
  let st := { st with teams := ts }
  t.roster.foldl (rosterTagStep name) st

/-- The starters/backup assignment after the pick loop (lines 590–597). -/
def League.assignStarters (l : League) : League :=
  (l.teams.map (·.name)).foldl starterStep l

/-- `League._run_draft` (lines 556–601). -/
def League.run_draft (l : League) : List DraftGrade × League :=
  let l := { l with teams := l.teams.map resetTeamForSeason }
  let op := l.draft_lottery_order
  let order := op.1
  let rp := op.2.generate_rookies 4
  let board := draftBoard rp.2.cards
  let cv := rp.2.draft_combine_view (rp.1 ++ board)
  let dl := cv.2.draftLoop board (draftTurns order ROSTER_SIZE)
  let l := dl.1.assignStarters
  (l.compute_draft_grades order, l)

/-! ### Game simulator (`League._simulate_game`, lines 756–856) -/

/-- The crown-conversion block of `_simulate_game` (lines 778–791): share of
the home score, three crowns split by rounding, the tie-break branch, and the
final clamps. -/
def crowns_from_scores (score_home score_away : ℚ) : ℤ × ℤ :=
  let base := max (1/10) (score_home + score_away)
  let p_home := score_home / base
  let hc := pyRound (3 * p_home)
  let ac := 3 - hc
  let pair :=
    if hc = ac then
      if score_away ≤ score_home then (hc + 1, ac - 1) else (hc - 1, ac + 1)
    else (hc, ac)
  (iclamp 0 3 pair.1, iclamp 0 3 pair.2)

/-- Whether the tie-break branch of the crown conversion fires. -/
def tieBreakTaken (score_home score_away : ℚ) : Prop :=
  let base := max (1/10) (score_home + score_away)
  let hc := pyRound (3 * (score_home / base))
  hc = 3 - hc

instance (sh sa : ℚ) : Decidable (tieBreakTaken sh sa) := by
  unfold tieBreakTaken; infer_instance

/-- The transient rivalry-win buff consumed by the simulator:
`1.0 + (RIVALRY_WIN_BUFF_PCT if boost_games_left > 0 else 0.0)`. -/
def rivalryMult (boost_left : ℕ) : ℚ :=
  1 + (if 0 < boost_left then RIVALRY_WIN_BUFF_PCT else 0)

/-- The weighted-attribution weights: `max(1, atk + speed + hit_speed)`. -/
def crownWeights (pool : List Card) : List ℤ :=
  pool.map (fun c => max 1 (c.atk + c.speed + c.hit_speed))

/-- One crown of the weighted attribution loop of `_simulate_game`. -/
def crownStep (team_name : String) (pool : List Card) (weights : List ℤ)
    (acc : List (String × List (ℕ × ℕ)) × List String × League) (_ : ℕ) :
    List (String × List (ℕ × ℕ)) × List String × League :=
  let ip := acc.2.2.withRng (fun r => r.choicesIdx weights)
  let pick := pool.getD ip.1 defaultCard
  let dets := alUpd acc.1 team_name []
    (fun inner => alUpd inner pick.id 0 (fun k => k + 1))
  let hp := ip.2.withRng RS.random01
  let hls := if hp.1 < 1/4
    then acc.2.1 ++ ["Crown highlight: " ++ pick.name] else acc.2.1
  (dets, hls, hp.2)

/-- The per-card career/tally update after the crown loop. -/
def tallyStep (team_name : String) (inner : List (ℕ × ℕ)) (crowns : ℤ)
    (st : League) (c : Card) : League :=
  let scored := alGetD inner c.id 0
  let cs1 := updateCard st.cards c.id
    (fun d => { d with games_played := d.games_played + 1 })
  let st := { st with cards := cs1 }
  let ts1 := updateTeam st.teams team_name (fun t =>
    let v2 := alUpd t.season_card_contrib c.id 0
      (fun v => v + (scored : ℚ) / ((max 1 crowns : ℤ) : ℚ))
    { t with season_card_contrib := v2 })
  let st := { st with teams := ts1 }
  if alMem inner c.id then
    let cs2 := updateCard st.cards c.id (fun d =>
      { d with
        crowns_total := d.crowns_total + scored,
        crowns_high := max d.crowns_high scored,
        usage_games := d.usage_games + 1 })
    let st := { st with cards := cs2 }
    let ts2 := updateTeam st.teams team_name (fun t =>
      let v2 := alUpd t.season_card_crowns c.id 0 (fun v => v + scored)
      { t with season_card_crowns := v2 })
    { st with teams := ts2 }
  else st

/-- The crown-attribution pass for one side of a game: optional backup
substitution, weighted crown draws, highlight draws, then the career/tally
updates for the participating pool.  An empty pool (an `IndexError` in the
source, unreachable after a draft) records nothing and draws nothing. -/
def League.crownLoopTail (l : League) (team_name : String) (pool : List Card)
    (crowns : ℤ) (details : List (String × List (ℕ × ℕ))) (highlights : List String) :
    List (String × List (ℕ × ℕ)) × List String × League :=
  let weights := crownWeights pool
  let cl :=
    if pool.isEmpty then (details, highlights, l) else
    (List.range crowns.toNat).foldl (crownStep team_name pool weights)
      (details, highlights, l)
  let detsAfter := cl.1
  let inner := alGetD detsAfter team_name []
  let l3 := pool.foldl (tallyStep team_name inner crowns) cl.2.2
  (detsAfter, cl.2.1, l3)

def League.distributeCrowns (l : League) (team_name : String) (starters : List Card)
    (crowns : ℤ) (details : List (String × List (ℕ × ℕ))) (highlights : List String) :
    List (String × List (ℕ × ℕ)) × List String × League :=
  let team := lookupTeam l.teams team_name
  let poolp : List Card × League :=
    match team.backup with
    | some b =>
      let u := l.withRng RS.random01
      if u.1 < 1/4 then (starters.take 2 ++ [lookupCard u.2.cards b], u.2)
      else (starters, u.2)
    | none => (starters, l)
  poolp.2.crownLoopTail team_name poolp.1 crowns details highlights

/-- One jittered step of the win-probability flavor series. -/
def wpStep (acc : ℚ × List (ℕ × ℚ) × League) (i : ℕ) :
    ℚ × List (ℕ × ℚ) × League :=
  let jp := acc.2.2.withRng (fun r => r.uniform (-1/50) (1/50))
  let prob := max (1/20) (min (19/20) (acc.1 + jp.1))
  (prob, acc.2.1 ++ [(10 * i, prob)], jp.2)

/-- The post-game win-probability flavor series (18 jittered steps). -/
def League.winProbSeries (l : League) (hc ac : ℤ) : List (ℕ × ℚ) × League :=
  let start : ℚ := 1/2 + ((hc - ac : ℤ) : ℚ) * (1/10)
  let w := (List.range 18).foldl wpStep (start, [], l)
  (w.2.1, w.2.2)

/-- The rivalry-boost counter decrement at the top of `_simulate_game`. -/
def League.decBoost (l : League) (name : String) : League :=
  let ts := updateTeam l.teams name (fun t =>
    if 0 < t.rivalry_boost_games_left
    then { t with rivalry_boost_games_left := t.rivalry_boost_games_left - 1 } else t)
  { l with teams := ts }

/-- The two luck draws and the pre-crown scalar scores of `_simulate_game`:
`score = POWER_WEIGHT * eff + LUCK_WEIGHT * luck` per side. -/
def League.gameScores (l : League) (home away : String) : (ℚ × ℚ) × League :=
  let t_home := lookupTeam l.teams home
  let t_away := lookupTeam l.teams away
  let starters_home := t_home.starters.map (lookupCard l.cards)
  let starters_away := t_away.starters.map (lookupCard l.cards)
  let mult_home := rivalryMult t_home.rivalry_boost_games_left
  let mult_away := rivalryMult t_away.rivalry_boost_games_left
  let l := (l.decBoost home).decBoost away
  let eff_home := l.team_effective_power starters_home * mult_home
  let eff_away := l.team_effective_power starters_away * mult_away
  let lh := l.withRng RS.random01
  let la := lh.2.withRng RS.random01
  let luck_home : ℚ := 9/10 + lh.1 * (2/10)
  let luck_away : ℚ := 9/10 + la.1 * (2/10)
  ((POWER_WEIGHT * eff_home + LUCK_WEIGHT * luck_home,
    POWER_WEIGHT * eff_away + LUCK_WEIGHT * luck_away), la.2)

/-- The win/loss and crowns-for/against bookkeeping of `_simulate_game`. -/
def League.updateGameRecords (l : League) (home away : String) (hc ac : ℤ) : League :=
  let l :=
    if ac < hc then
      let l := { l with teams := updateTeam l.teams home (fun t => { t with wins := t.wins + 1 }) }
      { l with teams := updateTeam l.teams away (fun t => { t with losses := t.losses + 1 }) }
    else
      let l := { l with teams := updateTeam l.teams away (fun t => { t with wins := t.wins + 1 }) }
      { l with teams := updateTeam l.teams home (fun t => { t with losses := t.losses + 1 }) }
  let ts1 := updateTeam l.teams home (fun t =>
    { t with
      crowns_for := t.crowns_for + hc.toNat,
      crowns_against := t.crowns_against + ac.toNat })
  let l := { l with teams := ts1 }
  let ts2 := updateTeam l.teams away (fun t =>
    { t with
      crowns_for := t.crowns_for + ac.toNat,
      crowns_against := t.crowns_against + hc.toNat })
  { l with teams := ts2 }

/-- The rivalry-intensity update of `_simulate_game`: both directions gain
`RIVALRY_GAIN` (the reverse direction is symmetric in every reachable state;
a missing reverse key would be a `KeyError` in the source and is treated as
an insert here), and the winner receives the two-game boost. -/
def League.updateRivalryState (l : League) (home away : String) (hc ac : ℤ) :
    Option String × League :=
  let isRival := alMem (lookupTeam l.teams home).rivals away
  if isRival then
    let ts1 := updateTeam l.teams home (fun t =>
      { t with rivals := alUpd t.rivals away 0 (fun v => v + RIVALRY_GAIN) })
    let l := { l with teams := ts1 }
    let ts2 := updateTeam l.teams away (fun t =>
      { t with rivals := alUpd t.rivals home 0 (fun v => v + RIVALRY_GAIN) })
    let l := { l with teams := ts2 }
    let l :=
      if ac < hc then
        { l with teams := updateTeam l.teams home (fun t =>
          { t with rivalry_boost_games_left := RIVALRY_WIN_BUFF_GAMES }) }
      else
        { l with teams := updateTeam l.teams away (fun t =>
          { t with rivalry_boost_games_left := RIVALRY_WIN_BUFF_GAMES }) }
    (some ("Rivalry " ++ home ++ " vs " ++ away ++ " intensifies!"), l)
  else (none, l)

/-- `League._simulate_game` (lines 756–856). -/
def League.simulate_game (l : League) (home away : String) (week : ℕ) :
    GameResult × League :=
  let t_home := lookupTeam l.teams home
  let t_away := lookupTeam l.teams away
  let starters_home := t_home.starters.map (lookupCard l.cards)
  let starters_away := t_away.starters.map (lookupCard l.cards)
  let sc := l.gameScores home away
  let cr := crowns_from_scores sc.1.1 sc.1.2
  let home_crowns := cr.1
  let away_crowns := cr.2
  let d0 : List (String × List (ℕ × ℕ)) := [(home, []), (away, [])]
  let dh := sc.2.distributeCrowns home starters_home home_crowns d0 []
  let da := dh.2.2.distributeCrowns away starters_away away_crowns dh.1 dh.2.1
  let l := (da.2.2.updateGameRecords home away home_crowns away_crowns)
  let rv := l.updateRivalryState home away home_crowns away_crowns
  let wp := rv.2.winProbSeries home_crowns away_crowns
  let res : GameResult :=
    { season := wp.2.season, week := week, home := home, away := away,
      home_crowns := home_crowns, away_crowns := away_crowns,
      details := da.1, highlights := da.2.1, rivalry_proc := rv.1,
      win_prob_series := wp.1 }
  (res, wp.2)

/-! ### Playoffs (`league.py` lines 867–902) -/

/-- Lexicographic order on the `(wins, crown differential)` seeding key. -/
def lexLeZZ (p q : ℤ × ℤ) : Bool := p.1 < q.1 ∨ (p.1 = q.1 ∧ p.2 ≤ q.2)

/-- `League._seed_playoffs`: top 16 by wins (ties by crown differential),
paired 1v16, 2v15, ... -/
def League.seed_playoffs (l : League) : List (String × String) :=
  let key := fun (t : Team) =>
    ((t.wins : ℤ), (t.crowns_for : ℤ) - (t.crowns_against : ℤ))
  let sorted := stableSort (fun a b => lexLeZZ (key b) (key a)) l.teams
  let top16 := sorted.take 16
  (List.range 8).map (fun i =>
    ((top16.getD i defaultTeam).name,
     (top16.getD (top16.length - (i + 1)) defaultTeam).name))

/-- The best-of-five series of `_run_playoffs` (first to three wins of
repeated playoff games between `a` at home and `b` away); the fuel bound of
6 dominates the five possible games. -/
def League.playSeriesGo (a b : String) :
    ℕ → ℕ → ℕ → League → String × League
  | 0, wa, wb, l => (if wb < wa then a else b, l)
  | fuel + 1, wa, wb, l =>
    if wa < 3 ∧ wb < 3 then
      let res := l.simulate_game a b 0
      if res.1.home = a ∧ res.1.away_crowns < res.1.home_crowns then
        League.playSeriesGo a b fuel (wa + 1) wb res.2
      else
        League.playSeriesGo a b fuel wa (wb + 1) res.2
    else (if wb < wa then a else b, l)

def League.playSeries (l : League) (a b : String) : String × League :=
  League.playSeriesGo a b 6 0 0 l

/-- One playoff round: resolve every pairing in order into a winner list. -/
def League.playoffRound (l : League) (current : List (String × String)) :
    List String × League :=
  current.foldl
    (fun (acc : List String × League) ab =>
      let p := acc.2.playSeries ab.1 ab.2
      (acc.1 ++ [p.1], p.2))
    ([], l)

/-- `zip(names[::2], names[1::2])`. -/
def pairUp : List α → List (α × α)
  | a :: b :: rest => (a, b) :: pairUp rest
  | _ => []

/-- The `while len(current) > 1` loop of `_run_playoffs`; each pass halves
the pairing list, so the fuel bound (the initial length) dominates the
number of passes. -/
def League.runPlayoffsGo :
    ℕ → List (String × String) → Option String × Option String → League →
    (Option String × Option String) × League
  | 0, _, fin, l => (fin, l)
  | fuel + 1, current, fin, l =>
    if current.length ≤ 1 then (fin, l)
    else
      let rp := l.playoffRound current
      let next := pairUp rp.1
      let fin' :=
        if next.length = 1 then
          (some (next.getD 0 ("", "")).1, some (next.getD 0 ("", "")).2)
        else fin
      League.runPlayoffsGo fuel next fin' rp.2

/-- `League._run_playoffs` (lines 876–902): resolve rounds while more than
one pairing remains, then crown `finalists[0]` and award rings and dynasty
points.  A missing champion (a `KeyError` on `None` in the source,
unreachable from the seeded 8-pair bracket) updates nothing. -/
def League.run_playoffs (l : League) (bracket : List (String × String)) :
    (Option String × (Option String × Option String)) × League :=
  let go := League.runPlayoffsGo (bracket.length + 1) bracket (none, none) l
  let finalists := go.1
  let champion := finalists.1
  let l := go.2
  let l :=
    match champion with
    | some c =>
      { l with teams := updateTeam l.teams c (fun t =>
        { t with rings := t.rings + 1, dynasty_points := t.dynasty_points + 3 }) }
    | none => l
  let l :=
    match finalists.2 with
    | some f =>
      { l with teams := updateTeam l.teams f (fun t =>
        { t with dynasty_points := t.dynasty_points + 2 }) }
    | none => l
  ((champion, finalists), l)

/-! ### Awards, history, offseason (`league.py` lines 906–1044) -/

def AWARD_POINTS_MVP : ℕ := 10
def AWARD_POINTS_ALL_STAR : ℕ := 5
def AWARD_POINTS_MOTY : ℕ := 3
def AWARD_POINTS_MIP : ℕ := 4
def AWARD_POINTS_ALL_TEAM : ℕ := 2

/-- One roster card of the MVP scan. -/
def mvpInner (l : League) (team_factor : ℚ) (acc : Option Card × ℚ) (cid : ℕ) :
    Option Card × ℚ :=
  let c := lookupCard l.cards cid
  let score := (c.crowns_total : ℚ) * team_factor
  if acc.2 < score then (some c, score) else acc

/-- One team of the MVP scan. -/
def mvpOuter (l : League) (acc : Option Card × ℚ) (t : Team) : Option Card × ℚ :=
  let team_factor : ℚ := 1 + (t.wins : ℚ) / ((max 1 (t.wins + t.losses) : ℕ) : ℚ)
  t.roster.foldl (mvpInner l team_factor) acc

/-- The MVP scan of `_compute_awards`: the first roster card (team order,
then roster order) whose crown total weighted by team success strictly beats
every earlier one. -/
def League.mvpScan (l : League) : Option Card :=
  (l.teams.foldl (mvpOuter l) (none, -1)).1

/-- One card of the most-improved scan. -/
def mipStep (acc : Option Card × ℤ) (c : Card) : Option Card × ℤ :=
  if 2 ≤ c.ovr_history.length then
    let prev := (c.ovr_history.getD (c.ovr_history.length - 2) (0, 0)).2
    let delta := c.ovr - prev
    if acc.2 < delta then (some c, delta) else acc
  else acc

/-- The most-improved scan of `_compute_awards`. -/
def League.mipScan (l : League) : Option Card :=
  (l.cards.foldl mipStep (none, -999)).1

/-- The top-performer scan inside the MOTY loop: first card (team order,
then insertion order) with strictly maximal crowns in the game.  `if
top_card:` in the source tests id truthiness; ids issued by the module
counter are positive, so it is a presence test. -/
def gtcStep (acc : Option ℕ × ℤ) (p : ℕ × ℕ) : Option ℕ × ℤ :=
  if acc.2 < (p.2 : ℤ) then (some p.1, (p.2 : ℤ)) else acc

def gameTopCard (g : GameResult) : Option ℕ :=
  (g.details.foldl
    (fun (acc : Option ℕ × ℤ) td => td.2.foldl gtcStep acc)
    (none, -1)).1

/-- One logged game of the MOTY selection loop. -/
def motyStep (acc : List (ℕ × ℕ) × ℕ) (g : GameResult) : List (ℕ × ℕ) × ℕ :=
  let hype := g.highlights.length + ((g.home_crowns - g.away_crowns).natAbs * 2)
  if 2 < hype ∧ acc.1.length < 6 then
    match gameTopCard g with
    | some cid => (acc.1 ++ [(acc.2, cid)], acc.2 + 1)
    | none => (acc.1, acc.2 + 1)
  else (acc.1, acc.2 + 1)

/-- The MOTY selection loop over the accumulated game log. -/
def League.motyScan (l : League) : List (ℕ × ℕ) :=
  (l.game_log.foldl motyStep ([], 0)).1

/-- Bump a named counter in a card's award tally. -/
def bumpAward (cards : List Card) (cid : ℕ) (award : String) : List Card :=
  updateCard cards cid (fun c => { c with awards := alUpd c.awards award 0 (fun n => n + 1) })

/-- `League._compute_awards` (lines 906–974). -/
def League.compute_awards (l : League) : AwardWinners × League :=
  let best := l.mvpScan
  let mip := l.mipScan
  let all_sorted := stableSort (fun a b => b.crowns_total ≤ a.crowns_total)
    (l.cards.filter (fun c => 0 < c.seasons_left))
  let first := (all_sorted.take 5).map (·.id)
  let second := ((all_sorted.drop 5).take 5).map (·.id)
  let third := ((all_sorted.drop 10).take 5).map (·.id)
  let all_star := (all_sorted.take 10).map (·.id)
  let moty := l.motyScan
  let l := match best with
    | some c => { l with cards := bumpAward l.cards c.id "MVP" }
    | none => l
  let l := match mip with
    | some c => { l with cards := bumpAward l.cards c.id "MIP" }
    | none => l
  let l := (first ++ second ++ third).foldl
    (fun st cid => { st with cards := bumpAward st.cards cid "ALL_TEAM" }) l
  let l := all_star.foldl
    (fun st cid =>
      let cs := updateCard (bumpAward st.cards cid "ALL_STAR") cid
        (fun c => { c with all_star_appearances := c.all_star_appearances + 1 })
      { st with cards := cs })
    l
  let l := moty.foldl
    (fun st p => { st with cards := bumpAward st.cards p.2 "MOTY" }) l
  ({ season := l.season,
     mvp := best.map (·.id), most_improved := mip.map (·.id),
     all_first := first, all_second := second, all_third := third,
     moty := moty, all_stars := all_star }, l)

/-- `League._update_leaders_and_history` (lines 976–986); the completed
record is both appended to the league history and handed back, since the
source mutates the very object `run_full_season` later returns. -/
def League.update_leaders_and_history (l : League) (hist : SeasonHistory) :
    SeasonHistory × League :=
  let crowns_leaders := (stableSort (fun a b => b.crowns_total ≤ a.crowns_total) l.cards).take 10
  let contrib_leaders := (stableSort (fun a b => b.contribution_sum ≤ a.contribution_sum) l.cards).take 10
  let usage_leaders := (stableSort (fun a b => b.usage_pct ≤ a.usage_pct) l.cards).take 10
  let hist := { hist with leaders :=
    [("crowns", crowns_leaders.map (·.id)),
     ("contribution", contrib_leaders.map (·.id)),
     ("usage", usage_leaders.map (·.id))] }
  (hist, { l with history := l.history ++ [hist] })

/-- `League._hof_score` (lines 1012–1037); note the crowns-per-game term
appears twice, as the source comment itself records. -/
def League.hof_score (l : League) (c : Card) : ℚ :=
  let career_ovr : ℚ :=
    if c.ovr_history.isEmpty then (c.ovr : ℚ)
    else qmean (c.ovr_history.map (fun p => (p.2 : ℚ)))
  let cpg : ℚ := (c.crowns_total : ℚ) / ((max 1 c.games_played : ℕ) : ℚ)
  let award_points : ℚ :=
    ((alGetD c.awards "MVP" 0) * AWARD_POINTS_MVP +
     c.all_star_appearances * AWARD_POINTS_ALL_STAR +
     (alGetD c.awards "MOTY" 0) * AWARD_POINTS_MOTY +
     (alGetD c.awards "MIP" 0) * AWARD_POINTS_MIP +
     (alGetD c.awards "ALL_TEAM" 0) * AWARD_POINTS_ALL_TEAM : ℕ)
  let champ_points : ℚ :=
    ((c.teams_history.dedup.map (fun n => (lookupTeam l.teams n).rings * CHAMPIONSHIP_POINTS)).sum : ℕ)
  career_ovr * (30/100) + (cpg * 100) * (25/100) + (cpg * 100) * (15/100) +
    award_points * (20/100) + champ_points * (10/100)

/-- The lifespan decrement of `_handle_retirements_and_rookies` applied to
one card: decrement positive `seasons_left` and log the season-end OVR. -/
def offseasonCard (season : ℕ) (c : Card) : Card :=
  if 0 < c.seasons_left then
    { c with
      seasons_left := c.seasons_left - 1,
      ovr_history := c.ovr_history ++ [(season, c.ovr)] }
  else c

/-- The one-time Hall-of-Fame evaluation for one freshly retired card. -/
def hofStep (st : League) (cid : ℕ) : League :=
  let score := st.hof_score (lookupCard st.cards cid)
  if HOF_GUARANTEE ≤ score then
    { st with cards := updateCard st.cards cid (fun c => { c with legend := true }) }
  else if HOF_BUBBLE_MIN ≤ score then
    let u := st.withRng RS.random01
    if u.1 < 1/2 then
      { u.2 with cards := updateCard u.2.cards cid (fun c => { c with legend := true }) }
    else u.2
  else st

/-- `League._handle_retirements_and_rookies` (lines 990–1008): decrement
lifespans, then run the one-time Hall-of-Fame evaluation for every card that
has just reached zero (a bubble score consumes one draw). -/
def League.handle_retirements_and_rookies (l : League) : League :=
  let l := { l with cards := l.cards.map (offseasonCard l.season) }
  let retired := (l.cards.filter (fun c => c.seasons_left = 0 ∧ ¬ c.legend)).map (·.id)
  retired.foldl hofStep l

/-- `League._decay_rivalries` (lines 1039–1044). -/
def League.decay_rivalries (l : League) : League :=
  { l with teams := l.teams.map (fun t =>
    let rv := (t.rivals.map (fun p => (p.1, p.2 - RIVALRY_DECAY))).filter
      (fun p => p.2 ≠ 0)
    { t with rivals := rv }) }

/-! ### Season orchestration (`League.run_full_season`, lines 424–464) -/

/-- `League._make_schedule` (lines 744–754): shuffle the team list, take
every unordered pair once, shuffle the pair list. -/
def League.make_schedule (l : League) : List (String × String) × League :=
  let p := l.withRng (fun r => r.shuffle (l.teams.map (·.name)) "")
  let q := p.2.withRng (fun r => r.shuffle (pairsComb p.1) ("", ""))
  (q.1, q.2)

/-- The regular-season loop: simulate each scheduled game in order, append
it to the log, and bump the week counter. -/
def League.playSchedule (l : League) (schedule : List (String × String)) : League :=
  (schedule.foldl
    (fun (acc : League × ℕ) g =>
      let res := acc.1.simulate_game g.1 g.2 acc.2
      ({ res.2 with game_log := res.2.game_log ++ [res.1] }, acc.2 + 1))
    (l, 1)).1

/-- `League.run_full_season` (lines 424–464). -/
def League.run_full_season (l : League) : SeasonHistory × League :=
  let hist : SeasonHistory := { season := l.season }
  let pp := l.generate_patch_notes
  let hist := { hist with patch_notes := pp.1.1, synergy_notes := pp.1.2 }
  let dp := pp.2.run_draft
  let hist := { hist with draft_grades := dp.1 }
  let sp := dp.2.make_schedule
  let l := sp.2.playSchedule sp.1
  let bracket := l.seed_playoffs
  let l := { l with playoff_bracket := bracket }
  let po := l.run_playoffs bracket
  let aw := po.2.compute_awards
  let hist := { hist with
    awards := some aw.1,
    champion := po.1.1,
    finalists := po.1.2 }
  let uh := aw.2.update_leaders_and_history hist
  let hist := uh.1
  let l := uh.2.handle_retirements_and_rookies
  let l := { l with season := l.season + 1 }
  let l := l.decay_rivalries
  (hist, l)

/-- `n` consecutive full seasons, as driven from the UI loop. -/
def runSeasons (l : League) : ℕ → League
  | 0 => l
  | n + 1 => ((runSeasons l n).run_full_season).2

/-! ### Query surface (`league.py` lines 1049–1153) -/

structure StandingsRow where
  team : String
  gm : String
  record : String
  cf : ℕ
  ca : ℕ
  rings : ℕ
deriving DecidableEq, Repr

/-- `Team.record_str`. -/
def Team.record_str (t : Team) : String := toString t.wins ++ "-" ++ toString t.losses

/-- `League.get_standings` (lines 1066–1072). -/
def League.get_standings (l : League) : List StandingsRow :=
  let key := fun (t : Team) =>
    ((t.wins : ℤ), (t.crowns_for : ℤ) - (t.crowns_against : ℤ))
  ((stableSort (fun a b => lexLeZZ (key b) (key a)) l.teams).map (fun t =>
    { team := t.name, gm := t.gm_name, record := t.record_str,
      cf := t.crowns_for, ca := t.crowns_against, rings := t.rings }))

/-- `League.get_playoff_bracket` (lines 1074–1075). -/
def League.get_playoff_bracket (l : League) : List (String × String) :=
  l.playoff_bracket

structure CardView where
  id : ℕ
  name : String
  ovr : ℤ
  archetype : String
  atk_type : String
deriving DecidableEq, Repr

/-- `League._card_view`. -/
def League.card_view (l : League) (cid : ℕ) : CardView :=
  let c := lookupCard l.cards cid
  { id := c.id, name := c.name, ovr := c.ovr,
    archetype := c.archetype.value, atk_type := c.atk_type.value }

/-- `League.get_league_leaders` (lines 1078–1088). -/
def League.get_league_leaders (l : League) (category : String)
    (season : Option ℕ := none) : List CardView :=
  let s := season.getD l.season
  match l.history.reverse.find? (fun h => h.season = s) with
  | none => []
  | some target =>
    match alGet target.leaders category with
    | none => []
    | some ids => ids.map l.card_view

/-- `League.get_last_draft_grades` (lines 1137–1141); scores are shown
rounded to one decimal. -/
def League.get_last_draft_grades (l : League) :
    List (String × String × ℚ × List (String × ℚ)) :=
  match l.history.reverse.find? (fun h => ¬ h.draft_grades.isEmpty) with
  | none => []
  | some h => h.draft_grades.map (fun g =>
      (g.team, g.letter, (pyRound (g.score * 10) : ℚ) / 10, g.components))

/-- `League.get_patch_notes` (lines 1049–1063): the card and synergy notes
of the requested (default: current) season, or a pair of empty lists. -/
def League.get_patch_notes (l : League) (season : Option ℕ := none) :
    List PatchChange × List PatchChange :=
  let s := season.getD l.season
  match l.history.reverse.find? (fun h => h.season = s) with
  | none => ([], [])
  | some target => (target.patch_notes, target.synergy_notes)

/-! ### Concrete fixtures used by the closed evaluation theorems -/

/-- A flat-statted Tank/Melee card with OVR 80. -/
def demoCard (n : ℕ) : Card :=
  { id := n, name := "Demo", archetype := .TANK, atk_type := .MELEE,
    atk := 80, defense := 80, speed := 80, hit_speed := 80, stamina := 80,
    seasons_left := 5, rookie_season := 1, ovr := 80 }

def demoStarters : List Card := [demoCard 1, demoCard 2, demoCard 3]

/-- A league state carrying the generated synergy registry and nothing else. -/
def demoLeague : League :=
  { rng := ⟨fun _ => 0, 0⟩, season := 1, teams := [], cards := [],
    synergies := generateSynergyTable, history := [], game_log := [],
    playoff_bracket := [], card_counter := 1 }

/-- The demo league holding a single card. -/
def demoLeague2 : League := { demoLeague with cards := [demoCard 1] }

/-- A flat-statted card with every base stat (and the stored OVR) equal to `v`. -/
def c2Card (n : ℕ) (v : ℤ) : Card :=
  { id := n, name := "C2", archetype := .TANK, atk_type := .MELEE,
    atk := v, defense := v, speed := v, hit_speed := v, stamina := v,
    seasons_left := 5, rookie_season := 1, ovr := v }

/-- A team whose roster and starters are the given card ids. -/
def c2Team (nm : String) (ids : List ℕ) : Team :=
  { name := nm, gm_name := "", gm_style := "", gm_social := "", gm_rivalry := "",
    roster := ids, starters := ids, backup := none }

/-- Four teams on an all-zero random stream: `A` and `B` field OVR-45
starters, `C` and `D` field OVR-90 starters; no synergies and no rivals. -/
def c2League : League :=
  { rng := ⟨fun _ => 0, 0⟩, season := 1,
    teams := [c2Team "A" [1, 2, 3], c2Team "B" [4, 5, 6],
              c2Team "C" [7, 8, 9], c2Team "D" [10, 11, 12]],
    cards := [c2Card 1 45, c2Card 2 45, c2Card 3 45, c2Card 4 45, c2Card 5 45,
              c2Card 6 45, c2Card 7 90, c2Card 8 90, c2Card 9 90,
              c2Card 10 90, c2Card 11 90, c2Card 12 90],
    synergies := [], history := [], game_log := [], playoff_bracket := [],
    card_counter := 13 }

/-- The query-relevant projection of a league: synergy table, season
history, stored playoff bracket. -/
def League.qview (l : League) :
    List Synergy × List SeasonHistory × List (String × String) :=
  (l.synergies, l.history, l.playoff_bracket)

/-- Positional card evolution: every card of `l` survives in `l'` at its
position with the same id, a never-increased lifespan, and a lifespan frozen
once it is no longer positive. -/
def CardsMono (l l' : League) : Prop :=
  ∀ i, i < l.cards.length →
    i < l'.cards.length ∧
    (l'.cards.getD i defaultCard).id = (l.cards.getD i defaultCard).id ∧
    (l'.cards.getD i defaultCard).seasons_left ≤
      (l.cards.getD i defaultCard).seasons_left ∧
    ((l.cards.getD i defaultCard).seasons_left ≤ 0 →
      (l'.cards.getD i defaultCard).seasons_left =
        (l.cards.getD i defaultCard).seasons_left)

/-! ### Card-id shift (claim C8)

`League.__init__` draws fresh card ids from the module-level counter, so a
second league built in the same process carries ids offset by whatever the
first consumed.  The shift maps rename every stored card id by `+ δ` and
leave everything else — names, stats, records, the rng — untouched. -/

/-- Rename a card id. -/
def shiftCard (δ : ℕ) (c : Card) : Card := { c with id := c.id + δ }

/-- Rename the card ids a team stores. -/
def shiftTeam (δ : ℕ) (t : Team) : Team :=
  { t with
    roster := t.roster.map (· + δ),
    starters := t.starters.map (· + δ),
    backup := t.backup.map (· + δ),
    season_card_crowns := t.season_card_crowns.map (fun p => (p.1 + δ, p.2)),
    season_card_contrib := t.season_card_contrib.map (fun p => (p.1 + δ, p.2)) }

/-- Rename the card ids in a game's crown-attribution details. -/
def shiftGame (δ : ℕ) (g : GameResult) : GameResult :=
  { g with details := g.details.map (fun d => (d.1, d.2.map (fun p => (p.1 + δ, p.2)))) }

def shiftAwards (δ : ℕ) (a : AwardWinners) : AwardWinners :=
  { a with
    mvp := a.mvp.map (· + δ),
    most_improved := a.most_improved.map (· + δ),
    all_first := a.all_first.map (· + δ),
    all_second := a.all_second.map (· + δ),
    all_third := a.all_third.map (· + δ),
    moty := a.moty.map (fun p => (p.1, p.2 + δ)),
    all_stars := a.all_stars.map (· + δ) }

def shiftPatch (δ : ℕ) (p : PatchChange) : PatchChange :=
  { p with card_id := p.card_id.map (· + δ) }

def shiftHistory (δ : ℕ) (h : SeasonHistory) : SeasonHistory :=
  { h with
    awards := h.awards.map (shiftAwards δ),
    leaders := h.leaders.map (fun p => (p.1, p.2.map (· + δ))),
    patch_notes := h.patch_notes.map (shiftPatch δ),
    synergy_notes := h.synergy_notes.map (shiftPatch δ) }

/-- Rename every stored card id of a league state by `+ δ`. -/
def shiftLeague (δ : ℕ) (l : League) : League :=
  { l with
    teams := l.teams.map (shiftTeam δ),
    cards := l.cards.map (shiftCard δ),
    history := l.history.map (shiftHistory δ),
    game_log := l.game_log.map (shiftGame δ),
    card_counter := l.card_counter + δ }

/-- Map an association list on both keys and values. -/
def mapKV (g : κ → κ') (σ : β → β') (xs : List (κ × β)) : List (κ' × β') :=
  xs.map (fun p => (g p.1, σ p.2))

/-- Rename the card-id keys of one side's crown-attribution tallies. -/
def shiftInner (δ : ℕ) (inner : List (ℕ × ℕ)) : List (ℕ × ℕ) :=
  mapKV (fun x => x + δ) (fun v => v) inner

/-- Rename the card-id keys of a game's crown-attribution details. -/
def shiftDetails (δ : ℕ) (dets : List (String × List (ℕ × ℕ))) :
    List (String × List (ℕ × ℕ)) :=
  mapKV (fun s => s) (shiftInner δ) dets

theorem foldl_select_mem (step : α → α → α)
    (hstep : ∀ b c, step b c = b ∨ step b c = c) :
    ∀ (xs : List α) (b : α), xs.foldl step b = b ∨ xs.foldl step b ∈ xs := by
  intro xs
  induction xs with
  | nil => intro b; exact Or.inl rfl
  | cons y ys ih =>
    intro b
    rcases ih (step b y) with h | h
    · rcases hstep b y with h2 | h2
      · exact Or.inl (by simp only [List.foldl]; rw [h, h2])
      · exact Or.inr (by simp only [List.foldl]; rw [h, h2]; simp)
    · exact Or.inr (by simp only [List.foldl]; exact List.mem_cons_of_mem _ h)

theorem pyMaxBy_mem (key : α → ℚ) (l : List α) (c : α) (h : pyMaxBy key l = some c) :
    c ∈ l := by
  cases l with
  | nil => simp [pyMaxBy] at h
  | cons x xs =>
    simp only [pyMaxBy, Option.some.injEq] at h
    rcases foldl_select_mem (fun best c => if key best < key c then c else best)
        (fun b c => by by_cases hk : key b < key c <;> simp [hk]) xs x with h2 | h2
    · rw [← h]; rw [h2]; simp
    · rw [← h]; exact List.mem_cons_of_mem _ h2

theorem foldl_preserves {f : β → α → β} (P : β → Prop)
    (h : ∀ b a, P b → P (f b a)) :
    ∀ (l : List α) (b : β), P b → P (l.foldl f b) := by
  intro l
  induction l with
  | nil => intro b hb; exact hb
  | cons x xs ih => intro b hb; exact ih _ (h _ _ hb)

/- The Batteries rational primitives are `@[irreducible]`, which blocks
`decide`'s elaborator-side evaluation; the kernel handles them fine. -/
attribute [local semireducible] Rat.mul Rat.add Rat.sub Rat.inv

/-! ### The crown conversion (claims C1 and C10) -/

theorem crowns_from_scores_spec (sh sa : ℚ) :
    (crowns_from_scores sh sa).1 + (crowns_from_scores sh sa).2 = 3 ∧
    (crowns_from_scores sh sa).1 ≠ (crowns_from_scores sh sa).2 ∧
    0 ≤ (crowns_from_scores sh sa).1 ∧ (crowns_from_scores sh sa).1 ≤ 3 ∧
    0 ≤ (crowns_from_scores sh sa).2 ∧ (crowns_from_scores sh sa).2 ≤ 3 := by
  unfold crowns_from_scores iclamp
  dsimp only
  set hc := pyRound (3 * (sh / max (1/10) (sh + sa))) with hhc
  have hne : ¬ (hc = 3 - hc) := by omega
  rw [if_neg hne]
  dsimp only
  omega

theorem tieBreak_never (sh sa : ℚ) : ¬ tieBreakTaken sh sa := by
  unfold tieBreakTaken
  dsimp only
  omega

/-- C1: for every game resolved by the simulator — the same `simulate_game`
serves the regular season and the playoffs — the final crown counts satisfy
`home_crowns ≠ away_crowns`, and both lie in `[0, 3]`. -/
theorem C1_no_tie_invariant (l : League) (home away : String) (week : ℕ) :
    (l.simulate_game home away week).1.home_crowns ≠
      (l.simulate_game home away week).1.away_crowns ∧
    0 ≤ (l.simulate_game home away week).1.home_crowns ∧
    (l.simulate_game home away week).1.home_crowns ≤ 3 ∧
    0 ≤ (l.simulate_game home away week).1.away_crowns ∧
    (l.simulate_game home away week).1.away_crowns ≤ 3 := by
  have h := crowns_from_scores_spec (l.gameScores home away).1.1 (l.gameScores home away).1.2
  unfold League.simulate_game
  dsimp only
  exact ⟨h.2.1, h.2.2.1, h.2.2.2.1, h.2.2.2.2.1, h.2.2.2.2.2⟩

/-- C10: the two crown counts of every simulated game sum to exactly 3, and
the explicit tie-break branch of the crown conversion can never fire, since
a tie would force the odd constant 3 to be twice an integer. -/
theorem C10_crowns_sum_three (l : League) (home away : String) (week : ℕ) :
    (l.simulate_game home away week).1.home_crowns +
      (l.simulate_game home away week).1.away_crowns = 3 ∧
    ∀ sh sa : ℚ, ¬ tieBreakTaken sh sa := by
  have h := crowns_from_scores_spec (l.gameScores home away).1.1 (l.gameScores home away).1.2
  refine ⟨?_, fun sh sa => tieBreak_never sh sa⟩
  unfold League.simulate_game
  dsimp only
  exact h.1

/-! ### The power model (claim C3) -/

theorem effective_synergy_multiplier_bounds (l : League) (starters : List Card) :
    9/10 ≤ l.effective_synergy_multiplier starters ∧
    l.effective_synergy_multiplier starters ≤ 6/5 := by
  unfold League.effective_synergy_multiplier qclamp
  constructor
  · exact le_max_left _ _
  · exact max_le (by norm_num) (min_le_left _ _)

/-- C3 (amended): the pre-luck power the game simulator uses for a side is
`mean starter OVR / 100 × clamped synergy multiplier × transient rivalry
buff` — i.e. the spec's multiplicative power formula with the chemistry
factor and the fatigue penalty both identically zero — and the synergy
multiplier stays inside its `[0.9, 1.2]` clamp.  No chemistry or fatigue
state exists anywhere in the engine. -/
theorem C3_power_model (l : League) (home away : String) :
    (l.gameScores home away).1.1 =
      POWER_WEIGHT * team_power_spec
        (qmean (((lookupTeam l.teams home).starters.map (lookupCard l.cards)).map
          (fun c => (c.ovr : ℚ))) / 100)
        (l.effective_synergy_multiplier
          ((lookupTeam l.teams home).starters.map (lookupCard l.cards)))
        0 0 (rivalryMult (lookupTeam l.teams home).rivalry_boost_games_left) +
      LUCK_WEIGHT * (9/10 + (RS.random01 l.rng).1 * (2/10)) ∧
    9/10 ≤ l.effective_synergy_multiplier
        ((lookupTeam l.teams home).starters.map (lookupCard l.cards)) ∧
    l.effective_synergy_multiplier
        ((lookupTeam l.teams home).starters.map (lookupCard l.cards)) ≤ 6/5 := by
  refine ⟨?_, effective_synergy_multiplier_bounds l _⟩
  unfold League.gameScores League.decBoost League.withRng League.team_effective_power
    League.effective_synergy_multiplier team_power_spec
  dsimp only
  ring

set_option maxRecDepth 100000 in
/-- C3 counterexample: with the generated synergy registry and a concrete
full lineup, the power the engine computes disagrees with the spec's formula
at the spec's own representative non-zero chemistry (0.1) and fatigue (0.2)
values, and agrees with it exactly when both are zero: the code carries no
chemistry factor and no fatigue penalty. -/
theorem C3_counterexample :
    demoLeague.team_effective_power demoStarters ≠
      team_power_spec (qmean (demoStarters.map (fun c => (c.ovr : ℚ))) / 100)
        (demoLeague.effective_synergy_multiplier demoStarters) (1/10) (1/5) 1 ∧
    demoLeague.team_effective_power demoStarters =
      team_power_spec (qmean (demoStarters.map (fun c => (c.ovr : ℚ))) / 100)
        (demoLeague.effective_synergy_multiplier demoStarters) 0 0 1 := by
  constructor
  · decide
  · decide

/-! ### Construction-time invariants (claims C4 and C9) -/

theorem withRng_qview (l : League) (f : RS → β × RS) :
    (League.withRng l f).2.qview = l.qview := rfl

theorem next_card_id_qview (l : League) : l.next_card_id.2.qview = l.qview := rfl

theorem random_city_tag_qview (l : League) : l.random_city_tag.2.qview = l.qview := rfl

theorem qview_withCards (x : League) (cs : List Card) :
    ({ x with cards := cs } : League).qview = x.qview := rfl

theorem qview_withTeams (x : League) (ts : List Team) :
    ({ x with teams := ts } : League).qview = x.qview := rfl

theorem random_name_qview (l : League) : l.random_name.2.qview = l.qview := by
  unfold League.random_name
  dsimp only
  apply foldl_preserves (fun (acc : String × League) => acc.2.qview = l.qview)
  · intro b a hb
    dsimp only
    rw [withRng_qview]
    exact hb
  · exact withRng_qview l _

theorem generate_card_name_qview (l : League) :
    l.generate_card_name.2.qview = l.qview := by
  unfold League.generate_card_name
  dsimp only
  rw [withRng_qview]
  exact random_name_qview l

theorem genPoolCard_qview (l : League) : l.genPoolCard.qview = l.qview := by
  unfold League.genPoolCard
  dsimp only
  rw [qview_withCards]
  simp only [withRng_qview]
  rw [generate_card_name_qview, next_card_id_qview]

theorem generate_card_pool_qview (l : League) :
    l.generate_card_pool.qview = l.qview := by
  unfold League.generate_card_pool
  dsimp only
  rw [qview_withCards, withRng_qview]
  apply foldl_preserves (fun (st : League) => st.qview = l.qview)
  · intro b a hb
    exact (genPoolCard_qview b).trans hb
  · exact withRng_qview l _

theorem seedRivalries_qview (l : League) : l.seedRivalries.qview = l.qview := by
  unfold League.seedRivalries
  dsimp only
  apply foldl_preserves (fun (st : League) => st.qview = l.qview)
  · intro b a hb
    unfold rivalStep
    dsimp only
    split
    · rw [qview_withTeams]
      simp only [withRng_qview]
      exact hb
    · rw [withRng_qview]
      exact hb
  · rfl

theorem generate_teams_qview (l : League) (h : Option String) :
    (l.generate_teams h).qview = l.qview := by
  unfold League.generate_teams
  dsimp only
  refine (seedRivalries_qview _).trans ?_
  apply foldl_preserves (fun (st : League) => st.qview = l.qview)
  · intro b a hb
    unfold genTeamStep
    dsimp only
    rw [qview_withTeams]
    simp only [withRng_qview]
    rw [random_name_qview, random_city_tag_qview]
    exact hb
  · exact withRng_qview l _

theorem mkLeague_qview (rs : RS) (idStart : ℕ) (h : Option String) :
    (mkLeague rs idStart h).qview = (generateSynergyTable, [], []) := by
  unfold mkLeague
  dsimp only
  rw [generate_card_pool_qview]
  unfold League.generate_synergies
  have hteams := generate_teams_qview
    { rng := rs, season := 1, teams := [], cards := [], synergies := [],
      history := [], game_log := [], playoff_bracket := [], card_counter := idStart } h
  simp only [League.qview, Prod.mk.injEq] at hteams ⊢
  exact ⟨trivial, hteams.2.1, hteams.2.2⟩

set_option maxRecDepth 100000 in
/-- C4: the synergy registry generated at league construction is falling far
short of the claimed bound: it holds exactly 40 rules (30 ordered archetype
pairs, 4 attack-type combos, 6 legendary chains), not at least 90 — despite
the source's own comments promising a 90+/≈95-rule scaffold. -/
theorem C4_synergy_count (rs : RS) (idStart : ℕ) (h : Option String) :
    (mkLeague rs idStart h).synergies.length = 40 ∧
    ¬ (90 ≤ (mkLeague rs idStart h).synergies.length) := by
  have hq := mkLeague_qview rs idStart h
  simp only [League.qview, Prod.mk.injEq] at hq
  rw [hq.1]
  constructor
  · decide
  · decide

/-- C9: every query issued on a freshly constructed league — before any
season has been run — returns a benign empty result: an empty bracket,
empty leader lists, empty draft grades, and empty patch-note lists. -/
theorem C9_empty_state_queries (rs : RS) (idStart : ℕ) (h : Option String)
    (cat : String) (s1 s2 : Option ℕ) :
    (mkLeague rs idStart h).get_playoff_bracket = [] ∧
    (mkLeague rs idStart h).get_league_leaders cat s1 = [] ∧
    (mkLeague rs idStart h).get_last_draft_grades = [] ∧
    (mkLeague rs idStart h).get_patch_notes s2 = ([], []) := by
  have hq := mkLeague_qview rs idStart h
  simp only [League.qview, Prod.mk.injEq] at hq
  refine ⟨?_, ?_, ?_, ?_⟩
  · simp only [League.get_playoff_bracket, hq.2.2]
  · simp only [League.get_league_leaders, hq.2.1, List.reverse_nil, List.find?_nil]
  · simp only [League.get_last_draft_grades, hq.2.1, List.reverse_nil, List.find?_nil]
  · simp only [League.get_patch_notes, hq.2.1, List.reverse_nil, List.find?_nil]

/-! ### Snake order (claim C5) -/

/-- C5: in the draft's snake, the round-1 pick sequence is exactly the
lottery order `T1..Tn` and the round-2 pick sequence is exactly its reverse
`Tn..T1`; generally, 0-based even rounds run in lottery order and odd rounds
reversed. -/
theorem C5_snake_order (order : List String) (rounds : ℕ) (h : 2 ≤ rounds) :
    snakeOrder order 0 = order ∧
    snakeOrder order 1 = order.reverse ∧
    ((draftTurns order rounds).map (fun t => t.2)).take order.length = order ∧
    (((draftTurns order rounds).map (fun t => t.2)).drop order.length).take
      order.length = order.reverse ∧
    (∀ r, r % 2 = 0 → snakeOrder order r = order) ∧
    (∀ r, r % 2 = 1 → snakeOrder order r = order.reverse) := by
  obtain ⟨k, rfl⟩ : ∃ k, rounds = 2 + k := ⟨rounds - 2, by omega⟩
  have hsplit : draftTurns order (2 + k) =
      (order.map (fun t => ((0 : ℕ), t)) ++ order.reverse.map (fun t => ((1 : ℕ), t))) ++
      ((List.range k).map (fun r => 2 + r)).flatMap
        (fun rnd => (snakeOrder order rnd).map (fun t => (rnd, t))) := by
    unfold draftTurns
    rw [List.range_add]
    rw [List.flatMap_append]
    congr 1
    rw [show List.range 2 = [0, 1] from rfl]
    simp [snakeOrder, List.map_reverse]
  refine ⟨by simp [snakeOrder], by simp [snakeOrder], ?_, ?_, ?_, ?_⟩
  · rw [hsplit]
    simp only [List.map_append, List.map_map, List.append_assoc]
    rw [List.take_append_of_le_length (by simp)]
    simp [List.take_append]
  · rw [hsplit]
    simp only [List.map_append, List.map_map, List.append_assoc]
    rw [List.drop_append_of_le_length (by simp)]
    simp [List.drop_append, List.take_append]
  · intro r hr; simp [snakeOrder, hr]
  · intro r hr
    have : ¬ r % 2 = 0 := by omega
    simp [snakeOrder, this]

theorem C5_snake_order_witness :
    2 ≤ 4 ∧
    snakeOrder ["A", "B", "C"] 0 = ["A", "B", "C"] ∧
    snakeOrder ["A", "B", "C"] 1 = (["A", "B", "C"] : List String).reverse ∧
    ((draftTurns ["A", "B", "C"] 4).map (fun t => t.2)).take
      (["A", "B", "C"] : List String).length = ["A", "B", "C"] ∧
    (((draftTurns ["A", "B", "C"] 4).map (fun t => t.2)).drop
      (["A", "B", "C"] : List String).length).take
      (["A", "B", "C"] : List String).length =
      (["A", "B", "C"] : List String).reverse :=
  have h := C5_snake_order ["A", "B", "C"] 4 (by decide)
  ⟨by decide, h.1, h.2.1, h.2.2.1, h.2.2.2.1⟩

/-! ### Lifespan monotonicity (claim C7) -/

theorem getD_map_of_lt (f : α → β) (xs : List α) (i : ℕ) (d : α) (d' : β)
    (h : i < xs.length) : (xs.map f).getD i d' = f (xs.getD i d) := by
  induction xs generalizing i with
  | nil => simp at h
  | cons x xs ih =>
    cases i with
    | zero => simp [List.getD]
    | succ n =>
      simp only [List.map_cons, List.getD_cons_succ]
      exact ih n (by simpa using h)

theorem cardsMono_refl (l : League) : CardsMono l l := by
  intro i hi
  exact ⟨hi, rfl, le_refl _, fun _ => rfl⟩

theorem cardsMono_trans {a b c : League} (h1 : CardsMono a b) (h2 : CardsMono b c) :
    CardsMono a c := by
  intro i hi
  obtain ⟨hl1, hid1, hsl1, hst1⟩ := h1 i hi
  obtain ⟨hl2, hid2, hsl2, hst2⟩ := h2 i hl1
  refine ⟨hl2, hid2.trans hid1, hsl2.trans hsl1, fun hz => ?_⟩
  rw [hst2 (by omega), hst1 hz]

theorem cardsMono_of_cards_eq {l l' : League} (h : l'.cards = l.cards) :
    CardsMono l l' := by
  intro i hi
  rw [h]
  exact ⟨hi, rfl, le_refl _, fun _ => rfl⟩

theorem cardsMono_map {l l' : League} (g : Card → Card)
    (hc : l'.cards = l.cards.map g)
    (hg : ∀ c, (g c).id = c.id ∧ (g c).seasons_left ≤ c.seasons_left ∧
      (c.seasons_left ≤ 0 → (g c).seasons_left = c.seasons_left)) :
    CardsMono l l' := by
  intro i hi
  rw [hc]
  refine ⟨by simpa using hi, ?_, ?_, ?_⟩
  · rw [getD_map_of_lt g _ i defaultCard _ hi]; exact (hg _).1
  · rw [getD_map_of_lt g _ i defaultCard _ hi]; exact (hg _).2.1
  · rw [getD_map_of_lt g _ i defaultCard _ hi]; exact (hg _).2.2

theorem cardsMono_append {l l' : League} (xs : List Card)
    (hc : l'.cards = l.cards ++ xs) : CardsMono l l' := by
  intro i hi
  rw [hc]
  have hg : (l.cards ++ xs).getD i defaultCard = l.cards.getD i defaultCard := by
    unfold List.getD
    rw [List.get?_append hi]
  rw [hg]
  refine ⟨by simp; omega, rfl, le_refl _, fun _ => rfl⟩

/-- `updateCard` with an id- and lifespan-preserving payload. -/
theorem cardsMono_updateCard {l l' : League} (cid : ℕ) (f : Card → Card)
    (hc : l'.cards = updateCard l.cards cid f)
    (hf : ∀ c, (f c).id = c.id ∧ (f c).seasons_left = c.seasons_left) :
    CardsMono l l' := by
  refine cardsMono_map (fun c => if c.id = cid then f c else c) hc (fun c => ?_)
  dsimp only
  by_cases h : c.id = cid
  · rw [if_pos h]
    exact ⟨(hf c).1, le_of_eq (hf c).2, fun _ => (hf c).2⟩
  · rw [if_neg h]
    exact ⟨rfl, le_refl _, fun _ => rfl⟩

theorem withRng_cards (l : League) (f : RS → β × RS) :
    (League.withRng l f).2.cards = l.cards := rfl

theorem next_card_id_cards (l : League) : l.next_card_id.2.cards = l.cards := rfl

theorem random_city_tag_cards (l : League) : l.random_city_tag.2.cards = l.cards := rfl

theorem random_name_cards (l : League) : l.random_name.2.cards = l.cards := by
  unfold League.random_name
  dsimp only
  apply foldl_preserves (fun (acc : String × League) => acc.2.cards = l.cards)
  · intro b a hb
    dsimp only
    rw [withRng_cards]
    exact hb
  · exact withRng_cards l _

theorem generate_card_name_cards (l : League) :
    l.generate_card_name.2.cards = l.cards := by
  unfold League.generate_card_name
  dsimp only
  rw [withRng_cards]
  exact random_name_cards l

theorem buffUpd_id_sl (d1 d2 d3 d4 d5 : ℤ) (c : Card) :
    (buffUpd d1 d2 d3 d4 d5 c).id = c.id ∧
    (buffUpd d1 d2 d3 d4 d5 c).seasons_left = c.seasons_left := by
  unfold buffUpd
  constructor
  · dsimp only; repeat' split
    all_goals rfl
  · dsimp only; repeat' split
    all_goals rfl

theorem buff_card_mono (l : League) (cid : ℕ) : CardsMono l (l.buff_card cid).2 := by
  unfold League.buff_card
  dsimp only
  exact cardsMono_updateCard cid _ rfl (fun c => buffUpd_id_sl _ _ _ _ _ c)

theorem nerf_card_mono (l : League) (cid : ℕ) : CardsMono l (l.nerf_card cid).2 := by
  unfold League.nerf_card
  dsimp only
  exact cardsMono_updateCard cid _ rfl (fun c => buffUpd_id_sl _ _ _ _ _ c)

theorem cardsMono_withRng_of {l m : League} (h : CardsMono l m) (f : RS → β × RS) :
    CardsMono l (League.withRng m f).2 :=
  cardsMono_trans h (cardsMono_of_cards_eq rfl)

theorem cardsMono_ext {l m : League} (h : CardsMono l m) (l' : League)
    (hc : l'.cards = m.cards) : CardsMono l l' :=
  cardsMono_trans h (cardsMono_of_cards_eq hc)

theorem cardsMono_ite {l : League} (c : Prop) [Decidable c] {T E : League}
    (hT : CardsMono l T) (hE : CardsMono l E) : CardsMono l (if c then T else E) := by
  split
  · exact hT
  · exact hE

theorem cardsMono_single_update {l st : League} (hst : CardsMono l st) (T : League)
    {cid : ℕ} {f : Card → Card}
    (hf : ∀ c, (f c).id = c.id ∧ (f c).seasons_left = c.seasons_left)
    (hc : T.cards = updateCard st.cards cid f) : CardsMono l T :=
  cardsMono_trans hst (cardsMono_updateCard cid f hc hf)

theorem cardsMono_double_update {l st : League} (hst : CardsMono l st) (T : League)
    {cid1 cid2 : ℕ} {f1 f2 : Card → Card}
    (hf1 : ∀ c, (f1 c).id = c.id ∧ (f1 c).seasons_left = c.seasons_left)
    (hf2 : ∀ c, (f2 c).id = c.id ∧ (f2 c).seasons_left = c.seasons_left)
    (hc : T.cards = updateCard (updateCard st.cards cid1 f1) cid2 f2) :
    CardsMono l T := by
  have hA : CardsMono st ({ st with cards := updateCard st.cards cid1 f1 } : League) :=
    cardsMono_updateCard cid1 f1 rfl hf1
  have hB : CardsMono ({ st with cards := updateCard st.cards cid1 f1 } : League) T :=
    cardsMono_updateCard cid2 f2 hc hf2
  exact cardsMono_trans hst (cardsMono_trans hA hB)

theorem cardsMono_updateCard_of {l m : League} (h : CardsMono l m) (cid : ℕ)
    (f : Card → Card)
    (hf : ∀ c, (f c).id = c.id ∧ (f c).seasons_left = c.seasons_left) :
    CardsMono l { m with cards := updateCard m.cards cid f } :=
  cardsMono_trans h (cardsMono_updateCard cid f rfl hf)

theorem patchOneCard_mono (l : League) (cid : ℕ) (b : Bool) :
    CardsMono l (l.patchOneCard cid b).2 := by
  unfold League.patchOneCard
  dsimp only
  set dp := (if b = true then l.buff_card cid else l.nerf_card cid) with hdp
  have h1 : CardsMono l dp.2 := by
    rw [hdp]; split
    · exact buff_card_mono l cid
    · exact nerf_card_mono l cid
  have h2 : CardsMono l { dp.2 with cards := updateCard dp.2.cards cid Card.compute_ovr } :=
    cardsMono_trans h1 (cardsMono_updateCard cid _ rfl (fun c => ⟨rfl, rfl⟩))
  exact cardsMono_trans h2 (cardsMono_updateCard cid _ rfl (fun c => ⟨rfl, rfl⟩))

theorem generate_patch_notes_mono (l : League) :
    CardsMono l (l.generate_patch_notes).2 := by
  unfold League.generate_patch_notes
  dsimp only
  have hb : ∀ (ids : List ℕ) (b : Bool) (acc : List PatchChange × League),
      CardsMono l acc.2 →
      CardsMono l (ids.foldl
        (fun (acc : List PatchChange × League) cid =>
          (acc.1 ++ [(acc.2.patchOneCard cid b).1], (acc.2.patchOneCard cid b).2))
        acc).2 := by
    intro ids b acc hacc
    apply foldl_preserves (fun (acc : List PatchChange × League) => CardsMono l acc.2)
    · intro p a hp
      exact cardsMono_trans hp (patchOneCard_mono p.2 a b)
    · exact hacc
  apply foldl_preserves (fun (acc : List PatchChange × League) => CardsMono l acc.2)
  · intro p a hp
    unfold synShiftStep
    dsimp only
    refine cardsMono_trans hp (cardsMono_of_cards_eq ?_)
    simp only [withRng_cards]
  · apply cardsMono_withRng_of
    apply cardsMono_withRng_of
    apply hb
    apply hb
    exact cardsMono_refl l

theorem cardsMono_patch_of {l m : League} (h : CardsMono l m) :
    CardsMono l m.generate_patch_notes.2 :=
  cardsMono_trans h (generate_patch_notes_mono m)

theorem draft_lottery_order_cards (l : League) :
    (l.draft_lottery_order).2.cards = l.cards := by
  unfold League.draft_lottery_order
  dsimp only
  split <;> rfl

theorem cardsMono_lottery_of {l m : League} (h : CardsMono l m) :
    CardsMono l (m.draft_lottery_order).2 :=
  cardsMono_trans h (cardsMono_of_cards_eq (draft_lottery_order_cards m))

theorem genRookie_mono (l : League) : CardsMono l (l.genRookie).2 := by
  unfold League.genRookie
  dsimp only
  apply cardsMono_append
  simp only [withRng_cards, generate_card_name_cards, next_card_id_cards]
  rfl

theorem cardsMono_rookies_of {l m : League} (h : CardsMono l m) (count : ℕ) :
    CardsMono l (m.generate_rookies count).2 := by
  unfold League.generate_rookies
  apply foldl_preserves (fun (acc : List Card × League) => CardsMono l acc.2)
  · intro b a hb
    dsimp only
    exact cardsMono_trans hb (genRookie_mono b.2)
  · exact h

theorem draft_combine_view_cards (l : League) (cs : List Card) :
    (l.draft_combine_view cs).2.cards = l.cards := by
  unfold League.draft_combine_view
  apply foldl_preserves (fun (acc : List (ℕ × String) × League) => acc.2.cards = l.cards)
  · intro b a hb
    dsimp only
    rw [withRng_cards]
    exact hb
  · rfl

theorem cardsMono_combine_of {l m : League} (h : CardsMono l m) (cs : List Card) :
    CardsMono l (m.draft_combine_view cs).2 :=
  cardsMono_trans h (cardsMono_of_cards_eq (draft_combine_view_cards m cs))

theorem scoredStep_teams (gm : String) (fit value : Card → ℚ)
    (acc : List (Card × ℚ) × League) (c : Card) :
    (scoredStep gm fit value acc c).2.teams = acc.2.teams := by
  unfold scoredStep
  dsimp only
  repeat' split
  all_goals rfl

theorem scoredStep_cards (gm : String) (fit value : Card → ℚ)
    (acc : List (Card × ℚ) × League) (c : Card) :
    (scoredStep gm fit value acc c).2.cards = acc.2.cards := by
  unfold scoredStep
  dsimp only
  repeat' split
  all_goals rfl

/-- Shape of the scoring fold: one scored entry per candidate, in order, and
the league state only advances its rng. -/
theorem scoredFoldGo_spec (gm : String) (fit value : Card → ℚ) :
    ∀ (cands : List Card) (acc : List (Card × ℚ) × League),
      (cands.foldl (scoredStep gm fit value) acc).1.length =
        acc.1.length + cands.length ∧
      (∀ p ∈ (cands.foldl (scoredStep gm fit value) acc).1,
        p.1 ∈ acc.1.map (·.1) ∨ p.1 ∈ cands) ∧
      (cands.foldl (scoredStep gm fit value) acc).2.teams = acc.2.teams ∧
      (cands.foldl (scoredStep gm fit value) acc).2.cards = acc.2.cards := by
  intro cands
  induction cands with
  | nil =>
    intro acc
    exact ⟨by simp, fun p hp => Or.inl (List.mem_map_of_mem _ hp), rfl, rfl⟩
  | cons a as ih =>
    intro acc
    obtain ⟨q, hq⟩ : ∃ q, (scoredStep gm fit value acc a).1 = acc.1 ++ [(a, q)] :=
      ⟨_, rfl⟩
    obtain ⟨hlen, hmem, hteams, hcards⟩ := ih (scoredStep gm fit value acc a)
    refine ⟨?_, ?_, ?_, ?_⟩
    · simp only [List.foldl_cons] at *
      rw [hlen, hq]
      simp only [List.length_append, List.length_cons, List.length_nil]
      omega
    · intro p hp
      simp only [List.foldl_cons] at hp
      rcases hmem p hp with h | h
      · rw [hq] at h
        simp only [List.map_append, List.mem_append, List.map_cons, List.map_nil,
          List.mem_cons, List.not_mem_nil, or_false] at h
        rcases h with h | h
        · exact Or.inl h
        · exact Or.inr (by simp [h])
      · exact Or.inr (List.mem_cons_of_mem _ h)
    · simp only [List.foldl_cons]
      rw [hteams, scoredStep_teams]
    · simp only [List.foldl_cons]
      rw [hcards, scoredStep_cards]

theorem choose_best_pick_cards (l : League) (tn : String) (board : List Card)
    (taken : List ℕ) (rnd : ℕ) :
    (l.choose_best_pick tn board taken rnd).2.cards = l.cards := by
  unfold League.choose_best_pick League.scoredFold
  dsimp only
  split
  · rfl
  · split
    · exact (scoredFoldGo_spec _ _ _ _ ([], l)).2.2.2
    · exact (scoredFoldGo_spec _ _ _ _ ([], l)).2.2.2

theorem choose_best_pick_teams (l : League) (tn : String) (board : List Card)
    (taken : List ℕ) (rnd : ℕ) :
    (l.choose_best_pick tn board taken rnd).2.teams = l.teams := by
  unfold League.choose_best_pick League.scoredFold
  dsimp only
  split
  · rfl
  · split
    · exact (scoredFoldGo_spec _ _ _ _ ([], l)).2.2.1
    · exact (scoredFoldGo_spec _ _ _ _ ([], l)).2.2.1

theorem draftLoop_cards (l : League) (board : List Card) (turns : List (ℕ × String)) :
    (l.draftLoop board turns).1.cards = l.cards := by
  unfold League.draftLoop
  apply foldl_preserves (fun (acc : League × List ℕ) => acc.1.cards = l.cards)
  · intro b a hb
    unfold draftStep
    dsimp only
    split
    · rw [choose_best_pick_cards]; exact hb
    · dsimp only
      rw [choose_best_pick_cards]
      exact hb
  · rfl

theorem cardsMono_draftLoop_of {l m : League} (h : CardsMono l m) (board : List Card)
    (turns : List (ℕ × String)) : CardsMono l (m.draftLoop board turns).1 :=
  cardsMono_trans h (cardsMono_of_cards_eq (draftLoop_cards m board turns))

theorem cardsMono_assignStarters_of {l m : League} (h : CardsMono l m) :
    CardsMono l m.assignStarters := by
  unfold League.assignStarters
  apply foldl_preserves (fun (st : League) => CardsMono l st)
  · intro b a hb
    dsimp only
    apply foldl_preserves (fun (s2 : League) => CardsMono l s2)
    · intro s2 cid hs2
      dsimp only
      exact cardsMono_trans hs2 (cardsMono_updateCard cid _ rfl (fun c => ⟨rfl, rfl⟩))
    · exact cardsMono_trans hb (cardsMono_of_cards_eq rfl)
  · exact h

theorem cardsMono_run_draft_of {l m : League} (h : CardsMono l m) :
    CardsMono l (m.run_draft).2 := by
  unfold League.run_draft
  dsimp only
  apply cardsMono_assignStarters_of
  apply cardsMono_draftLoop_of
  apply cardsMono_combine_of
  apply cardsMono_rookies_of
  apply cardsMono_lottery_of
  exact cardsMono_trans h (cardsMono_of_cards_eq rfl)

theorem gameScores_cards (l : League) (home away : String) :
    (l.gameScores home away).2.cards = l.cards := by
  unfold League.gameScores League.decBoost
  dsimp only
  rfl

theorem distributeCrowns_mono (l : League) (tn : String) (starters : List Card)
    (crowns : ℤ) (dets : List (String × List (ℕ × ℕ))) (hls : List String) :
    CardsMono l (l.distributeCrowns tn starters crowns dets hls).2.2 := by
  unfold League.distributeCrowns
  dsimp only
  apply foldl_preserves (fun (st : League) => CardsMono l st)
  · intro st c hst
    unfold tallyStep
    dsimp only
    refine cardsMono_ite _ ?_ ?_
    · refine cardsMono_double_update hst _ ?hf1 ?hf2 (by dsimp only)
      case hf1 => exact fun d => ⟨rfl, rfl⟩
      case hf2 => exact fun d => ⟨rfl, rfl⟩
    · refine cardsMono_single_update hst _ ?hfS (by dsimp only)
      case hfS => exact fun d => ⟨rfl, rfl⟩
  · have hbase : CardsMono l
        (match (lookupTeam l.teams tn).backup with
          | some b =>
            if (l.withRng RS.random01).1 < 1/4 then
              (starters.take 2 ++ [lookupCard (l.withRng RS.random01).2.cards b],
                (l.withRng RS.random01).2)
            else (starters, (l.withRng RS.random01).2)
          | none => (starters, l)).2 := by
      rcases hbk : (lookupTeam l.teams tn).backup with _ | b
      · simp only [hbk]
        exact cardsMono_refl l
      · simp only [hbk]
        rw [apply_ite (fun (p : List Card × League) => p.2)]
        apply cardsMono_ite
        · exact cardsMono_of_cards_eq rfl
        · exact cardsMono_of_cards_eq rfl
    rw [apply_ite (fun (p : List (String × List (ℕ × ℕ)) × List String × League) => p.2.2)]
    apply cardsMono_ite
    · exact hbase
    · apply foldl_preserves
        (fun (acc : List (String × List (ℕ × ℕ)) × List String × League) =>
          CardsMono l acc.2.2)
      · intro b a hb
        unfold crownStep
        dsimp only
        refine cardsMono_trans hb (cardsMono_of_cards_eq ?_)
        simp only [withRng_cards]
      · exact hbase

theorem updateGameRecords_cards (l : League) (home away : String) (hc ac : ℤ) :
    (l.updateGameRecords home away hc ac).cards = l.cards := by
  unfold League.updateGameRecords
  dsimp only
  split <;> rfl

theorem updateRivalryState_cards (l : League) (home away : String) (hc ac : ℤ) :
    (l.updateRivalryState home away hc ac).2.cards = l.cards := by
  unfold League.updateRivalryState
  dsimp only
  split
  · split <;> rfl
  · rfl

theorem winProbSeries_cards (l : League) (hc ac : ℤ) :
    (l.winProbSeries hc ac).2.cards = l.cards := by
  unfold League.winProbSeries
  dsimp only
  apply foldl_preserves (fun (acc : ℚ × List (ℕ × ℚ) × League) => acc.2.2.cards = l.cards)
  · intro b a hb
    unfold wpStep
    dsimp only
    rw [withRng_cards]
    exact hb
  · rfl

theorem cardsMono_distributeCrowns_of {l m : League} (h : CardsMono l m) (tn : String)
    (starters : List Card) (crowns : ℤ) (dets : List (String × List (ℕ × ℕ)))
    (hls : List String) :
    CardsMono l (m.distributeCrowns tn starters crowns dets hls).2.2 :=
  cardsMono_trans h (distributeCrowns_mono m tn starters crowns dets hls)

theorem simulate_game_mono (l : League) (home away : String) (week : ℕ) :
    CardsMono l (l.simulate_game home away week).2 := by
  unfold League.simulate_game
  dsimp only
  refine cardsMono_ext ?_ _ (winProbSeries_cards _ _ _)
  refine cardsMono_ext ?_ _ (updateRivalryState_cards _ _ _ _ _)
  refine cardsMono_ext ?_ _ (updateGameRecords_cards _ _ _ _ _)
  apply cardsMono_distributeCrowns_of
  apply cardsMono_distributeCrowns_of
  exact cardsMono_of_cards_eq (gameScores_cards l home away)

theorem playSeriesGo_mono (a b : String) :
    ∀ (fuel wa wb : ℕ) (l : League),
      CardsMono l (League.playSeriesGo a b fuel wa wb l).2 := by
  intro fuel
  induction fuel with
  | zero => intro wa wb l; exact cardsMono_refl l
  | succ n ih =>
    intro wa wb l
    unfold League.playSeriesGo
    dsimp only
    split
    · split
      · exact cardsMono_trans (simulate_game_mono l a b 0) (ih _ _ _)
      · exact cardsMono_trans (simulate_game_mono l a b 0) (ih _ _ _)
    · exact cardsMono_refl l

theorem playSeries_mono (l : League) (a b : String) :
    CardsMono l (l.playSeries a b).2 :=
  playSeriesGo_mono a b 6 0 0 l

theorem playoffRound_mono (l : League) (cur : List (String × String)) :
    CardsMono l (l.playoffRound cur).2 := by
  unfold League.playoffRound
  apply foldl_preserves (fun (acc : List String × League) => CardsMono l acc.2)
  · intro b a hb
    dsimp only
    exact cardsMono_trans hb (playSeries_mono b.2 a.1 a.2)
  · exact cardsMono_refl l

theorem runPlayoffsGo_mono :
    ∀ (fuel : ℕ) (cur : List (String × String)) (fs : Option String × Option String)
      (l : League), CardsMono l (League.runPlayoffsGo fuel cur fs l).2 := by
  intro fuel
  induction fuel with
  | zero => intro cur fs l; exact cardsMono_refl l
  | succ n ih =>
    intro cur fs l
    unfold League.runPlayoffsGo
    dsimp only
    split
    · exact cardsMono_refl l
    · exact cardsMono_trans (playoffRound_mono l cur) (ih _ _ _)

theorem run_playoffs_mono (l : League) (bracket : List (String × String)) :
    CardsMono l (l.run_playoffs bracket).2 := by
  have h0 := runPlayoffsGo_mono (bracket.length + 1) bracket (none, none) l
  unfold League.run_playoffs
  dsimp only
  rcases hch : (League.runPlayoffsGo (bracket.length + 1) bracket (none, none) l).1.1
      with _ | c <;>
    rcases hf2 : (League.runPlayoffsGo (bracket.length + 1) bracket (none, none) l).1.2
      with _ | f <;>
    simp only [hch, hf2] <;>
    exact cardsMono_ext h0 _ rfl

theorem cardsMono_bumpAward_of {l m : League} (h : CardsMono l m) (cid : ℕ)
    (award : String) :
    CardsMono l { m with cards := bumpAward m.cards cid award } := by
  unfold bumpAward
  exact cardsMono_updateCard_of h cid _ (fun c => ⟨rfl, rfl⟩)

theorem compute_awards_mono (l : League) : CardsMono l (l.compute_awards).2 := by
  unfold League.compute_awards
  dsimp only
  apply foldl_preserves (fun (st : League) => CardsMono l st)
  · intro st p hst
    exact cardsMono_bumpAward_of hst p.2 "MOTY"
  · apply foldl_preserves (fun (st : League) => CardsMono l st)
    · intro st cid hst
      dsimp only
      refine cardsMono_double_update hst _ ?haf1 ?haf2 (by dsimp only [bumpAward])
      case haf1 => exact fun c => ⟨rfl, rfl⟩
      case haf2 => exact fun c => ⟨rfl, rfl⟩
    · apply foldl_preserves (fun (st : League) => CardsMono l st)
      · intro st cid hst
        exact cardsMono_bumpAward_of hst cid "ALL_TEAM"
      · rcases hm : l.mipScan with _ | cm <;>
          rcases hb : l.mvpScan with _ | cb <;>
          simp only [hm, hb]
        · exact cardsMono_refl l
        · exact cardsMono_bumpAward_of (cardsMono_refl l) cb.id "MVP"
        · exact cardsMono_bumpAward_of (cardsMono_refl l) cm.id "MIP"
        · exact cardsMono_bumpAward_of
            (cardsMono_bumpAward_of (cardsMono_refl l) cb.id "MVP") cm.id "MIP"

theorem update_leaders_cards (l : League) (hist : SeasonHistory) :
    (l.update_leaders_and_history hist).2.cards = l.cards := rfl

/-- The per-card offseason step is id-preserving, never raises the lifespan,
and leaves an exhausted lifespan untouched. -/
theorem offseasonCard_spec (s : ℕ) (c : Card) :
    (offseasonCard s c).id = c.id ∧
    (offseasonCard s c).seasons_left ≤ c.seasons_left ∧
    (c.seasons_left ≤ 0 → (offseasonCard s c).seasons_left = c.seasons_left) := by
  unfold offseasonCard
  split
  · refine ⟨rfl, ?_, ?_⟩
    · dsimp only; omega
    · dsimp only; intro h2; omega
  · exact ⟨rfl, le_refl _, fun _ => rfl⟩

theorem handle_retirements_mono (l : League) :
    CardsMono l l.handle_retirements_and_rookies := by
  unfold League.handle_retirements_and_rookies
  dsimp only
  apply foldl_preserves (fun (st : League) => CardsMono l st)
  · intro st cid hst
    unfold hofStep
    dsimp only
    split
    · exact cardsMono_updateCard_of hst cid _ (fun c => ⟨rfl, rfl⟩)
    · split
      · split
        · exact cardsMono_updateCard_of (cardsMono_withRng_of hst _) cid _
            (fun c => ⟨rfl, rfl⟩)
        · exact cardsMono_withRng_of hst _
      · exact hst
  · exact cardsMono_map (offseasonCard l.season) rfl (offseasonCard_spec l.season)

theorem playSchedule_mono (l : League) (schedule : List (String × String)) :
    CardsMono l (l.playSchedule schedule) := by
  unfold League.playSchedule
  apply foldl_preserves (fun (acc : League × ℕ) => CardsMono l acc.1)
  · intro b g hb
    dsimp only
    exact cardsMono_ext (cardsMono_trans hb (simulate_game_mono b.1 g.1 g.2 b.2)) _ rfl
  · exact cardsMono_refl l

theorem cardsMono_make_schedule_of {l m : League} (h : CardsMono l m) :
    CardsMono l m.make_schedule.2 :=
  cardsMono_ext h _ rfl

theorem cardsMono_playSchedule_of {l m : League} (h : CardsMono l m)
    (s : List (String × String)) : CardsMono l (m.playSchedule s) :=
  cardsMono_trans h (playSchedule_mono m s)

theorem cardsMono_bracketSet_of {l m : League} (h : CardsMono l m)
    (b : List (String × String)) :
    CardsMono l { m with playoff_bracket := b } :=
  cardsMono_ext h _ rfl

theorem cardsMono_run_playoffs_of {l m : League} (h : CardsMono l m)
    (b : List (String × String)) : CardsMono l (m.run_playoffs b).2 :=
  cardsMono_trans h (run_playoffs_mono m b)

theorem cardsMono_awards_of {l m : League} (h : CardsMono l m) :
    CardsMono l m.compute_awards.2 :=
  cardsMono_trans h (compute_awards_mono m)

theorem cardsMono_update_leaders_of {l m : League} (h : CardsMono l m)
    (hist : SeasonHistory) : CardsMono l (m.update_leaders_and_history hist).2 :=
  cardsMono_ext h _ (update_leaders_cards m hist)

theorem cardsMono_handle_of {l m : League} (h : CardsMono l m) :
    CardsMono l m.handle_retirements_and_rookies :=
  cardsMono_trans h (handle_retirements_mono m)

theorem cardsMono_seasonBump_of {l m : League} (h : CardsMono l m) (n : ℕ) :
    CardsMono l { m with season := n } :=
  cardsMono_ext h _ rfl

theorem cardsMono_decay_of {l m : League} (h : CardsMono l m) :
    CardsMono l m.decay_rivalries :=
  cardsMono_ext h _ rfl

/-- Every card that enters `run_full_season` leaves it at its position with
an id intact, a lifespan that has not grown, and an exhausted lifespan left
untouched. -/
theorem run_full_season_mono (l : League) : CardsMono l (l.run_full_season).2 := by
  unfold League.run_full_season
  dsimp only
  apply cardsMono_decay_of
  apply cardsMono_seasonBump_of
  apply cardsMono_handle_of
  apply cardsMono_update_leaders_of
  apply cardsMono_awards_of
  apply cardsMono_run_playoffs_of
  apply cardsMono_bracketSet_of
  apply cardsMono_playSchedule_of
  apply cardsMono_make_schedule_of
  apply cardsMono_run_draft_of
  exact generate_patch_notes_mono l

theorem cardsMono_runSeasons (l : League) (n : ℕ) : CardsMono l (runSeasons l n) := by
  induction n with
  | zero => exact cardsMono_refl l
  | succ k ih => exact cardsMono_trans ih (run_full_season_mono _)

/-- C7: across every season boundary — `run_full_season`, whose offseason
tail is `handle_retirements_and_rookies` — the card stored at each position
keeps its id and its `seasons_left` never increases; and once a card's
`seasons_left` is exhausted, its descendant at any later season never
appears on the draft board (the `seasons_left > 0` filter of `_run_draft`). -/
theorem C7_lifespan (l : League) (n i : ℕ) (hi : i < l.cards.length) :
    (i < (runSeasons l n).cards.length) ∧
    ((runSeasons l n).cards.getD i defaultCard).id =
      (l.cards.getD i defaultCard).id ∧
    ((runSeasons l (n + 1)).cards.getD i defaultCard).seasons_left ≤
      ((runSeasons l n).cards.getD i defaultCard).seasons_left ∧
    ((l.cards.getD i defaultCard).seasons_left ≤ 0 →
      ((runSeasons l n).cards.getD i defaultCard) ∉
        draftBoard (runSeasons l n).cards) := by
  obtain ⟨hlen, hid, _, hsticky⟩ := cardsMono_runSeasons l n i hi
  obtain ⟨_, _, hstep, _⟩ := run_full_season_mono (runSeasons l n) i hlen
  refine ⟨hlen, hid, hstep, fun h0 hmem => ?_⟩
  have hz := hsticky h0
  have hpos : 0 < ((runSeasons l n).cards.getD i defaultCard).seasons_left := by
    have := List.of_mem_filter hmem
    simpa using this
  omega

theorem C7_lifespan_witness :
    0 < demoLeague2.cards.length ∧
    ((0 < (runSeasons demoLeague2 0).cards.length) ∧
     ((runSeasons demoLeague2 0).cards.getD 0 defaultCard).id =
       (demoLeague2.cards.getD 0 defaultCard).id ∧
     ((runSeasons demoLeague2 (0 + 1)).cards.getD 0 defaultCard).seasons_left ≤
       ((runSeasons demoLeague2 0).cards.getD 0 defaultCard).seasons_left ∧
     ((demoLeague2.cards.getD 0 defaultCard).seasons_left ≤ 0 →
       ((runSeasons demoLeague2 0).cards.getD 0 defaultCard) ∉
         draftBoard (runSeasons demoLeague2 0).cards)) :=
  ⟨by decide, C7_lifespan demoLeague2 0 0 (by decide)⟩

set_option maxRecDepth 8000000 in
/-- C2: the `while len(current) > 1` loop of `_run_playoffs` exits as soon
as exactly one pairing remains, so the final pairing is never simulated and
`champion = finalists[0]` crowns the first finalist by bracket position.  On
the two-round bracket `[(A,B),(C,D)]` of `c2League` the code crowns `A`
(the weak side, OVR 45), even though the code's own best-of-five series
between the finalists `A` and `C`, resumed from the very state the playoff
run returned, is won by `C` (OVR 90). -/
theorem C2_final_never_played :
    (c2League.run_playoffs [("A", "B"), ("C", "D")]).1 =
      (some "A", (some "A", some "C")) ∧
    ((c2League.run_playoffs [("A", "B"), ("C", "D")]).2.playSeries "A" "C").1 = "C" := by
  decide

theorem pyMaxBy_eq_none_iff (key : α → ℚ) (xs : List α) :
    pyMaxBy key xs = none ↔ xs = [] := by
  cases xs <;> simp [pyMaxBy]

theorem scoredFold_nil (gm : String) (fit value : Card → ℚ) (cands : List Card)
    (l : League) (h : (cands.foldl (scoredStep gm fit value) ([], l)).1 = []) :
    cands = [] := by
  have hlen := (scoredFoldGo_spec gm fit value cands ([], l)).1
  rw [h] at hlen
  simp only [List.length_nil] at hlen
  exact List.length_eq_zero.mp (by omega)

/-- `_choose_best_pick` comes back empty exactly when no board card is both
untaken and alive. -/
theorem choose_best_pick_none_iff (l : League) (tn : String) (board : List Card)
    (taken : List ℕ) (rnd : ℕ) :
    ((l.choose_best_pick tn board taken rnd).1 = none ↔
      (board.filter (fun c => ¬ taken.contains c.id ∧ 0 < c.seasons_left)).isEmpty) := by
  unfold League.choose_best_pick League.scoredFold
  dsimp only
  split
  · next hemp => simpa using hemp
  · next hemp =>
    split
    · next p hp =>
      simp only [List.isEmpty_iff] at hemp ⊢
      constructor
      · intro h; exact absurd h (by simp)
      · intro h; exact absurd h hemp
    · next hnone =>
      exfalso
      have hnil := (pyMaxBy_eq_none_iff _ _).mp hnone
      have hcnil := scoredFold_nil _ _ _ _ _ hnil
      apply hemp
      rw [hcnil]
      rfl

/-- A successful pick is an untaken, alive board card. -/
theorem choose_best_pick_some_mem (l : League) (tn : String) (board : List Card)
    (taken : List ℕ) (rnd : ℕ) (c : Card)
    (h : (l.choose_best_pick tn board taken rnd).1 = some c) :
    c ∈ board ∧ c.id ∉ taken ∧ 0 < c.seasons_left := by
  unfold League.choose_best_pick League.scoredFold at h
  dsimp only at h
  split at h
  · simp at h
  · split at h
    · next p hp =>
      simp only [Option.some.injEq] at h
      have hmem := pyMaxBy_mem _ _ _ hp
      have hcand := (scoredFoldGo_spec _ _ _
        (board.filter (fun d => ¬ taken.contains d.id ∧ 0 < d.seasons_left))
        ([], l)).2.1 p hmem
      simp only [List.map_nil, List.not_mem_nil, false_or] at hcand
      rw [← h]
      have := List.mem_filter.mp hcand
      simpa using this
    · simp at h

theorem updateTeam_names (ts : List Team) (tm : String) (f : Team → Team)
    (hf : ∀ t, (f t).name = t.name) :
    (updateTeam ts tm f).map (·.name) = ts.map (·.name) := by
  unfold updateTeam
  rw [List.map_map]
  apply List.map_congr_left
  intro t ht
  simp only [Function.comp_apply]
  by_cases h : t.name = tm
  · rw [if_pos h, hf]
  · rw [if_neg h]

theorem updateTeam_not_mem (ts : List Team) (tm : String) (f : Team → Team) :
    tm ∉ ts.map (·.name) → updateTeam ts tm f = ts := by
  unfold updateTeam
  induction ts with
  | nil => intro _; rfl
  | cons t ts ih =>
    intro h
    simp only [List.map_cons, List.mem_cons, not_or] at h
    simp only [List.map_cons]
    rw [if_neg (fun hc => h.1 hc.symm), ih h.2]

theorem lookupTeam_update_self (ts : List Team) (tm : String) (f : Team → Team)
    (hf : ∀ t, (f t).name = t.name) :
    tm ∈ ts.map (·.name) →
    lookupTeam (updateTeam ts tm f) tm = f (lookupTeam ts tm) := by
  unfold lookupTeam updateTeam
  induction ts with
  | nil => intro h; simp at h
  | cons t ts ih =>
    intro h
    simp only [List.map_cons]
    by_cases hh : t.name = tm
    · rw [if_pos hh]
      rw [List.find?_cons_of_pos _ (by simp [hf, hh]),
        List.find?_cons_of_pos _ (by simp [hh])]
      rfl
    · rw [if_neg hh]
      rw [List.find?_cons_of_neg _ (by simp [hh]),
        List.find?_cons_of_neg _ (by simp [hh])]
      apply ih
      simp only [List.map_cons, List.mem_cons] at h
      rcases h with h | h
      · exact absurd h.symm hh
      · exact h

theorem lookupTeam_update_other (ts : List Team) (tm tm' : String) (f : Team → Team)
    (hf : ∀ t, (f t).name = t.name) (hne : tm' ≠ tm) :
    lookupTeam (updateTeam ts tm f) tm' = lookupTeam ts tm' := by
  unfold lookupTeam updateTeam
  induction ts with
  | nil => rfl
  | cons t ts ih =>
    simp only [List.map_cons]
    by_cases hh : t.name = tm
    · rw [if_pos hh]
      rw [List.find?_cons_of_neg _ (by simp [hf, hh]; exact fun hc => hne hc.symm),
        List.find?_cons_of_neg _ (by simp [hh]; exact fun hc => hne hc.symm)]
      exact ih
    · rw [if_neg hh]
      by_cases hmatch : t.name = tm'
      · rw [List.find?_cons_of_pos _ (by simp [hmatch]),
          List.find?_cons_of_pos _ (by simp [hmatch])]
      · rw [List.find?_cons_of_neg _ (by simp [hmatch]),
          List.find?_cons_of_neg _ (by simp [hmatch])]
        exact ih

theorem flatMap_roster_update (ts : List Team) (tm : String) (cid : ℕ) :
    (ts.map (·.name)).Nodup → tm ∈ ts.map (·.name) →
    ((updateTeam ts tm (fun t => { t with roster := t.roster ++ [cid] })).flatMap
        (·.roster) : Multiset ℕ) =
      (ts.flatMap (·.roster) : Multiset ℕ) + {cid} := by
  induction ts with
  | nil => intro _ h; simp at h
  | cons t ts ih =>
    intro hnd hmem
    simp only [List.map_cons, List.nodup_cons] at hnd
    by_cases hh : t.name = tm
    · have htail : updateTeam ts tm
          (fun t => { t with roster := t.roster ++ [cid] }) = ts :=
        updateTeam_not_mem ts tm _ (by rw [← hh]; exact hnd.1)
      show ((updateTeam (t :: ts) tm _).flatMap (·.roster) : Multiset ℕ) = _
      unfold updateTeam
      simp only [List.map_cons, if_pos hh]
      have : (List.map (fun u => if u.name = tm
          then { u with roster := u.roster ++ [cid] } else u) ts) = ts := htail
      rw [this]
      simp only [List.flatMap_cons]
      show ((t.roster ++ [cid]) ++ ts.flatMap (·.roster) : Multiset ℕ) = _
      simp only [← Multiset.coe_add, List.append_assoc]
      change (↑t.roster + (↑[cid] + ↑(ts.flatMap (·.roster))) : Multiset ℕ) = _
      rw [Multiset.coe_singleton]
      abel
    · have hmem' : tm ∈ ts.map (·.name) := by
        simp only [List.map_cons, List.mem_cons] at hmem
        rcases hmem with h | h
        · exact absurd h.symm hh
        · exact h
      show ((updateTeam (t :: ts) tm _).flatMap (·.roster) : Multiset ℕ) = _
      unfold updateTeam
      simp only [List.map_cons, if_neg hh]
      simp only [List.flatMap_cons]
      have hihr := ih hnd.2 hmem'
      unfold updateTeam at hihr
      simp only [← Multiset.coe_add]
      rw [hihr]
      abel

theorem nodup_subset_length_le {xs ys : List ℕ} (h1 : xs.Nodup)
    (h2 : ∀ i ∈ xs, i ∈ ys) : xs.length ≤ ys.length :=
  (List.Nodup.subperm h1 h2).length_le

/-- Master invariant of the pick loop: taken ids stay distinct board ids,
team names are stable, the number of picks is exact (`min` of turns against
the live board), every pick lands on exactly one roster, and — while the
board lasts — each team's roster grows by exactly its number of turns. -/
theorem draftLoopGo_spec (board : List Card)
    (hnd : (board.map (·.id)).Nodup)
    (hsl : ∀ c ∈ board, 0 < c.seasons_left) :
    ∀ (turns : List (ℕ × String)) (st : League × List ℕ),
      st.2.Nodup →
      (∀ i ∈ st.2, i ∈ board.map (·.id)) →
      ((st.1.teams.map (·.name)).Nodup) →
      (∀ u ∈ turns, u.2 ∈ st.1.teams.map (·.name)) →
      ((turns.foldl (draftStep board) st).2.Nodup) ∧
      (∀ i ∈ (turns.foldl (draftStep board) st).2, i ∈ board.map (·.id)) ∧
      ((turns.foldl (draftStep board) st).1.teams.map (·.name) =
        st.1.teams.map (·.name)) ∧
      ((turns.foldl (draftStep board) st).2.length =
        min (st.2.length + turns.length) board.length) ∧
      (((turns.foldl (draftStep board) st).1.teams.flatMap (·.roster) :
          Multiset ℕ) + ↑st.2 =
        (st.1.teams.flatMap (·.roster) : Multiset ℕ) +
          ↑(turns.foldl (draftStep board) st).2) ∧
      (st.2.length + turns.length ≤ board.length →
        ∀ tm, (lookupTeam (turns.foldl (draftStep board) st).1.teams tm).roster.length =
          (lookupTeam st.1.teams tm).roster.length + (turns.map (·.2)).count tm) := by
  intro turns
  induction turns with
  | nil =>
    intro st h1 h2 h3 h4
    refine ⟨h1, h2, rfl, ?_, by simp, ?_⟩
    · have hle := nodup_subset_length_le h1 h2
      simp only [List.length_map] at hle
      simp only [List.foldl_nil, List.length_nil]
      omega
    · intro _ tm
      simp
  | cons u us ih =>
    intro st h1 h2 h3 h4
    simp only [List.foldl_cons, List.length_cons]
    rcases hpick : (st.1.choose_best_pick u.2 board st.2 u.1).1 with _ | c
    · have hstep : draftStep board st u =
          ((st.1.choose_best_pick u.2 board st.2 u.1).2, st.2) := by
        unfold draftStep
        dsimp only
        rw [hpick]
      rw [hstep]
      have hteams := choose_best_pick_teams st.1 u.2 board st.2 u.1
      obtain ⟨i1, i2, i3, i4, i5, i6⟩ :=
        ih ((st.1.choose_best_pick u.2 board st.2 u.1).2, st.2) h1 h2
          (by dsimp only; rw [hteams]; exact h3)
          (fun v hv => by dsimp only; rw [hteams]; exact h4 v (List.mem_cons_of_mem _ hv))
      have hfull : board.length ≤ st.2.length := by
        have hemp := (choose_best_pick_none_iff st.1 u.2 board st.2 u.1).mp hpick
        have hsub : ∀ i ∈ board.map (·.id), i ∈ st.2 := by
          intro i hi
          obtain ⟨c, hc, rfl⟩ := List.mem_map.mp hi
          have hno := List.filter_eq_nil.mp (List.isEmpty_iff.mp hemp) c hc
          have h5 := hsl c hc
          by_cases hin : c.id ∈ st.2
          · exact hin
          · exfalso
            apply hno
            simp only [decide_eq_true_eq]
            refine ⟨?_, h5⟩
            simp only [List.contains_iff_exists_mem_beq]
            rintro ⟨a, ha, hab⟩
            have hceq : c.id = a := eq_of_beq hab
            exact hin (by rw [hceq]; exact ha)
        have := nodup_subset_length_le hnd hsub
        simpa using this
      refine ⟨i1, i2, by rw [i3]; dsimp only; rw [hteams], ?_, ?_, ?_⟩
      · rw [i4]
        dsimp only
        omega
      · dsimp only at i5
        rw [hteams] at i5
        exact i5
      · intro hle
        exfalso
        omega
    · have hmemc := choose_best_pick_some_mem st.1 u.2 board st.2 u.1 c hpick
      have hstep : draftStep board st u =
          ({ (st.1.choose_best_pick u.2 board st.2 u.1).2 with
              teams := updateTeam (st.1.choose_best_pick u.2 board st.2 u.1).2.teams
                u.2 (fun t => { t with roster := t.roster ++ [c.id] }) },
            st.2 ++ [c.id]) := by
        unfold draftStep
        dsimp only
        rw [hpick]
      rw [hstep]
      have hteams := choose_best_pick_teams st.1 u.2 board st.2 u.1
      have humem : u.2 ∈ st.1.teams.map (·.name) := h4 u (List.mem_cons_self u us)
      have p1 : (st.2 ++ [c.id]).Nodup := by
        rw [List.nodup_append]
        refine ⟨h1, List.nodup_singleton _, ?_⟩
        intro a ha hb
        simp only [List.mem_singleton] at hb
        subst hb
        exact hmemc.2.1 ha
      have p2 : ∀ i ∈ st.2 ++ [c.id], i ∈ board.map (·.id) := by
        intro i hi
        rcases List.mem_append.mp hi with h | h
        · exact h2 i h
        · simp only [List.mem_singleton] at h
          subst h
          exact List.mem_map_of_mem _ hmemc.1
      have p3 : (updateTeam (st.1.choose_best_pick u.2 board st.2 u.1).2.teams u.2
          (fun t => { t with roster := t.roster ++ [c.id] })).map (·.name) =
          st.1.teams.map (·.name) := by
        rw [updateTeam_names _ _ (fun t => { t with roster := t.roster ++ [c.id] })
          (fun t => rfl), hteams]
      obtain ⟨i1, i2, i3, i4, i5, i6⟩ :=
        ih ({ (st.1.choose_best_pick u.2 board st.2 u.1).2 with
              teams := updateTeam (st.1.choose_best_pick u.2 board st.2 u.1).2.teams
                u.2 (fun t => { t with roster := t.roster ++ [c.id] }) },
            st.2 ++ [c.id]) p1 p2 (by dsimp only; rw [p3]; exact h3)
          (fun v hv => by dsimp only; rw [p3]; exact h4 v (List.mem_cons_of_mem _ hv))
      have hupd : ((updateTeam (st.1.choose_best_pick u.2 board st.2 u.1).2.teams u.2
          (fun t => { t with roster := t.roster ++ [c.id] })).flatMap (·.roster) :
            Multiset ℕ) =
          (st.1.teams.flatMap (·.roster) : Multiset ℕ) + {c.id} := by
        rw [hteams]
        exact flatMap_roster_update st.1.teams u.2 c.id h3 humem
      refine ⟨i1, i2, by rw [i3]; dsimp only; rw [p3], ?_, ?_, ?_⟩
      · rw [i4]
        simp only [List.length_append, List.length_singleton]
        omega
      · dsimp only at i5
        rw [hupd] at i5
        have h2eq : ((st.2 ++ [c.id] : List ℕ) : Multiset ℕ) = ↑st.2 + {c.id} := by
          rw [← Multiset.coe_singleton, ← Multiset.coe_add]
        rw [h2eq] at i5
        have hfin : (((us.foldl (draftStep board)
            ({ (st.1.choose_best_pick u.2 board st.2 u.1).2 with
                teams := updateTeam (st.1.choose_best_pick u.2 board st.2 u.1).2.teams
                  u.2 (fun t => { t with roster := t.roster ++ [c.id] }) },
              st.2 ++ [c.id])).1.teams.flatMap (·.roster) : Multiset ℕ) + ↑st.2)
              + {c.id} =
            (((st.1.teams.flatMap (·.roster) : Multiset ℕ) +
              ↑(us.foldl (draftStep board)
                ({ (st.1.choose_best_pick u.2 board st.2 u.1).2 with
                    teams := updateTeam (st.1.choose_best_pick u.2 board st.2 u.1).2.teams
                      u.2 (fun t => { t with roster := t.roster ++ [c.id] }) },
                  st.2 ++ [c.id])).2) + {c.id}) := by
          rw [add_assoc]
          rw [i5]
          abel
        exact add_right_cancel hfin
      · intro hle tm
        have h6 := i6 (by simp only [List.length_append, List.length_singleton]; omega) tm
        dsimp only at h6
        rw [h6]
        by_cases htm : tm = u.2
        · rw [htm]
          rw [lookupTeam_update_self _ _ (fun t => { t with roster := t.roster ++ [c.id] })
            (fun t => rfl) (by rw [hteams]; exact humem)]
          rw [hteams]
          dsimp only
          simp only [List.map_cons, List.count_cons, List.length_append,
            List.length_singleton, beq_self_eq_true, if_true]
          omega
        · rw [lookupTeam_update_other _ _ _ (fun t => { t with roster := t.roster ++ [c.id] })
            (fun t => rfl) htm]
          rw [hteams]
          simp only [List.map_cons, List.count_cons]
          rw [if_neg (by simpa using Ne.symm htm)]
          omega

theorem snakeOrder_length (order : List String) (rnd : ℕ) :
    (snakeOrder order rnd).length = order.length := by
  unfold snakeOrder
  split <;> simp

theorem snakeOrder_count (order : List String) (rnd : ℕ) (tm : String) :
    (snakeOrder order rnd).count tm = order.count tm := by
  unfold snakeOrder
  split
  · rfl
  · exact List.count_reverse _ _

theorem snakeOrder_mem (order : List String) (rnd : ℕ) (tm : String)
    (h : tm ∈ snakeOrder order rnd) : tm ∈ order := by
  unfold snakeOrder at h
  split at h
  · exact h
  · exact List.mem_reverse.mp h

theorem draftTurns_length (order : List String) (rounds : ℕ) :
    (draftTurns order rounds).length = rounds * order.length := by
  unfold draftTurns
  induction rounds with
  | zero => simp
  | succ n ih =>
    rw [List.range_succ]
    simp only [List.flatMap_append, List.length_append, ih, List.flatMap_cons,
      List.flatMap_nil, List.append_nil, List.length_map, snakeOrder_length]
    ring

theorem draftTurns_count (order : List String) (rounds : ℕ) (tm : String) :
    ((draftTurns order rounds).map (·.2)).count tm = rounds * order.count tm := by
  unfold draftTurns
  induction rounds with
  | zero => simp
  | succ n ih =>
    rw [List.range_succ]
    simp only [List.flatMap_append, List.map_append, List.count_append, ih,
      List.flatMap_cons, List.flatMap_nil, List.append_nil, List.map_map]
    have hcomp : ((fun (x : ℕ × String) => x.2) ∘ fun t => (n, t)) = id := rfl
    rw [hcomp, List.map_id, snakeOrder_count]
    ring

theorem draftTurns_team_mem (order : List String) (rounds : ℕ) (u : ℕ × String)
    (h : u ∈ draftTurns order rounds) : u.2 ∈ order := by
  unfold draftTurns at h
  obtain ⟨rnd, _, hu⟩ := List.mem_flatMap.mp h
  obtain ⟨t, ht, rfl⟩ := List.mem_map.mp hu
  exact snakeOrder_mem order rnd t ht

/-- C6: the pick loop of `_run_draft`, run over the full snake `(round,
team)` sequence, takes pairwise-distinct cards from the board, takes exactly
`rounds × order.length` of them unless the eligible board is exhausted first
(`min`), never assigns a card to more than one roster (the combined roster
bag grows by exactly the taken ids), and — while the board suffices — hands
every team exactly `rounds` picks per appearance in the lottery order. -/
theorem C6_draft_completeness (l : League) (board : List Card) (order : List String)
    (rounds : ℕ)
    (hnd : (board.map (·.id)).Nodup)
    (hsl : ∀ c ∈ board, 0 < c.seasons_left)
    (hnames : (l.teams.map (·.name)).Nodup)
    (horder : ∀ tm ∈ order, tm ∈ l.teams.map (·.name)) :
    ((l.draftLoop board (draftTurns order rounds)).2).Nodup ∧
    (∀ i ∈ (l.draftLoop board (draftTurns order rounds)).2, i ∈ board.map (·.id)) ∧
    ((l.draftLoop board (draftTurns order rounds)).2.length =
      min (rounds * order.length) board.length) ∧
    (((l.draftLoop board (draftTurns order rounds)).1.teams.flatMap (·.roster) :
        Multiset ℕ) =
      (l.teams.flatMap (·.roster) : Multiset ℕ) +
        ↑(l.draftLoop board (draftTurns order rounds)).2) ∧
    (rounds * order.length ≤ board.length →
      ∀ tm, (lookupTeam (l.draftLoop board (draftTurns order rounds)).1.teams tm).roster.length =
        (lookupTeam l.teams tm).roster.length + rounds * order.count tm) := by
  have hturns : ∀ u ∈ draftTurns order rounds, u.2 ∈ l.teams.map (·.name) :=
    fun u hu => horder u.2 (draftTurns_team_mem order rounds u hu)
  obtain ⟨i1, i2, i3, i4, i5, i6⟩ :=
    draftLoopGo_spec board hnd hsl (draftTurns order rounds) (l, [])
      List.nodup_nil (by simp) hnames hturns
  unfold League.draftLoop
  refine ⟨i1, i2, ?_, ?_, ?_⟩
  · rw [i4]
    simp [draftTurns_length]
  · have h5 := i5
    simp only [Multiset.coe_nil, add_zero] at h5
    rw [h5]
  · intro hpool tm
    have h6 := i6 (by simpa [draftTurns_length] using hpool) tm
    rw [h6, draftTurns_count]

theorem C6_draft_completeness_witness :
    ((c2League.cards.map (·.id)).Nodup ∧
     (∀ c ∈ c2League.cards, 0 < c.seasons_left) ∧
     (c2League.teams.map (·.name)).Nodup ∧
     (∀ tm ∈ ["A", "B", "C", "D"], tm ∈ c2League.teams.map (·.name))) ∧
    (((c2League.draftLoop c2League.cards (draftTurns ["A", "B", "C", "D"] 3)).2).Nodup ∧
     (∀ i ∈ (c2League.draftLoop c2League.cards (draftTurns ["A", "B", "C", "D"] 3)).2,
       i ∈ c2League.cards.map (·.id)) ∧
     ((c2League.draftLoop c2League.cards (draftTurns ["A", "B", "C", "D"] 3)).2.length =
       min (3 * (["A", "B", "C", "D"] : List String).length) c2League.cards.length) ∧
     (((c2League.draftLoop c2League.cards
           (draftTurns ["A", "B", "C", "D"] 3)).1.teams.flatMap (·.roster) :
         Multiset ℕ) =
       (c2League.teams.flatMap (·.roster) : Multiset ℕ) +
         ↑(c2League.draftLoop c2League.cards (draftTurns ["A", "B", "C", "D"] 3)).2) ∧
     (3 * (["A", "B", "C", "D"] : List String).length ≤ c2League.cards.length →
       ∀ tm, (lookupTeam (c2League.draftLoop c2League.cards
           (draftTurns ["A", "B", "C", "D"] 3)).1.teams tm).roster.length =
         (lookupTeam c2League.teams tm).roster.length +
           3 * (["A", "B", "C", "D"] : List String).count tm)) :=
  ⟨⟨by decide, by decide, by decide, by decide⟩,
   C6_draft_completeness c2League c2League.cards ["A", "B", "C", "D"] 3
     (by decide) (by decide) (by decide) (by decide)⟩

theorem foldl_map_comm (σ : β → β') (h : α → α') (f : β → α → β) (g : β' → α' → β')
    (hc : ∀ b a, σ (f b a) = g (σ b) (h a)) :
    ∀ (xs : List α) (b : β), σ (xs.foldl f b) = (xs.map h).foldl g (σ b) := by
  intro xs
  induction xs with
  | nil => intro b; rfl
  | cons x xs ih =>
    intro b
    simp only [List.foldl_cons, List.map_cons]
    rw [← hc, ih]

theorem foldl_comm (σ : β → β') (f : β → α → β) (g : β' → α → β')
    (hc : ∀ b a, σ (f b a) = g (σ b) a) :
    ∀ (xs : List α) (b : β), σ (xs.foldl f b) = xs.foldl g (σ b) := by
  intro xs
  induction xs with
  | nil => intro b; rfl
  | cons x xs ih =>
    intro b
    simp only [List.foldl_cons]
    rw [ih, hc]

theorem getD_map_total (f : α → β) (xs : List α) (i : ℕ) (d : α) :
    (xs.map f).getD i (f d) = f (xs.getD i d) := by
  induction xs generalizing i with
  | nil => simp [List.getD]
  | cons x xs ih =>
    cases i with
    | zero => simp [List.getD]
    | succ n => simpa [List.getD] using ih n

theorem contains_map_add (tk : List ℕ) (x δ : ℕ) :
    (tk.map (· + δ)).contains (x + δ) = tk.contains x := by
  induction tk with
  | nil => rfl
  | cons a tk ih =>
    simp only [List.map_cons, List.contains_cons, ih]
    congr 1
    rw [Bool.eq_iff_iff]
    simp only [beq_iff_eq]
    omega

theorem choice_map (r : RS) (h : α → α') (xs : List α) (d : α) :
    r.choice (xs.map h) (h d) = (h (r.choice xs d).1, (r.choice xs d).2) := by
  unfold RS.choice
  dsimp only
  rw [List.length_map, getD_map_total]

theorem listSwap_map (h : α → α') (l : List α) (i j : ℕ) (d : α) :
    listSwap (l.map h) i j (h d) = (listSwap l i j d).map h := by
  unfold listSwap
  rw [getD_map_total, getD_map_total, ← List.map_set, ← List.map_set]

theorem shuffleGo_map (h : α → α') (d : α) :
    ∀ (n : ℕ) (l : List α) (r : RS),
      RS.shuffleGo (h d) n (l.map h) r =
        ((RS.shuffleGo d n l r).1.map h, (RS.shuffleGo d n l r).2) := by
  intro n
  induction n with
  | zero => intro l r; rfl
  | succ i ih =>
    intro l r
    unfold RS.shuffleGo
    dsimp only
    rw [listSwap_map, ih]

theorem shuffle_map (r : RS) (h : α → α') (l : List α) (d : α) :
    r.shuffle (l.map h) (h d) = ((r.shuffle l d).1.map h, (r.shuffle l d).2) := by
  unfold RS.shuffle
  rw [List.length_map, shuffleGo_map]

theorem alGet_mapKV {g : κ → κ'} (σ : β → β') [DecidableEq κ] [DecidableEq κ']
    (hg : ∀ a b, g a = g b → a = b) (xs : List (κ × β)) (k : κ) :
    alGet (mapKV g σ xs) (g k) = (alGet xs k).map σ := by
  induction xs with
  | nil => rfl
  | cons p xs ih =>
    unfold mapKV at *
    unfold alGet at *
    simp only [List.map_cons]
    by_cases h : p.1 = k
    · rw [List.find?_cons_of_pos _ (by simp [h]), List.find?_cons_of_pos _ (by simp [h])]
      rfl
    · rw [List.find?_cons_of_neg _ (by simp only [decide_eq_true_eq]; exact fun hc => h (hg _ _ hc)),
        List.find?_cons_of_neg _ (by simp [h])]
      exact ih

theorem alGetD_mapKV {g : κ → κ'} (σ : β → β') [DecidableEq κ] [DecidableEq κ']
    (hg : ∀ a b, g a = g b → a = b) (xs : List (κ × β)) (k : κ) (d : β) :
    alGetD (mapKV g σ xs) (g k) (σ d) = σ (alGetD xs k d) := by
  unfold alGetD
  rw [alGet_mapKV σ hg xs k]
  cases alGet xs k <;> rfl

theorem alMem_mapKV {g : κ → κ'} (σ : β → β') [DecidableEq κ] [DecidableEq κ']
    (hg : ∀ a b, g a = g b → a = b) (xs : List (κ × β)) (k : κ) :
    alMem (mapKV g σ xs) (g k) = alMem xs k := by
  unfold alMem mapKV
  induction xs with
  | nil => rfl
  | cons p xs ih =>
    simp only [List.map_cons, List.any_cons, ih]
    congr 1
    rw [Bool.eq_iff_iff]
    simp only [decide_eq_true_eq]
    exact ⟨hg _ _, fun hc => by rw [hc]⟩

theorem alSet_mapKV {g : κ → κ'} (σ : β → β') [DecidableEq κ] [DecidableEq κ']
    (hg : ∀ a b, g a = g b → a = b) (xs : List (κ × β)) (k : κ) (v : β) :
    alSet (mapKV g σ xs) (g k) (σ v) = mapKV g σ (alSet xs k v) := by
  unfold alSet
  have hany : (mapKV g σ xs).any (fun p => p.1 = g k) = xs.any (fun p => p.1 = k) := by
    have := alMem_mapKV σ hg xs k
    unfold alMem at this
    exact this
  rw [hany]
  by_cases h : xs.any (fun p => p.1 = k) = true
  · rw [if_pos h, if_pos h]
    unfold mapKV
    rw [List.map_map, List.map_map]
    apply List.map_congr_left
    intro p hp
    simp only [Function.comp_apply]
    by_cases hh : p.1 = k
    · rw [if_pos (show g p.1 = g k by rw [hh]), if_pos hh]
    · rw [if_neg (fun hc => hh (hg _ _ hc)), if_neg hh]
  · rw [if_neg h, if_neg h]
    unfold mapKV
    rw [List.map_append]
    rfl

theorem alUpd_mapKV {g : κ → κ'} (σ : β → β') [DecidableEq κ] [DecidableEq κ']
    (hg : ∀ a b, g a = g b → a = b) (xs : List (κ × β)) (k : κ) (d : β)
    (f : β → β) (f' : β' → β') (hf : ∀ b, f' (σ b) = σ (f b)) :
    alUpd (mapKV g σ xs) (g k) (σ d) f' = mapKV g σ (alUpd xs k d f) := by
  unfold alUpd
  rw [alGetD_mapKV σ hg xs k d, hf, alSet_mapKV σ hg]

theorem pyMaxBy_map (h : α → α') (key : α' → ℚ) (xs : List α) :
    pyMaxBy key (xs.map h) = (pyMaxBy (fun a => key (h a)) xs).map h := by
  cases xs with
  | nil => rfl
  | cons x xs =>
    simp only [List.map_cons, pyMaxBy]
    rw [show Option.map h (some (xs.foldl
        (fun best c => if key (h best) < key (h c) then c else best) x)) =
      some (h (xs.foldl
        (fun best c => if key (h best) < key (h c) then c else best) x)) from rfl]
    congr 1
    exact (foldl_map_comm h h _ _ (fun b a => by rw [apply_ite h]) xs x).symm

theorem insSorted_map (h : α → α') (le : α → α → Bool) (le' : α' → α' → Bool)
    (hle : ∀ a b, le' (h a) (h b) = le a b) (x : α) :
    ∀ xs, insSorted le' (h x) (xs.map h) = (insSorted le x xs).map h := by
  intro xs
  induction xs with
  | nil => rfl
  | cons y ys ih =>
    simp only [insSorted, List.map_cons, hle]
    cases hyx : le y x <;> simp [hyx, ih]

theorem stableSort_map (h : α → α') (le : α → α → Bool) (le' : α' → α' → Bool)
    (hle : ∀ a b, le' (h a) (h b) = le a b) (xs : List α) :
    stableSort le' (xs.map h) = (stableSort le xs).map h := by
  unfold stableSort
  induction xs with
  | nil => rfl
  | cons x xs ih =>
    simp only [List.map_cons, List.foldr_cons, ih]
    rw [insSorted_map h le le' hle]

theorem active_map_shift (s : Synergy) (δ : ℕ) (starters : List Card) :
    s.active (starters.map (shiftCard δ)) = s.active starters := by
  unfold Synergy.active
  simp only [List.any_map]
  rfl

theorem withRng_shift (δ : ℕ) (l : League) (f : RS → β × RS) :
    (shiftLeague δ l).withRng f =
      ((l.withRng f).1, shiftLeague δ (l.withRng f).2) := rfl

theorem next_card_id_shift (δ : ℕ) (l : League) :
    (shiftLeague δ l).next_card_id =
      ((l.next_card_id).1 + δ, shiftLeague δ (l.next_card_id).2) := by
  unfold League.next_card_id shiftLeague
  dsimp only
  rw [show l.card_counter + δ + 1 = l.card_counter + 1 + δ by omega]

theorem lookupTeam_map_shift (δ : ℕ) (ts : List Team) (name : String) :
    lookupTeam (ts.map (shiftTeam δ)) name = shiftTeam δ (lookupTeam ts name) := by
  unfold lookupTeam
  induction ts with
  | nil => rfl
  | cons t ts ih =>
    simp only [List.map_cons]
    by_cases h : t.name = name
    · rw [List.find?_cons_of_pos _ (by simp [shiftTeam, h]),
        List.find?_cons_of_pos _ (by simp [h])]
      rfl
    · rw [List.find?_cons_of_neg _ (by simp [shiftTeam, h]),
        List.find?_cons_of_neg _ (by simp [h])]
      exact ih

theorem lookupCard_map_shift (δ : ℕ) (cards : List Card) (cid : ℕ) :
    lookupCard (cards.map (shiftCard δ)) (cid + δ) = shiftCard δ (lookupCard cards cid) := by
  unfold lookupCard
  induction cards with
  | nil => rfl
  | cons c cs ih =>
    simp only [List.map_cons]
    by_cases h : c.id = cid
    · rw [List.find?_cons_of_pos _ (by simp [shiftCard, h]),
        List.find?_cons_of_pos _ (by simp [h])]
      rfl
    · rw [List.find?_cons_of_neg _ (by simp only [shiftCard, decide_eq_true_eq]; omega),
        List.find?_cons_of_neg _ (by simp [h])]
      exact ih

theorem updateCard_map_shift (δ : ℕ) (cards : List Card) (cid : ℕ)
    (f f' : Card → Card) (hf : ∀ c, f' (shiftCard δ c) = shiftCard δ (f c)) :
    updateCard (cards.map (shiftCard δ)) (cid + δ) f' =
      (updateCard cards cid f).map (shiftCard δ) := by
  unfold updateCard
  rw [List.map_map, List.map_map]
  apply List.map_congr_left
  intro c hc
  simp only [Function.comp_apply]
  by_cases h : c.id = cid
  · rw [if_pos (show (shiftCard δ c).id = cid + δ by simp [shiftCard, h]), if_pos h, hf]
  · rw [if_neg (show ¬ (shiftCard δ c).id = cid + δ by simp only [shiftCard]; omega),
      if_neg h]

theorem updateTeam_map_shift (δ : ℕ) (ts : List Team) (name : String)
    (f f' : Team → Team) (hf : ∀ t, f' (shiftTeam δ t) = shiftTeam δ (f t)) :
    updateTeam (ts.map (shiftTeam δ)) name f' =
      (updateTeam ts name f).map (shiftTeam δ) := by
  unfold updateTeam
  rw [List.map_map, List.map_map]
  apply List.map_congr_left
  intro t ht
  simp only [Function.comp_apply]
  by_cases h : t.name = name
  · rw [if_pos (show (shiftTeam δ t).name = name from h), if_pos h, hf]
  · rw [if_neg (show ¬ (shiftTeam δ t).name = name from h), if_neg h]

theorem shiftLeague_names (δ : ℕ) (l : League) :
    (shiftLeague δ l).teams.map (·.name) = l.teams.map (·.name) := by
  unfold shiftLeague
  dsimp only
  rw [List.map_map]
  rfl

theorem choice_map_pos (r : RS) (h : α → α') (xs : List α) (d : α) (d' : α')
    (hne : xs ≠ []) :
    r.choice (xs.map h) d' = (h (r.choice xs d).1, (r.choice xs d).2) := by
  unfold RS.choice RS.randBelow
  dsimp only
  rw [List.length_map]
  congr 1
  have hlt : (r.draw.1 % xs.length) < xs.length :=
    Nat.mod_lt _ (List.length_pos.mpr hne)
  exact getD_map_of_lt h xs _ d d' hlt

theorem random_city_tag_shift (δ : ℕ) (l : League) :
    (shiftLeague δ l).random_city_tag =
      ((l.random_city_tag).1, shiftLeague δ (l.random_city_tag).2) :=
  withRng_shift δ l _

theorem random_name_shift (δ : ℕ) (l : League) :
    (shiftLeague δ l).random_name =
      ((l.random_name).1, shiftLeague δ (l.random_name).2) := by
  unfold League.random_name
  rw [withRng_shift]
  dsimp only
  have key := foldl_comm (fun (x : String × League) => (x.1, shiftLeague δ x.2))
    (fun (acc : String × League) (_ : ℕ) =>
      let syl := acc.2.withRng (fun r => r.choice NAME_SYLLABLES "")
      (acc.1 ++ syl.1, syl.2))
    (fun (acc : String × League) (_ : ℕ) =>
      let syl := acc.2.withRng (fun r => r.choice NAME_SYLLABLES "")
      (acc.1 ++ syl.1, syl.2))
    (fun b a => by
      dsimp only
      rw [withRng_shift])
    (List.range (l.withRng (fun r => r.choice [2, 3] 2)).1)
    ("", (l.withRng (fun r => r.choice [2, 3] 2)).2)
  dsimp only at key
  rw [← key]

theorem generate_card_name_shift (δ : ℕ) (l : League) :
    (shiftLeague δ l).generate_card_name =
      ((l.generate_card_name).1, shiftLeague δ (l.generate_card_name).2) := by
  unfold League.generate_card_name
  rw [random_name_shift]
  dsimp only
  rw [withRng_shift]

theorem genPoolCard_shift (δ : ℕ) (l : League) :
    (shiftLeague δ l).genPoolCard = shiftLeague δ l.genPoolCard := by
  unfold League.genPoolCard
  rw [next_card_id_shift]
  dsimp only
  rw [generate_card_name_shift]
  dsimp only
  simp only [withRng_shift]
  unfold shiftLeague
  dsimp only
  rw [List.map_append]
  rfl

theorem genPoolCard_len (l : League) :
    l.genPoolCard.cards.length = l.cards.length + 1 := by
  unfold League.genPoolCard
  simp only [withRng_cards, generate_card_name_cards, next_card_id_cards,
    List.length_append, List.length_cons, List.length_nil]

theorem poolFold_len : ∀ (n : ℕ) (st : League),
    ((List.range n).foldl (fun s _ => s.genPoolCard) st).cards.length =
      st.cards.length + n := by
  intro n
  induction n with
  | zero => intro st; rfl
  | succ k ih =>
    intro st
    rw [List.range_succ, List.foldl_append]
    simp only [List.foldl_cons, List.foldl_nil]
    rw [genPoolCard_len, ih]
    omega

theorem generate_card_pool_shift (δ : ℕ) (l : League) :
    (shiftLeague δ l).generate_card_pool = shiftLeague δ l.generate_card_pool := by
  unfold League.generate_card_pool
  rw [withRng_shift]
  dsimp only
  set tp := l.withRng (fun r => r.randintN MIN_CARD_POOL MAX_CARD_POOL) with htp
  have key := foldl_comm (shiftLeague δ) (fun (s : League) (_ : ℕ) => s.genPoolCard)
    (fun (s : League) (_ : ℕ) => s.genPoolCard)
    (fun b a => (genPoolCard_shift δ b).symm) (List.range tp.1) tp.2
  rw [← key]
  set L2 := (List.range tp.1).foldl (fun (s : League) (_ : ℕ) => s.genPoolCard) tp.2
    with hL2
  have hne : L2.cards ≠ [] := by
    have hn := poolFold_len tp.1 tp.2
    have hpos : 0 < tp.1 := by
      rw [htp]
      unfold League.withRng RS.randintN RS.randBelow RS.draw MIN_CARD_POOL
      dsimp only
      omega
    rw [← hL2] at hn
    intro hcon
    rw [hcon] at hn
    simp only [List.length_nil] at hn
    omega
  have hids : (shiftLeague δ L2).cards.map (·.id) = (L2.cards.map (·.id)).map (· + δ) := by
    unfold shiftLeague
    dsimp only
    rw [List.map_map, List.map_map]
    rfl
  have hch : (shiftLeague δ L2).withRng
      (fun r => r.choice ((shiftLeague δ L2).cards.map (·.id)) 0) =
      ((L2.withRng (fun r => r.choice (L2.cards.map (·.id)) 0)).1 + δ,
        shiftLeague δ (L2.withRng (fun r => r.choice (L2.cards.map (·.id)) 0)).2) := by
    unfold League.withRng
    dsimp only
    rw [hids]
    rw [show (shiftLeague δ L2).rng = L2.rng from rfl]
    rw [choice_map_pos L2.rng (· + δ) (L2.cards.map (·.id)) 0 0
      (fun hcon => hne (List.map_eq_nil.mp hcon))]
    rfl
  rw [hch]
  dsimp only
  have hupd := updateCard_map_shift δ
    (L2.withRng (fun r => r.choice (L2.cards.map (·.id)) 0)).2.cards
    (L2.withRng (fun r => r.choice (L2.cards.map (·.id)) 0)).1
    (fun c => { c with seasonal_special := true })
    (fun c => { c with seasonal_special := true }) (fun c => rfl)
  rw [show (shiftLeague δ (L2.withRng (fun r => r.choice (L2.cards.map (·.id)) 0)).2).cards =
      (L2.withRng (fun r => r.choice (L2.cards.map (·.id)) 0)).2.cards.map (shiftCard δ)
    from rfl]
  rw [hupd]
  rfl

theorem shiftLeague_teams (δ : ℕ) (l : League) :
    (shiftLeague δ l).teams = l.teams.map (shiftTeam δ) := rfl

theorem shiftLeague_cards (δ : ℕ) (l : League) :
    (shiftLeague δ l).cards = l.cards.map (shiftCard δ) := rfl

theorem shiftLeague_rng (δ : ℕ) (l : League) : (shiftLeague δ l).rng = l.rng := rfl

theorem shiftLeague_season (δ : ℕ) (l : League) :
    (shiftLeague δ l).season = l.season := rfl

theorem shiftLeague_synergies (δ : ℕ) (l : League) :
    (shiftLeague δ l).synergies = l.synergies := rfl

theorem shiftLeague_game_log (δ : ℕ) (l : League) :
    (shiftLeague δ l).game_log = l.game_log.map (shiftGame δ) := rfl

theorem shiftLeague_history (δ : ℕ) (l : League) :
    (shiftLeague δ l).history = l.history.map (shiftHistory δ) := rfl

theorem dictInsertTeam_map_shift (δ : ℕ) (ts : List Team) (t : Team) :
    dictInsertTeam (ts.map (shiftTeam δ)) (shiftTeam δ t) =
      (dictInsertTeam ts t).map (shiftTeam δ) := by
  unfold dictInsertTeam
  have hany : (ts.map (shiftTeam δ)).any (fun u => u.name = (shiftTeam δ t).name) =
      ts.any (fun u => u.name = t.name) := by
    rw [List.any_map]
    rfl
  rw [hany]
  split
  · rw [List.map_map, List.map_map]
    apply List.map_congr_left
    intro u hu
    simp only [Function.comp_apply]
    by_cases h : u.name = t.name
    · rw [if_pos (show (shiftTeam δ u).name = (shiftTeam δ t).name from h), if_pos h]
    · rw [if_neg (show ¬ (shiftTeam δ u).name = (shiftTeam δ t).name from h), if_neg h]
  · rw [List.map_append]
    rfl

theorem rivalStep_shift (δ : ℕ) (st : League) (ab : String × String) :
    rivalStep (shiftLeague δ st) ab = shiftLeague δ (rivalStep st ab) := by
  unfold rivalStep
  simp only [withRng_shift]
  rw [apply_ite (shiftLeague δ)]
  split
  · rw [shiftLeague_teams]
    set u2 := (st.withRng RS.random01).2 with hu2
    set d1v := (u2.withRng (fun r => r.randintN 0 6)).1 with hd1
    set d2v := ((u2.withRng (fun r => r.randintN 0 6)).2.withRng
      (fun r => r.randintN 0 6)).1 with hd2
    rw [updateTeam_map_shift δ _ ab.1
      (fun t => { t with rivals := alSet t.rivals ab.2 (RIVALRY_INITIAL + d1v) })
      _ (fun t => rfl)]
    rw [updateTeam_map_shift δ _ ab.2
      (fun t => { t with rivals := alSet t.rivals ab.1 (RIVALRY_INITIAL + d2v) })
      _ (fun t => rfl)]
    rfl
  · rfl

theorem seedRivalries_shift (δ : ℕ) (l : League) :
    (shiftLeague δ l).seedRivalries = shiftLeague δ l.seedRivalries := by
  unfold League.seedRivalries
  rw [shiftLeague_names]
  exact (foldl_comm (shiftLeague δ) rivalStep rivalStep
    (fun b a => (rivalStep_shift δ b a).symm) _ l).symm

theorem dictInsertTeam_map_shift_plain (δ : ℕ) (ts : List Team)
    (nm g s so r : String) :
    dictInsertTeam (ts.map (shiftTeam δ))
        { name := nm, gm_name := g, gm_style := s, gm_social := so, gm_rivalry := r } =
      (dictInsertTeam ts
        { name := nm, gm_name := g, gm_style := s, gm_social := so,
          gm_rivalry := r }).map (shiftTeam δ) := by
  have hplain :
      ({ name := nm, gm_name := g, gm_style := s, gm_social := so, gm_rivalry := r } : Team)
      = shiftTeam δ
        { name := nm, gm_name := g, gm_style := s, gm_social := so, gm_rivalry := r } :=
    rfl
  conv_lhs => rw [hplain]
  rw [dictInsertTeam_map_shift]

theorem genTeamStep_shift (δ : ℕ) (hm : Option String) (names : List String)
    (st : League) (i : ℕ) :
    genTeamStep hm names (shiftLeague δ st) i =
      shiftLeague δ (genTeamStep hm names st i) := by
  unfold genTeamStep
  rw [random_city_tag_shift]
  dsimp only
  rw [random_name_shift]
  dsimp only
  simp only [withRng_shift]
  rw [shiftLeague_teams]
  rw [dictInsertTeam_map_shift_plain]
  rfl

theorem generate_teams_shift (δ : ℕ) (l : League) (hm : Option String) :
    (shiftLeague δ l).generate_teams hm = shiftLeague δ (l.generate_teams hm) := by
  unfold League.generate_teams
  rw [withRng_shift]
  dsimp only
  rw [← foldl_comm (shiftLeague δ) (genTeamStep hm (l.withRng
      (fun r => r.shuffle TEAM_WORDS "")).1) (genTeamStep hm (l.withRng
      (fun r => r.shuffle TEAM_WORDS "")).1)
    (fun b a => (genTeamStep_shift δ hm _ b a).symm) (List.range NUM_TEAMS)
    (l.withRng (fun r => r.shuffle TEAM_WORDS "")).2]
  rw [seedRivalries_shift]

theorem generate_synergies_shift (δ : ℕ) (l : League) :
    (shiftLeague δ l).generate_synergies = shiftLeague δ l.generate_synergies := rfl

theorem mkLeague_shift (δ : ℕ) (rs : RS) (i : ℕ) (hm : Option String) :
    mkLeague rs (i + δ) hm = shiftLeague δ (mkLeague rs i hm) := by
  unfold mkLeague
  dsimp only
  rw [← generate_card_pool_shift, ← generate_synergies_shift, ← generate_teams_shift]
  rfl

theorem buffUpd_shift (δ : ℕ) (d1 d2 d3 d4 d5 : ℤ) (c : Card) :
    buffUpd d1 d2 d3 d4 d5 (shiftCard δ c) = shiftCard δ (buffUpd d1 d2 d3 d4 d5 c) := by
  unfold buffUpd shiftCard
  dsimp only
  repeat' split
  all_goals rfl

theorem buff_card_shift (δ : ℕ) (l : League) (cid : ℕ) :
    (shiftLeague δ l).buff_card (cid + δ) =
      ((l.buff_card cid).1, shiftLeague δ (l.buff_card cid).2) := by
  unfold League.buff_card
  simp only [withRng_shift]
  rw [shiftLeague_cards]
  rw [updateCard_map_shift δ _ cid _ _ (fun c => buffUpd_shift δ _ _ _ _ _ c)]
  rfl

theorem nerf_card_shift (δ : ℕ) (l : League) (cid : ℕ) :
    (shiftLeague δ l).nerf_card (cid + δ) =
      ((l.nerf_card cid).1, shiftLeague δ (l.nerf_card cid).2) := by
  unfold League.nerf_card
  simp only [withRng_shift]
  rw [shiftLeague_cards]
  rw [updateCard_map_shift δ _ cid _ _ (fun c => buffUpd_shift δ _ _ _ _ _ c)]
  rfl

theorem compute_ovr_shift (δ : ℕ) (c : Card) :
    (shiftCard δ c).compute_ovr = shiftCard δ c.compute_ovr := rfl

theorem statSnapshot_shift (δ : ℕ) (c : Card) :
    statSnapshot (shiftCard δ c) = statSnapshot c := rfl

theorem patchTag_shift (δ : ℕ) (s : ℕ) (b : Bool) (c : Card) :
    patchTag s b (shiftCard δ c) = shiftCard δ (patchTag s b c) := rfl

theorem patchOneCard_shift (δ : ℕ) (l : League) (cid : ℕ) (b : Bool) :
    (shiftLeague δ l).patchOneCard (cid + δ) b =
      (shiftPatch δ (l.patchOneCard cid b).1,
        shiftLeague δ (l.patchOneCard cid b).2) := by
  cases b
  · unfold League.patchOneCard
    dsimp only
    simp only [Bool.false_eq_true, if_false]
    rw [nerf_card_shift]
    rw [shiftLeague_cards]
    rw [updateCard_map_shift δ _ cid Card.compute_ovr Card.compute_ovr
      (fun c => compute_ovr_shift δ c)]
    simp only [lookupCard_map_shift]
    simp only [shiftLeague_season]
    rw [updateCard_map_shift δ _ cid (patchTag _ false) _
      (fun c => patchTag_shift δ _ false c)]
    rfl
  · unfold League.patchOneCard
    dsimp only
    simp only [reduceIte]
    rw [buff_card_shift]
    rw [shiftLeague_cards]
    rw [updateCard_map_shift δ _ cid Card.compute_ovr Card.compute_ovr
      (fun c => compute_ovr_shift δ c)]
    simp only [lookupCard_map_shift]
    simp only [shiftLeague_season]
    rw [updateCard_map_shift δ _ cid (patchTag _ true) _
      (fun c => patchTag_shift δ _ true c)]
    rfl

theorem synShiftStep_shift (δ : ℕ) (acc : List PatchChange × League) (code : String) :
    synShiftStep (acc.1.map (shiftPatch δ), shiftLeague δ acc.2) code =
      ((synShiftStep acc code).1.map (shiftPatch δ),
        shiftLeague δ (synShiftStep acc code).2) := by
  unfold synShiftStep
  dsimp only
  rw [shiftLeague_synergies, withRng_shift]
  dsimp only
  rw [shiftLeague_season, List.map_append]
  rfl

theorem synFold_shift (δ : ℕ) (codes : List String) (ps : List PatchChange)
    (lg : League) :
    codes.foldl synShiftStep (ps.map (shiftPatch δ), shiftLeague δ lg) =
      ((codes.foldl synShiftStep (ps, lg)).1.map (shiftPatch δ),
        shiftLeague δ (codes.foldl synShiftStep (ps, lg)).2) := by
  have key := foldl_comm (fun (a : List PatchChange × League) =>
      (a.1.map (shiftPatch δ), shiftLeague δ a.2)) synShiftStep synShiftStep
    (fun b a => (synShiftStep_shift δ b a).symm) codes (ps, lg)
  dsimp only at key
  exact key.symm

theorem patchFold_shift (δ : ℕ) (b : Bool) (ids : List ℕ) (ps : List PatchChange)
    (lg : League) :
    (ids.map (· + δ)).foldl
      (fun (acc : List PatchChange × League) cid =>
        (acc.1 ++ [(acc.2.patchOneCard cid b).1], (acc.2.patchOneCard cid b).2))
      (ps.map (shiftPatch δ), shiftLeague δ lg) =
      ((ids.foldl (fun (acc : List PatchChange × League) cid =>
          (acc.1 ++ [(acc.2.patchOneCard cid b).1], (acc.2.patchOneCard cid b).2))
          (ps, lg)).1.map (shiftPatch δ),
        shiftLeague δ (ids.foldl (fun (acc : List PatchChange × League) cid =>
          (acc.1 ++ [(acc.2.patchOneCard cid b).1], (acc.2.patchOneCard cid b).2))
          (ps, lg)).2) := by
  have key := foldl_map_comm (fun (a : List PatchChange × League) =>
      (a.1.map (shiftPatch δ), shiftLeague δ a.2)) (· + δ)
    (fun (acc : List PatchChange × League) cid =>
      (acc.1 ++ [(acc.2.patchOneCard cid b).1], (acc.2.patchOneCard cid b).2))
    (fun (acc : List PatchChange × League) cid =>
      (acc.1 ++ [(acc.2.patchOneCard cid b).1], (acc.2.patchOneCard cid b).2))
    (fun p a => by
      dsimp only
      rw [patchOneCard_shift]
      dsimp only
      rw [List.map_append]
      rfl)
    ids (ps, lg)
  dsimp only at key
  exact key.symm

theorem sortedIds_shift (δ : ℕ) (cards : List Card) (le le' : Card → Card → Bool)
    (hle : ∀ a b, le' (shiftCard δ a) (shiftCard δ b) = le a b) (n : ℕ) :
    ((stableSort le' (cards.map (shiftCard δ))).take n).map (·.id) =
      (((stableSort le cards).take n).map (·.id)).map (· + δ) := by
  rw [stableSort_map (shiftCard δ) le le' hle]
  rw [← List.map_take, List.map_map, List.map_map]
  rfl

theorem generate_patch_notes_shift (δ : ℕ) (l : League) :
    (shiftLeague δ l).generate_patch_notes =
      (((l.generate_patch_notes).1.1.map (shiftPatch δ),
        (l.generate_patch_notes).1.2.map (shiftPatch δ)),
        shiftLeague δ (l.generate_patch_notes).2) := by
  unfold League.generate_patch_notes
  dsimp only
  rw [shiftLeague_cards, shiftLeague_season, List.length_map]
  rw [sortedIds_shift δ l.cards
    (fun a b => lexLeQQ (a.pick_rate_pct l.season, a.usage_pct)
      (b.pick_rate_pct l.season, b.usage_pct)) _ (fun a b => rfl)]
  rw [sortedIds_shift δ l.cards
    (fun a b => lexLeQQ (b.pick_rate_pct l.season, b.usage_pct)
      (a.pick_rate_pct l.season, a.usage_pct)) _ (fun a b => rfl)]
  rw [show (([] : List PatchChange), shiftLeague δ l) =
    (([] : List PatchChange).map (shiftPatch δ), shiftLeague δ l) from rfl]
  rw [patchFold_shift]
  dsimp only
  rw [show ∀ (x : League), (([] : List PatchChange), shiftLeague δ x) =
    (([] : List PatchChange).map (shiftPatch δ), shiftLeague δ x) from fun x => rfl]
  rw [patchFold_shift]
  dsimp only
  rw [shiftLeague_synergies, withRng_shift]
  dsimp only
  rw [withRng_shift]
  dsimp only
  rw [show ∀ (x : League), (([] : List PatchChange), shiftLeague δ x) =
    (([] : List PatchChange).map (shiftPatch δ), shiftLeague δ x) from fun x => rfl]
  rw [synFold_shift]
  dsimp only
  rw [← List.map_append]

theorem shiftTeam_name (δ : ℕ) (t : Team) : (shiftTeam δ t).name = t.name := rfl

theorem shiftTeam_gm_style (δ : ℕ) (t : Team) :
    (shiftTeam δ t).gm_style = t.gm_style := rfl

theorem shiftTeam_wins (δ : ℕ) (t : Team) : (shiftTeam δ t).wins = t.wins := rfl

theorem shiftTeam_losses (δ : ℕ) (t : Team) : (shiftTeam δ t).losses = t.losses := rfl

theorem shiftTeam_crowns_for (δ : ℕ) (t : Team) :
    (shiftTeam δ t).crowns_for = t.crowns_for := rfl

theorem shiftTeam_crowns_against (δ : ℕ) (t : Team) :
    (shiftTeam δ t).crowns_against = t.crowns_against := rfl

theorem shiftTeam_boost (δ : ℕ) (t : Team) :
    (shiftTeam δ t).rivalry_boost_games_left = t.rivalry_boost_games_left := rfl

theorem shiftTeam_rivals (δ : ℕ) (t : Team) : (shiftTeam δ t).rivals = t.rivals := rfl

theorem shiftTeam_rings (δ : ℕ) (t : Team) : (shiftTeam δ t).rings = t.rings := rfl

theorem shiftTeam_roster (δ : ℕ) (t : Team) :
    (shiftTeam δ t).roster = t.roster.map (· + δ) := rfl

theorem shiftTeam_starters (δ : ℕ) (t : Team) :
    (shiftTeam δ t).starters = t.starters.map (· + δ) := rfl

theorem shiftTeam_backup (δ : ℕ) (t : Team) :
    (shiftTeam δ t).backup = t.backup.map (· + δ) := rfl

theorem shiftCard_id (δ : ℕ) (c : Card) : (shiftCard δ c).id = c.id + δ := rfl

theorem shiftCard_ovr (δ : ℕ) (c : Card) : (shiftCard δ c).ovr = c.ovr := rfl

theorem shiftCard_sl (δ : ℕ) (c : Card) :
    (shiftCard δ c).seasons_left = c.seasons_left := rfl

theorem shiftCard_name (δ : ℕ) (c : Card) : (shiftCard δ c).name = c.name := rfl

theorem shiftCard_crowns_total (δ : ℕ) (c : Card) :
    (shiftCard δ c).crowns_total = c.crowns_total := rfl

theorem foldl_congr_fun (f g : β → α → β) (h : ∀ b a, f b a = g b a) :
    ∀ (xs : List α) (b : β), xs.foldl f b = xs.foldl g b := by
  intro xs
  induction xs with
  | nil => intro b; rfl
  | cons x xs ih =>
    intro b
    simp only [List.foldl_cons, h]
    exact ih _

theorem filter_map_shift (p p' : Card → Bool) (δ : ℕ) (cards : List Card)
    (hp : ∀ c, p' (shiftCard δ c) = p c) :
    (cards.map (shiftCard δ)).filter p' = (cards.filter p).map (shiftCard δ) := by
  induction cards with
  | nil => rfl
  | cons c cs ih =>
    simp only [List.map_cons, List.filter_cons, hp]
    by_cases h : p c
    · rw [if_pos h, if_pos h, List.map_cons, ih]
    · rw [if_neg h, if_neg h, ih]

theorem draftBoard_shift (δ : ℕ) (cards : List Card) :
    draftBoard (cards.map (shiftCard δ)) = (draftBoard cards).map (shiftCard δ) := by
  unfold draftBoard
  exact filter_map_shift _ _ δ cards (fun c => rfl)

theorem esm_shift (δ : ℕ) (l : League) (starters : List Card) :
    (shiftLeague δ l).effective_synergy_multiplier (starters.map (shiftCard δ)) =
      l.effective_synergy_multiplier starters := by
  unfold League.effective_synergy_multiplier
  rw [shiftLeague_synergies]
  congr 1
  apply foldl_congr_fun
  intro m s
  rw [active_map_shift]

theorem shiftLeague_history_isEmpty (δ : ℕ) (l : League) :
    (shiftLeague δ l).history.isEmpty = l.history.isEmpty := by
  cases hl : l.history
  · rw [show (shiftLeague δ l).history = l.history.map (shiftHistory δ) from rfl, hl]
    rfl
  · rw [show (shiftLeague δ l).history = l.history.map (shiftHistory δ) from rfl, hl]
    rfl

theorem draft_lottery_order_shift (δ : ℕ) (l : League) :
    (shiftLeague δ l).draft_lottery_order =
      ((l.draft_lottery_order).1, shiftLeague δ (l.draft_lottery_order).2) := by
  unfold League.draft_lottery_order
  dsimp only
  rw [shiftLeague_names, withRng_shift]
  rw [shiftLeague_history_isEmpty]
  split
  · rfl
  · simp only [shiftLeague_teams, lookupTeam_map_shift, shiftTeam_wins, shiftTeam_losses]

theorem genRookie_shift (δ : ℕ) (l : League) :
    (shiftLeague δ l).genRookie =
      (shiftCard δ (l.genRookie).1, shiftLeague δ (l.genRookie).2) := by
  unfold League.genRookie
  rw [next_card_id_shift]
  dsimp only
  rw [generate_card_name_shift]
  dsimp only
  simp only [withRng_shift]
  unfold shiftLeague
  dsimp only
  rw [List.map_append]
  rfl

theorem generate_rookies_shift (δ : ℕ) (l : League) (count : ℕ) :
    (shiftLeague δ l).generate_rookies count =
      (((l.generate_rookies count).1).map (shiftCard δ),
        shiftLeague δ (l.generate_rookies count).2) := by
  unfold League.generate_rookies
  have key := foldl_comm
    (fun (a : List Card × League) => (a.1.map (shiftCard δ), shiftLeague δ a.2))
    (fun (acc : List Card × League) (_ : ℕ) =>
      (acc.1 ++ [(acc.2.genRookie).1], (acc.2.genRookie).2))
    (fun (acc : List Card × League) (_ : ℕ) =>
      (acc.1 ++ [(acc.2.genRookie).1], (acc.2.genRookie).2))
    (fun b a => by
      dsimp only
      rw [genRookie_shift]
      simp only [List.map_append, List.map_cons, List.map_nil])
    (List.range count) ([], l)
  dsimp only at key
  exact key.symm

theorem draft_combine_view_shift (δ : ℕ) (l : League) (cs : List Card) :
    (shiftLeague δ l).draft_combine_view (cs.map (shiftCard δ)) =
      (((l.draft_combine_view cs).1).map (fun p => (p.1 + δ, p.2)),
        shiftLeague δ (l.draft_combine_view cs).2) := by
  unfold League.draft_combine_view
  have key := foldl_map_comm
    (fun (a : List (ℕ × String) × League) =>
      (a.1.map (fun p => (p.1 + δ, p.2)), shiftLeague δ a.2))
    (shiftCard δ)
    (fun (acc : List (ℕ × String) × League) c =>
      (acc.1 ++ [(c.id, (acc.2.withRng
          (fun r => r.choice ["low", "medium", "high"] "")).1)],
        (acc.2.withRng (fun r => r.choice ["low", "medium", "high"] "")).2))
    (fun (acc : List (ℕ × String) × League) c =>
      (acc.1 ++ [(c.id, (acc.2.withRng
          (fun r => r.choice ["low", "medium", "high"] "")).1)],
        (acc.2.withRng (fun r => r.choice ["low", "medium", "high"] "")).2))
    (fun b a => by
      dsimp only
      simp only [withRng_shift, shiftCard_id, List.map_append, List.map_cons,
        List.map_nil])
    cs ([], l)
  dsimp only at key
  exact key.symm

theorem isEmpty_map (h : α → β) (xs : List α) : (xs.map h).isEmpty = xs.isEmpty := by
  cases xs <;> rfl

theorem pickFit_shift (δ : ℕ) (l : League) (cs : List Card) (c : Card) :
    pickFit (shiftLeague δ l) (cs.map (shiftCard δ)) (shiftCard δ c) = pickFit l cs c := by
  unfold pickFit
  rw [show cs.map (shiftCard δ) ++ [shiftCard δ c] = (cs ++ [c]).map (shiftCard δ) by
    simp]
  rw [← List.map_take, esm_shift]

theorem pickValue_shift (δ : ℕ) (rnd : ℕ) (c : Card) :
    pickValue rnd (shiftCard δ c) = pickValue rnd c := rfl

theorem scoredStep_shift (δ : ℕ) (gm : String) (fit fit' value value' : Card → ℚ)
    (hfit : ∀ c, fit' (shiftCard δ c) = fit c)
    (hvalue : ∀ c, value' (shiftCard δ c) = value c)
    (acc : List (Card × ℚ) × League) (c : Card) :
    scoredStep gm fit' value'
        (acc.1.map (fun p => (shiftCard δ p.1, p.2)), shiftLeague δ acc.2)
        (shiftCard δ c) =
      ((scoredStep gm fit value acc c).1.map (fun p => (shiftCard δ p.1, p.2)),
        shiftLeague δ (scoredStep gm fit value acc c).2) := by
  unfold scoredStep
  dsimp only
  split_ifs <;>
    simp only [withRng_shift, hfit, hvalue, shiftCard_ovr, List.map_append,
      List.map_cons, List.map_nil]

theorem scoredFold_shift (δ : ℕ) (l : League) (gm : String) (cur : List Card)
    (rnd : ℕ) (cands : List Card) :
    (shiftLeague δ l).scoredFold gm
        (pickFit (shiftLeague δ l) (cur.map (shiftCard δ))) (pickValue rnd)
        (cands.map (shiftCard δ)) =
      ((l.scoredFold gm (pickFit l cur) (pickValue rnd) cands).1.map
          (fun p => (shiftCard δ p.1, p.2)),
        shiftLeague δ (l.scoredFold gm (pickFit l cur) (pickValue rnd) cands).2) := by
  unfold League.scoredFold
  have key := foldl_map_comm
    (fun (a : List (Card × ℚ) × League) =>
      (a.1.map (fun p => (shiftCard δ p.1, p.2)), shiftLeague δ a.2))
    (shiftCard δ)
    (scoredStep gm (pickFit l cur) (pickValue rnd))
    (scoredStep gm (pickFit (shiftLeague δ l) (cur.map (shiftCard δ))) (pickValue rnd))
    (fun b a => (scoredStep_shift δ gm (pickFit l cur)
      (pickFit (shiftLeague δ l) (cur.map (shiftCard δ))) (pickValue rnd) (pickValue rnd)
      (fun c => pickFit_shift δ l cur c) (fun c => pickValue_shift δ rnd c) b a).symm)
    cands ([], l)
  dsimp only at key
  exact key.symm

theorem pickCands_shift (δ : ℕ) (board : List Card) (taken : List ℕ) :
    (board.map (shiftCard δ)).filter
        (fun c => ¬ (taken.map (· + δ)).contains c.id ∧ 0 < c.seasons_left) =
      (board.filter (fun c => ¬ taken.contains c.id ∧ 0 < c.seasons_left)).map
        (shiftCard δ) := by
  apply filter_map_shift
  intro c
  simp only [shiftCard_id, shiftCard_sl, contains_map_add]

theorem choose_best_pick_shift (δ : ℕ) (l : League) (tn : String) (board : List Card)
    (taken : List ℕ) (rnd : ℕ) :
    (shiftLeague δ l).choose_best_pick tn (board.map (shiftCard δ))
        (taken.map (· + δ)) rnd =
      (((l.choose_best_pick tn board taken rnd).1).map (shiftCard δ),
        shiftLeague δ (l.choose_best_pick tn board taken rnd).2) := by
  unfold League.choose_best_pick
  dsimp only
  rw [pickCands_shift, isEmpty_map]
  by_cases hemp :
      (board.filter (fun c => ¬ taken.contains c.id ∧ 0 < c.seasons_left)).isEmpty = true
  · simp only [hemp, reduceIte]
    rfl
  · rw [if_neg hemp, if_neg hemp]
    simp only [shiftLeague_teams, lookupTeam_map_shift, shiftTeam_gm_style,
      shiftTeam_starters, shiftLeague_cards]
    have hcur : ((lookupTeam l.teams tn).starters.map (· + δ)).map
          (lookupCard (l.cards.map (shiftCard δ))) =
        ((lookupTeam l.teams tn).starters.map (lookupCard l.cards)).map (shiftCard δ) := by
      rw [List.map_map, List.map_map]
      apply List.map_congr_left
      intro cid _
      simp only [Function.comp_apply]
      exact lookupCard_map_shift δ l.cards cid
    rw [hcur]
    rw [scoredFold_shift δ l ((lookupTeam l.teams tn).gm_style)
      ((lookupTeam l.teams tn).starters.map (lookupCard l.cards)) rnd
      (board.filter (fun c => ¬ taken.contains c.id ∧ 0 < c.seasons_left))]
    dsimp only
    rw [pyMaxBy_map]
    dsimp only
    rcases hm : pyMaxBy (fun p => p.2)
        (l.scoredFold ((lookupTeam l.teams tn).gm_style)
          (pickFit l ((lookupTeam l.teams tn).starters.map (lookupCard l.cards)))
          (pickValue rnd)
          (board.filter (fun c => ¬ taken.contains c.id ∧ 0 < c.seasons_left))).1
      with _ | p <;> rw [hm] <;> rfl

theorem mapLookup_shift (δ : ℕ) (cards : List Card) (ids : List ℕ) :
    (ids.map (· + δ)).map (lookupCard (cards.map (shiftCard δ))) =
      (ids.map (lookupCard cards)).map (shiftCard δ) := by
  rw [List.map_map, List.map_map]
  apply List.map_congr_left
  intro cid _
  simp only [Function.comp_apply]
  exact lookupCard_map_shift δ cards cid

theorem draftStep_shift (δ : ℕ) (board : List Card) (acc : League × List ℕ)
    (turn : ℕ × String) :
    draftStep (board.map (shiftCard δ)) (shiftLeague δ acc.1, acc.2.map (· + δ)) turn =
      (shiftLeague δ (draftStep board acc turn).1,
        (draftStep board acc turn).2.map (· + δ)) := by
  unfold draftStep
  dsimp only
  rw [choose_best_pick_shift]
  rcases hp : (acc.1.choose_best_pick turn.2 board acc.2 turn.1).1 with _ | c
  · rfl
  · simp only [Option.map_some']
    rw [show (shiftLeague δ (acc.1.choose_best_pick turn.2 board acc.2 turn.1).2).teams =
      ((acc.1.choose_best_pick turn.2 board acc.2 turn.1).2).teams.map (shiftTeam δ)
      from rfl]
    rw [updateTeam_map_shift δ _ turn.2
      (fun t => { t with roster := t.roster ++ [c.id] })
      (fun t => { t with roster := t.roster ++ [(shiftCard δ c).id] })
      (fun t => by
        unfold shiftTeam
        dsimp only
        rw [List.map_append]
        rfl)]
    simp [shiftLeague, shiftCard, List.map_append]

theorem draftLoop_shift (δ : ℕ) (l : League) (board : List Card)
    (turns : List (ℕ × String)) :
    (shiftLeague δ l).draftLoop (board.map (shiftCard δ)) turns =
      (shiftLeague δ (l.draftLoop board turns).1,
        (l.draftLoop board turns).2.map (· + δ)) := by
  unfold League.draftLoop
  exact (foldl_comm
    (fun (a : League × List ℕ) => (shiftLeague δ a.1, a.2.map (· + δ)))
    (draftStep board) (draftStep (board.map (shiftCard δ)))
    (fun b a => (draftStep_shift δ board b a).symm) turns (l, [])).symm

theorem resetTeam_shift (δ : ℕ) (t : Team) :
    resetTeamForSeason (shiftTeam δ t) = shiftTeam δ (resetTeamForSeason t) := rfl

theorem resetTeams_shift (δ : ℕ) (l : League) :
    (shiftLeague δ l).teams.map resetTeamForSeason =
      (l.teams.map resetTeamForSeason).map (shiftTeam δ) := by
  rw [shiftLeague_teams, List.map_map, List.map_map]
  apply List.map_congr_left
  intro t _
  simp only [Function.comp_apply]
  exact resetTeam_shift δ t

theorem shiftLeague_setTeams (δ : ℕ) (l : League) (ts : List Team) :
    ({ shiftLeague δ l with teams := ts.map (shiftTeam δ) } : League) =
      shiftLeague δ { l with teams := ts } := rfl

theorem rosterTagStep_shift (δ : ℕ) (name : String) (s2 : League) (cid : ℕ) :
    rosterTagStep name (shiftLeague δ s2) (cid + δ) =
      shiftLeague δ (rosterTagStep name s2 cid) := by
  unfold rosterTagStep
  dsimp only
  rw [shiftLeague_cards]
  rw [updateCard_map_shift δ s2.cards cid
    (fun c => { c with
      pick_seasons := c.pick_seasons + 1,
      teams_history := c.teams_history ++ [name] })
    (fun c => { c with
      pick_seasons := c.pick_seasons + 1,
      teams_history := c.teams_history ++ [name] })
    (fun c => rfl)]
  rfl

theorem getD_map_lt (h : α → β) :
    ∀ (xs : List α) (i : ℕ) (d : β) (d' : α), i < xs.length →
      (xs.map h).getD i d = h (xs.getD i d') := by
  intro xs
  induction xs with
  | nil => intro i d d' hi; simp at hi
  | cons x xs ih =>
    intro i d d' hi
    cases i with
    | zero => rfl
    | succ n => exact ih n d d' (by simpa using hi)

theorem map_id_shift (δ : ℕ) (cs : List Card) :
    (cs.map (shiftCard δ)).map (fun c => c.id) = (cs.map (fun c => c.id)).map (· + δ) := by
  rw [List.map_map, List.map_map]
  apply List.map_congr_left
  intro c _
  rfl

theorem starterStep_shift (δ : ℕ) (st : League) (name : String) :
    starterStep (shiftLeague δ st) name = shiftLeague δ (starterStep st name) := by
  unfold starterStep
  dsimp only
  simp only [shiftLeague_teams, lookupTeam_map_shift, shiftTeam_roster, shiftLeague_cards]
  rw [mapLookup_shift]
  rw [stableSort_map (shiftCard δ) (fun (a b : Card) => decide (b.ovr ≤ a.ovr))
    (fun (a b : Card) => decide (b.ovr ≤ a.ovr)) (fun a b => rfl)]
  set picked := stableSort (fun (a b : Card) => decide (b.ovr ≤ a.ovr))
    ((lookupTeam st.teams name).roster.map (lookupCard st.cards)) with hpk
  rw [← List.map_take, map_id_shift]
  have hB : (if STARTERS < (picked.map (shiftCard δ)).length then
        some (((picked.map (shiftCard δ)).getD STARTERS defaultCard).id) else none) =
      (if STARTERS < picked.length then
        some ((picked.getD STARTERS defaultCard).id) else none).map (· + δ) := by
    rw [List.length_map]
    by_cases hlen : STARTERS < picked.length
    · rw [if_pos hlen, if_pos hlen,
        getD_map_lt (shiftCard δ) picked STARTERS defaultCard defaultCard hlen]
      rfl
    · rw [if_neg hlen, if_neg hlen]
      rfl
  rw [hB]
  rw [updateTeam_map_shift δ st.teams name
    (fun u => { u with
      starters := (picked.take STARTERS).map (fun c => c.id),
      backup := if STARTERS < picked.length then
        some ((picked.getD STARTERS defaultCard).id) else none })
    (fun u => { u with
      starters := ((picked.take STARTERS).map (fun c => c.id)).map (· + δ),
      backup := (if STARTERS < picked.length then
        some ((picked.getD STARTERS defaultCard).id) else none).map (· + δ) })
    (fun u => rfl)]
  have key := foldl_map_comm (shiftLeague δ) (· + δ) (rosterTagStep name)
    (rosterTagStep name) (fun b a => (rosterTagStep_shift δ name b a).symm)
    (lookupTeam st.teams name).roster
    { st with
      teams := updateTeam st.teams name (fun u => { u with
        starters := (picked.take STARTERS).map (fun c => c.id),
        backup := if STARTERS < picked.length then
          some ((picked.getD STARTERS defaultCard).id) else none }) }
  exact key.symm

theorem assignStarters_shift (δ : ℕ) (l : League) :
    (shiftLeague δ l).assignStarters = shiftLeague δ l.assignStarters := by
  unfold League.assignStarters
  rw [show (shiftLeague δ l).teams.map (fun t => t.name) = l.teams.map (fun t => t.name) by
    rw [shiftLeague_teams, List.map_map]
    apply List.map_congr_left
    intro t _
    rfl]
  exact (foldl_comm (shiftLeague δ) starterStep starterStep
    (fun b a => (starterStep_shift δ b a).symm) (l.teams.map (fun t => t.name)) l).symm

theorem map_ovr_shift (δ : ℕ) (cs : List Card) :
    (cs.map (shiftCard δ)).map (fun c => ((c.ovr : ℚ))) =
      cs.map (fun c => ((c.ovr : ℚ))) := by
  rw [List.map_map]
  apply List.map_congr_left
  intro c _
  rfl

theorem compute_draft_grades_shift (δ : ℕ) (l : League) (order : List String) :
    (shiftLeague δ l).compute_draft_grades order = l.compute_draft_grades order := by
  unfold League.compute_draft_grades
  apply List.map_congr_left
  intro tm _
  dsimp only
  simp only [shiftLeague_teams, lookupTeam_map_shift, shiftTeam_roster,
    shiftTeam_starters, shiftLeague_cards, mapLookup_shift, isEmpty_map,
    map_ovr_shift, esm_shift]

theorem run_draft_shift (δ : ℕ) (l : League) :
    (shiftLeague δ l).run_draft = ((l.run_draft).1, shiftLeague δ (l.run_draft).2) := by
  unfold League.run_draft
  dsimp only
  rw [resetTeams_shift, shiftLeague_setTeams, draft_lottery_order_shift]
  dsimp only
  rw [generate_rookies_shift]
  dsimp only
  rw [shiftLeague_cards, draftBoard_shift, ← List.map_append, draft_combine_view_shift]
  dsimp only
  rw [draftLoop_shift]
  dsimp only
  rw [assignStarters_shift, compute_draft_grades_shift]

theorem choicesIdx_lt (r : RS) (ws : List ℤ) (hw : ws ≠ []) :
    (r.choicesIdx ws).1 < ws.length := by
  unfold RS.choicesIdx
  dsimp only
  have : 0 < ws.length := List.length_pos.mpr hw
  omega

theorem crownWeights_shift (δ : ℕ) (pool : List Card) :
    crownWeights (pool.map (shiftCard δ)) = crownWeights pool := by
  unfold crownWeights
  rw [List.map_map]
  apply List.map_congr_left
  intro c _
  rfl

theorem crownWeights_len (pool : List Card) :
    (crownWeights pool).length = pool.length := by
  unfold crownWeights
  rw [List.length_map]

theorem crownWeights_ne (pool : List Card) (hpool : pool ≠ []) :
    crownWeights pool ≠ [] := by
  intro h
  apply hpool
  have h2 := congrArg List.length h
  rw [crownWeights_len] at h2
  exact List.length_eq_zero.mp h2

theorem alUpd_shiftInner (δ : ℕ) (inner : List (ℕ × ℕ)) (k : ℕ) (f : ℕ → ℕ) :
    alUpd (shiftInner δ inner) (k + δ) 0 f = shiftInner δ (alUpd inner k 0 f) := by
  unfold shiftInner
  exact alUpd_mapKV (fun v => v) (fun a b h => by omega) inner k 0 f f (fun b => rfl)

theorem alGetD_shiftInner (δ : ℕ) (inner : List (ℕ × ℕ)) (k : ℕ) :
    alGetD (shiftInner δ inner) (k + δ) 0 = alGetD inner k 0 := by
  unfold shiftInner
  exact alGetD_mapKV (fun v => v) (fun a b h => by omega) inner k 0

theorem alMem_shiftInner (δ : ℕ) (inner : List (ℕ × ℕ)) (k : ℕ) :
    alMem (shiftInner δ inner) (k + δ) = alMem inner k := by
  unfold shiftInner
  exact alMem_mapKV (fun v => v) (fun a b h => by omega) inner k

theorem alUpd_shiftDetails (δ : ℕ) (dets : List (String × List (ℕ × ℕ)))
    (k : String) (f f' : List (ℕ × ℕ) → List (ℕ × ℕ))
    (hf : ∀ b, f' (shiftInner δ b) = shiftInner δ (f b)) :
    alUpd (shiftDetails δ dets) k [] f' = shiftDetails δ (alUpd dets k [] f) := by
  unfold shiftDetails
  exact alUpd_mapKV (shiftInner δ) (fun a b h => h) dets k [] f f' hf

theorem alGetD_shiftDetails (δ : ℕ) (dets : List (String × List (ℕ × ℕ)))
    (k : String) :
    alGetD (shiftDetails δ dets) k [] = shiftInner δ (alGetD dets k []) := by
  unfold shiftDetails
  exact alGetD_mapKV (shiftInner δ) (fun a b h => h) dets k []

theorem alUpd_shiftPairs {β : Type} (δ : ℕ) (xs : List (ℕ × β)) (k : ℕ)
    (d : β) (f : β → β) :
    alUpd (xs.map (fun p => (p.1 + δ, p.2))) (k + δ) d f =
      (alUpd xs k d f).map (fun p => (p.1 + δ, p.2)) := by
  show alUpd (mapKV (fun x => x + δ) (fun v : β => v) xs) ((fun x : ℕ => x + δ) k) d f =
      mapKV (fun x => x + δ) (fun v : β => v) (alUpd xs k d f)
  exact alUpd_mapKV (fun v => v) (fun a b h => by omega) xs k d f f (fun b => rfl)

theorem shiftLeague_setCards (δ : ℕ) (l : League) (cs : List Card) :
    ({ shiftLeague δ l with cards := cs.map (shiftCard δ) } : League) =
      shiftLeague δ { l with cards := cs } := rfl

theorem team_effective_power_shift (δ : ℕ) (l : League) (starters : List Card) :
    (shiftLeague δ l).team_effective_power (starters.map (shiftCard δ)) =
      l.team_effective_power starters := by
  unfold League.team_effective_power
  rw [map_ovr_shift, esm_shift]

theorem decBoost_shift (δ : ℕ) (l : League) (name : String) :
    (shiftLeague δ l).decBoost name = shiftLeague δ (l.decBoost name) := by
  unfold League.decBoost
  dsimp only
  rw [shiftLeague_teams]
  rw [updateTeam_map_shift δ l.teams name
    (fun t => if 0 < t.rivalry_boost_games_left
      then { t with rivalry_boost_games_left := t.rivalry_boost_games_left - 1 } else t)
    (fun t => if 0 < t.rivalry_boost_games_left
      then { t with rivalry_boost_games_left := t.rivalry_boost_games_left - 1 } else t)
    (fun t => by
      dsimp only
      by_cases h : 0 < t.rivalry_boost_games_left
      · rw [if_pos h, if_pos (show 0 < (shiftTeam δ t).rivalry_boost_games_left from h)]
        rfl
      · rw [if_neg h, if_neg (show ¬ 0 < (shiftTeam δ t).rivalry_boost_games_left from h)])]
  rfl

theorem gameScores_shift (δ : ℕ) (l : League) (home away : String) :
    (shiftLeague δ l).gameScores home away =
      ((l.gameScores home away).1, shiftLeague δ (l.gameScores home away).2) := by
  unfold League.gameScores
  dsimp only
  simp only [shiftLeague_teams, lookupTeam_map_shift, shiftTeam_starters,
    shiftTeam_boost, shiftLeague_cards, mapLookup_shift]
  rw [decBoost_shift, decBoost_shift]
  simp only [team_effective_power_shift, withRng_shift]

theorem crownStep_shift (δ : ℕ) (team_name : String) (pool : List Card)
    (hpool : pool ≠ [])
    (acc : List (String × List (ℕ × ℕ)) × List String × League) (k : ℕ) :
    crownStep team_name (pool.map (shiftCard δ)) (crownWeights (pool.map (shiftCard δ)))
        (shiftDetails δ acc.1, acc.2.1, shiftLeague δ acc.2.2) k =
      (shiftDetails δ (crownStep team_name pool (crownWeights pool) acc k).1,
        (crownStep team_name pool (crownWeights pool) acc k).2.1,
        shiftLeague δ (crownStep team_name pool (crownWeights pool) acc k).2.2) := by
  unfold crownStep
  dsimp only
  rw [crownWeights_shift]
  simp only [withRng_shift]
  have hlt : ((acc.2.2.withRng (fun r => r.choicesIdx (crownWeights pool))).1) <
      pool.length := by
    have h2 := choicesIdx_lt acc.2.2.rng (crownWeights pool) (crownWeights_ne pool hpool)
    rw [crownWeights_len] at h2
    exact h2
  rw [getD_map_lt (shiftCard δ) pool
    ((acc.2.2.withRng (fun r => r.choicesIdx (crownWeights pool))).1)
    defaultCard defaultCard hlt]
  rw [alUpd_shiftDetails δ acc.1 team_name
    (fun inner => alUpd inner
      (pool.getD ((acc.2.2.withRng (fun r => r.choicesIdx (crownWeights pool))).1)
        defaultCard).id 0 (fun k => k + 1))
    (fun inner => alUpd inner
      (shiftCard δ (pool.getD
          ((acc.2.2.withRng (fun r => r.choicesIdx (crownWeights pool))).1)
        defaultCard)).id 0 (fun k => k + 1))
    (fun b => alUpd_shiftInner δ b
      (pool.getD ((acc.2.2.withRng (fun r => r.choicesIdx (crownWeights pool))).1)
        defaultCard).id (fun k => k + 1))]
  simp only [shiftCard_name]

theorem tallyStep_shift (δ : ℕ) (team_name : String) (inner : List (ℕ × ℕ))
    (crowns : ℤ) (st : League) (c : Card) :
    tallyStep team_name (shiftInner δ inner) crowns (shiftLeague δ st) (shiftCard δ c) =
      shiftLeague δ (tallyStep team_name inner crowns st c) := by
  unfold tallyStep
  dsimp only
  simp only [shiftCard_id]
  rw [alGetD_shiftInner, alMem_shiftInner]
  by_cases hmem : alMem inner c.id = true
  · rw [if_pos hmem, if_pos hmem]
    simp only [shiftLeague]
    simp only [League.mk.injEq, true_and, and_true]
    refine ⟨?_, ?_⟩
    · rw [updateTeam_map_shift δ st.teams team_name
        (fun t =>
          { t with
            season_card_contrib := alUpd t.season_card_contrib c.id 0
              (fun v => v + ((alGetD inner c.id 0 : ℕ) : ℚ) / ((max 1 crowns : ℤ) : ℚ)) })
        _
        (fun t => by
          dsimp only
          rw [show (shiftTeam δ t).season_card_contrib =
            t.season_card_contrib.map (fun p => (p.1 + δ, p.2)) from rfl]
          rw [alUpd_shiftPairs]
          rfl)]
      rw [updateTeam_map_shift δ _ team_name
        (fun t =>
          { t with
            season_card_crowns := alUpd t.season_card_crowns c.id 0
              (fun v => v + alGetD inner c.id 0) })
        _
        (fun t => by
          dsimp only
          rw [show (shiftTeam δ t).season_card_crowns =
            t.season_card_crowns.map (fun p => (p.1 + δ, p.2)) from rfl]
          rw [alUpd_shiftPairs]
          rfl)]
    · rw [updateCard_map_shift δ st.cards c.id
        (fun d => { d with games_played := d.games_played + 1 }) _ (fun d => rfl)]
      rw [updateCard_map_shift δ _ c.id
        (fun d =>
          { d with
            crowns_total := d.crowns_total + alGetD inner c.id 0,
            crowns_high := max d.crowns_high (alGetD inner c.id 0),
            usage_games := d.usage_games + 1 }) _ (fun d => rfl)]
  · rw [if_neg hmem, if_neg hmem]
    simp only [shiftLeague]
    simp only [League.mk.injEq, true_and, and_true]
    refine ⟨?_, ?_⟩
    · rw [updateTeam_map_shift δ st.teams team_name
        (fun t =>
          { t with
            season_card_contrib := alUpd t.season_card_contrib c.id 0
              (fun v => v + ((alGetD inner c.id 0 : ℕ) : ℚ) / ((max 1 crowns : ℤ) : ℚ)) })
        _
        (fun t => by
          dsimp only
          rw [show (shiftTeam δ t).season_card_contrib =
            t.season_card_contrib.map (fun p => (p.1 + δ, p.2)) from rfl]
          rw [alUpd_shiftPairs]
          rfl)]
    · rw [updateCard_map_shift δ st.cards c.id
        (fun d => { d with games_played := d.games_played + 1 }) _ (fun d => rfl)]

theorem crownLoopTail_shift (δ : ℕ) (l : League) (team_name : String)
    (pool : List Card) (crowns : ℤ) (details : List (String × List (ℕ × ℕ)))
    (highlights : List String) :
    (shiftLeague δ l).crownLoopTail team_name (pool.map (shiftCard δ)) crowns
        (shiftDetails δ details) highlights =
      (shiftDetails δ
          (l.crownLoopTail team_name pool crowns details highlights).1,
        (l.crownLoopTail team_name pool crowns details highlights).2.1,
        shiftLeague δ
          (l.crownLoopTail team_name pool crowns details highlights).2.2) := by
  unfold League.crownLoopTail
  dsimp only
  rw [isEmpty_map]
  by_cases hpool : pool.isEmpty = true
  · rw [if_pos hpool, if_pos hpool]
    have hnil : pool = [] := by
      cases pool
      · rfl
      · exact absurd hpool (by simp [List.isEmpty])
    subst hnil
    rfl
  · rw [if_neg hpool, if_neg hpool]
    have hne : pool ≠ [] := by
      intro h
      rw [h] at hpool
      exact hpool rfl
    have key := foldl_comm
      (fun (a : List (String × List (ℕ × ℕ)) × List String × League) =>
        (shiftDetails δ a.1, a.2.1, shiftLeague δ a.2.2))
      (crownStep team_name pool (crownWeights pool))
      (crownStep team_name (pool.map (shiftCard δ))
        (crownWeights (pool.map (shiftCard δ))))
      (fun b a => (crownStep_shift δ team_name pool hne b a).symm)
      (List.range crowns.toNat) (details, highlights, l)
    dsimp only at key
    rw [← key]
    dsimp only
    set w := (List.range crowns.toNat).foldl
      (crownStep team_name pool (crownWeights pool)) (details, highlights, l) with hw
    rw [alGetD_shiftDetails]
    have key2 := foldl_map_comm (shiftLeague δ) (shiftCard δ)
      (tallyStep team_name (alGetD w.1 team_name []) crowns)
      (tallyStep team_name (shiftInner δ (alGetD w.1 team_name [])) crowns)
      (fun b a =>
        (tallyStep_shift δ team_name (alGetD w.1 team_name []) crowns b a).symm)
      pool w.2.2
    rw [← key2]

theorem distributeCrowns_shift (δ : ℕ) (l : League) (team_name : String)
    (starters : List Card) (crowns : ℤ) (details : List (String × List (ℕ × ℕ)))
    (highlights : List String) :
    (shiftLeague δ l).distributeCrowns team_name (starters.map (shiftCard δ)) crowns
        (shiftDetails δ details) highlights =
      (shiftDetails δ
          (l.distributeCrowns team_name starters crowns details highlights).1,
        (l.distributeCrowns team_name starters crowns details highlights).2.1,
        shiftLeague δ
          (l.distributeCrowns team_name starters crowns details highlights).2.2) := by
  unfold League.distributeCrowns
  dsimp only
  simp only [shiftLeague_teams, lookupTeam_map_shift, shiftTeam_backup]
  rcases hbk : (lookupTeam l.teams team_name).backup with _ | b
  · simp only [hbk, Option.map_none']
    exact crownLoopTail_shift δ l team_name starters crowns details highlights
  · simp only [hbk, Option.map_some']
    simp only [withRng_shift]
    by_cases hu : ((l.withRng RS.random01).1 < 1/4)
    · rw [if_pos hu, if_pos hu]
      dsimp only
      rw [show (shiftLeague δ (l.withRng RS.random01).2).cards =
        ((l.withRng RS.random01).2).cards.map (shiftCard δ) from rfl]
      rw [lookupCard_map_shift]
      rw [show (starters.map (shiftCard δ)).take 2 ++
          [shiftCard δ (lookupCard ((l.withRng RS.random01).2).cards b)] =
        (starters.take 2 ++ [lookupCard ((l.withRng RS.random01).2).cards b]).map
          (shiftCard δ) by
        rw [List.map_append, ← List.map_take]
        rfl]
      exact crownLoopTail_shift δ _ team_name _ crowns details highlights
    · rw [if_neg hu, if_neg hu]
      exact crownLoopTail_shift δ _ team_name _ crowns details highlights

theorem wpStep_shift (δ : ℕ) (acc : ℚ × List (ℕ × ℚ) × League) (i : ℕ) :
    wpStep (acc.1, acc.2.1, shiftLeague δ acc.2.2) i =
      ((wpStep acc i).1, (wpStep acc i).2.1, shiftLeague δ (wpStep acc i).2.2) := by
  unfold wpStep
  dsimp only
  simp only [withRng_shift]

theorem winProbSeries_shift (δ : ℕ) (l : League) (hc ac : ℤ) :
    (shiftLeague δ l).winProbSeries hc ac =
      ((l.winProbSeries hc ac).1, shiftLeague δ (l.winProbSeries hc ac).2) := by
  unfold League.winProbSeries
  dsimp only
  have key := foldl_comm
    (fun (a : ℚ × List (ℕ × ℚ) × League) => (a.1, a.2.1, shiftLeague δ a.2.2))
    wpStep wpStep (fun b a => (wpStep_shift δ b a).symm) (List.range 18)
    (1/2 + ((hc - ac : ℤ) : ℚ) * (1/10), [], l)
  dsimp only at key
  rw [← key]

theorem updateGameRecords_shift (δ : ℕ) (l : League) (home away : String)
    (hc ac : ℤ) :
    (shiftLeague δ l).updateGameRecords home away hc ac =
      shiftLeague δ (l.updateGameRecords home away hc ac) := by
  unfold League.updateGameRecords
  dsimp only
  by_cases hwin : ac < hc
  · rw [if_pos hwin, if_pos hwin]
    simp only [shiftLeague]
    simp only [League.mk.injEq, true_and, and_true]
    rw [updateTeam_map_shift δ l.teams home
      (fun t => { t with wins := t.wins + 1 }) _ (fun t => rfl)]
    rw [updateTeam_map_shift δ _ away
      (fun t => { t with losses := t.losses + 1 }) _ (fun t => rfl)]
    rw [updateTeam_map_shift δ _ home
      (fun t =>
        { t with
          crowns_for := t.crowns_for + hc.toNat,
          crowns_against := t.crowns_against + ac.toNat }) _ (fun t => rfl)]
    rw [updateTeam_map_shift δ _ away
      (fun t =>
        { t with
          crowns_for := t.crowns_for + ac.toNat,
          crowns_against := t.crowns_against + hc.toNat }) _ (fun t => rfl)]
  · rw [if_neg hwin, if_neg hwin]
    simp only [shiftLeague]
    simp only [League.mk.injEq, true_and, and_true]
    rw [updateTeam_map_shift δ l.teams away
      (fun t => { t with wins := t.wins + 1 }) _ (fun t => rfl)]
    rw [updateTeam_map_shift δ _ home
      (fun t => { t with losses := t.losses + 1 }) _ (fun t => rfl)]
    rw [updateTeam_map_shift δ _ home
      (fun t =>
        { t with
          crowns_for := t.crowns_for + hc.toNat,
          crowns_against := t.crowns_against + ac.toNat }) _ (fun t => rfl)]
    rw [updateTeam_map_shift δ _ away
      (fun t =>
        { t with
          crowns_for := t.crowns_for + ac.toNat,
          crowns_against := t.crowns_against + hc.toNat }) _ (fun t => rfl)]

theorem updateRivalryState_shift (δ : ℕ) (l : League) (home away : String)
    (hc ac : ℤ) :
    (shiftLeague δ l).updateRivalryState home away hc ac =
      ((l.updateRivalryState home away hc ac).1,
        shiftLeague δ (l.updateRivalryState home away hc ac).2) := by
  unfold League.updateRivalryState
  dsimp only
  simp only [shiftLeague_teams, lookupTeam_map_shift, shiftTeam_rivals]
  by_cases hriv : alMem (lookupTeam l.teams home).rivals away = true
  · rw [if_pos hriv, if_pos hriv]
    dsimp only
    simp only [Prod.mk.injEq]
    refine ⟨trivial, ?_⟩
    by_cases hwin : ac < hc
    · rw [if_pos hwin, if_pos hwin]
      simp only [shiftLeague]
      simp only [League.mk.injEq, true_and, and_true]
      rw [updateTeam_map_shift δ l.teams home
        (fun t => { t with rivals := alUpd t.rivals away 0 (fun v => v + RIVALRY_GAIN) })
        _ (fun t => rfl)]
      rw [updateTeam_map_shift δ _ away
        (fun t => { t with rivals := alUpd t.rivals home 0 (fun v => v + RIVALRY_GAIN) })
        _ (fun t => rfl)]
      rw [updateTeam_map_shift δ _ home
        (fun t => { t with rivalry_boost_games_left := RIVALRY_WIN_BUFF_GAMES })
        _ (fun t => rfl)]
    · rw [if_neg hwin, if_neg hwin]
      simp only [shiftLeague]
      simp only [League.mk.injEq, true_and, and_true]
      rw [updateTeam_map_shift δ l.teams home
        (fun t => { t with rivals := alUpd t.rivals away 0 (fun v => v + RIVALRY_GAIN) })
        _ (fun t => rfl)]
      rw [updateTeam_map_shift δ _ away
        (fun t => { t with rivals := alUpd t.rivals home 0 (fun v => v + RIVALRY_GAIN) })
        _ (fun t => rfl)]
      rw [updateTeam_map_shift δ _ away
        (fun t => { t with rivalry_boost_games_left := RIVALRY_WIN_BUFF_GAMES })
        _ (fun t => rfl)]
  · rw [if_neg hriv, if_neg hriv]

theorem simulate_game_shift (δ : ℕ) (l : League) (home away : String) (week : ℕ) :
    (shiftLeague δ l).simulate_game home away week =
      (shiftGame δ (l.simulate_game home away week).1,
        shiftLeague δ (l.simulate_game home away week).2) := by
  unfold League.simulate_game
  dsimp only
  simp only [shiftLeague_teams, lookupTeam_map_shift, shiftTeam_starters,
    shiftLeague_cards, mapLookup_shift]
  rw [gameScores_shift]
  dsimp only
  rw [show ([(home, ([] : List (ℕ × ℕ))), (away, [])] :
      List (String × List (ℕ × ℕ))) =
    shiftDetails δ [(home, []), (away, [])] from rfl]
  rw [distributeCrowns_shift]
  dsimp only
  rw [distributeCrowns_shift]
  dsimp only
  rw [updateGameRecords_shift, updateRivalryState_shift]
  dsimp only
  rw [winProbSeries_shift]
  rfl

theorem shiftGame_home (δ : ℕ) (g : GameResult) : (shiftGame δ g).home = g.home := rfl

theorem shiftGame_home_crowns (δ : ℕ) (g : GameResult) :
    (shiftGame δ g).home_crowns = g.home_crowns := rfl

theorem shiftGame_away_crowns (δ : ℕ) (g : GameResult) :
    (shiftGame δ g).away_crowns = g.away_crowns := rfl

theorem seed_playoffs_shift (δ : ℕ) (l : League) :
    (shiftLeague δ l).seed_playoffs = l.seed_playoffs := by
  unfold League.seed_playoffs
  dsimp only
  rw [shiftLeague_teams]
  rw [stableSort_map (shiftTeam δ)
    (fun a b => lexLeZZ ((b.wins : ℤ), (b.crowns_for : ℤ) - (b.crowns_against : ℤ))
      ((a.wins : ℤ), (a.crowns_for : ℤ) - (a.crowns_against : ℤ)))
    (fun a b => lexLeZZ ((b.wins : ℤ), (b.crowns_for : ℤ) - (b.crowns_against : ℤ))
      ((a.wins : ℤ), (a.crowns_for : ℤ) - (a.crowns_against : ℤ)))
    (fun a b => rfl)]
  rw [← List.map_take]
  set top16 := (stableSort (fun a b =>
    lexLeZZ ((b.wins : ℤ), (b.crowns_for : ℤ) - (b.crowns_against : ℤ))
      ((a.wins : ℤ), (a.crowns_for : ℤ) - (a.crowns_against : ℤ))) l.teams).take 16 with htop
  apply List.map_congr_left
  intro i _
  dsimp only
  rw [List.length_map]
  have h2 : (top16.map (shiftTeam δ)).getD i defaultTeam =
      shiftTeam δ (top16.getD i defaultTeam) := getD_map_total (shiftTeam δ) top16 i defaultTeam
  have h3 : (top16.map (shiftTeam δ)).getD (top16.length - (i + 1)) defaultTeam =
      shiftTeam δ (top16.getD (top16.length - (i + 1)) defaultTeam) :=
    getD_map_total (shiftTeam δ) top16 (top16.length - (i + 1)) defaultTeam
  rw [h2, h3]
  rfl

theorem playSeriesGo_shift (δ : ℕ) (a b : String) :
    ∀ (fuel wa wb : ℕ) (l : League),
      League.playSeriesGo a b fuel wa wb (shiftLeague δ l) =
        ((League.playSeriesGo a b fuel wa wb l).1,
          shiftLeague δ (League.playSeriesGo a b fuel wa wb l).2) := by
  intro fuel
  induction fuel with
  | zero => intro wa wb l; rfl
  | succ n ih =>
    intro wa wb l
    unfold League.playSeriesGo
    by_cases hw : wa < 3 ∧ wb < 3
    · rw [if_pos hw, if_pos hw]
      rw [simulate_game_shift]
      dsimp only
      simp only [shiftGame_home, shiftGame_away_crowns, shiftGame_home_crowns]
      by_cases hres : ((l.simulate_game a b 0).1.home = a ∧
          (l.simulate_game a b 0).1.away_crowns < (l.simulate_game a b 0).1.home_crowns)
      · rw [if_pos hres, if_pos hres]
        exact ih (wa + 1) wb _
      · rw [if_neg hres, if_neg hres]
        exact ih wa (wb + 1) _
    · rw [if_neg hw, if_neg hw]

theorem playSeries_shift (δ : ℕ) (l : League) (a b : String) :
    (shiftLeague δ l).playSeries a b =
      ((l.playSeries a b).1, shiftLeague δ (l.playSeries a b).2) := by
  unfold League.playSeries
  exact playSeriesGo_shift δ a b 6 0 0 l

theorem playoffRound_shift (δ : ℕ) (l : League) (current : List (String × String)) :
    (shiftLeague δ l).playoffRound current =
      ((l.playoffRound current).1, shiftLeague δ (l.playoffRound current).2) := by
  unfold League.playoffRound
  have key := foldl_comm
    (fun (a : List String × League) => (a.1, shiftLeague δ a.2))
    (fun (acc : List String × League) ab =>
      let p := acc.2.playSeries ab.1 ab.2
      (acc.1 ++ [p.1], p.2))
    (fun (acc : List String × League) ab =>
      let p := acc.2.playSeries ab.1 ab.2
      (acc.1 ++ [p.1], p.2))
    (fun b ab => by
      dsimp only
      rw [playSeries_shift])
    current ([], l)
  dsimp only at key
  exact key.symm

theorem runPlayoffsGo_shift (δ : ℕ) :
    ∀ (fuel : ℕ) (current : List (String × String))
      (fin : Option String × Option String) (l : League),
      League.runPlayoffsGo fuel current fin (shiftLeague δ l) =
        ((League.runPlayoffsGo fuel current fin l).1,
          shiftLeague δ (League.runPlayoffsGo fuel current fin l).2) := by
  intro fuel
  induction fuel with
  | zero => intro c f l; rfl
  | succ n ih =>
    intro c f l
    unfold League.runPlayoffsGo
    by_cases hlen : c.length ≤ 1
    · rw [if_pos hlen, if_pos hlen]
    · rw [if_neg hlen, if_neg hlen]
      rw [playoffRound_shift]
      dsimp only
      exact ih _ _ _

theorem run_playoffs_shift (δ : ℕ) (l : League) (bracket : List (String × String)) :
    (shiftLeague δ l).run_playoffs bracket =
      ((l.run_playoffs bracket).1, shiftLeague δ (l.run_playoffs bracket).2) := by
  unfold League.run_playoffs
  dsimp only
  rw [runPlayoffsGo_shift]
  dsimp only
  rcases hch : (League.runPlayoffsGo (bracket.length + 1) bracket (none, none) l).1.1
    with _ | c
  · dsimp only
    rcases hf : (League.runPlayoffsGo (bracket.length + 1) bracket (none, none) l).1.2
      with _ | f
    · rfl
    · dsimp only
      rw [shiftLeague_teams]
      rw [updateTeam_map_shift δ _ f
        (fun t => { t with dynasty_points := t.dynasty_points + 2 }) _ (fun t => rfl)]
      rw [shiftLeague_setTeams]
  · dsimp only
    rw [shiftLeague_teams]
    rw [updateTeam_map_shift δ _ c
      (fun t => { t with rings := t.rings + 1, dynasty_points := t.dynasty_points + 3 })
      _ (fun t => rfl)]
    rw [shiftLeague_setTeams]
    rcases hf : (League.runPlayoffsGo (bracket.length + 1) bracket (none, none) l).1.2
      with _ | f
    · rfl
    · dsimp only
      rw [updateTeam_map_shift δ _ f
        (fun t => { t with dynasty_points := t.dynasty_points + 2 }) _ (fun t => rfl)]
      rw [shiftLeague_setTeams]

theorem shiftCard_ovrh (δ : ℕ) (c : Card) :
    (shiftCard δ c).ovr_history = c.ovr_history := rfl

theorem mvpInner_shift (δ : ℕ) (l : League) (tf : ℚ) (acc : Option Card × ℚ)
    (cid : ℕ) :
    mvpInner (shiftLeague δ l) tf (acc.1.map (shiftCard δ), acc.2) (cid + δ) =
      ((mvpInner l tf acc cid).1.map (shiftCard δ), (mvpInner l tf acc cid).2) := by
  unfold mvpInner
  dsimp only
  simp only [shiftLeague_cards, lookupCard_map_shift, shiftCard_crowns_total]
  by_cases h : acc.2 < ((lookupCard l.cards cid).crowns_total : ℚ) * tf
  · rw [if_pos h, if_pos h]
    rfl
  · rw [if_neg h, if_neg h]

theorem mvpOuter_shift (δ : ℕ) (l : League) (acc : Option Card × ℚ) (t : Team) :
    mvpOuter (shiftLeague δ l) (acc.1.map (shiftCard δ), acc.2) (shiftTeam δ t) =
      ((mvpOuter l acc t).1.map (shiftCard δ), (mvpOuter l acc t).2) := by
  unfold mvpOuter
  dsimp only
  simp only [shiftTeam_wins, shiftTeam_losses, shiftTeam_roster]
  have key := foldl_map_comm
    (fun (a : Option Card × ℚ) => (a.1.map (shiftCard δ), a.2))
    (fun x => x + δ)
    (mvpInner l (1 + (t.wins : ℚ) / ((max 1 (t.wins + t.losses) : ℕ) : ℚ)))
    (mvpInner (shiftLeague δ l) (1 + (t.wins : ℚ) / ((max 1 (t.wins + t.losses) : ℕ) : ℚ)))
    (fun b a => (mvpInner_shift δ l _ b a).symm)
    t.roster acc
  exact key.symm

theorem mvpScan_shift (δ : ℕ) (l : League) :
    (shiftLeague δ l).mvpScan = (l.mvpScan).map (shiftCard δ) := by
  unfold League.mvpScan
  rw [shiftLeague_teams]
  have key := foldl_map_comm
    (fun (a : Option Card × ℚ) => (a.1.map (shiftCard δ), a.2))
    (shiftTeam δ) (mvpOuter l) (mvpOuter (shiftLeague δ l))
    (fun b a => (mvpOuter_shift δ l b a).symm)
    l.teams (none, -1)
  have key2 := congrArg (fun (a : Option Card × ℚ) => a.1) key
  dsimp only at key2
  exact key2.symm

theorem mipStep_shift (δ : ℕ) (acc : Option Card × ℤ) (c : Card) :
    mipStep (acc.1.map (shiftCard δ), acc.2) (shiftCard δ c) =
      ((mipStep acc c).1.map (shiftCard δ), (mipStep acc c).2) := by
  unfold mipStep
  dsimp only
  simp only [shiftCard_ovrh, shiftCard_ovr]
  by_cases h1 : 2 ≤ c.ovr_history.length
  · rw [if_pos h1, if_pos h1]
    by_cases h2 : acc.2 <
        c.ovr - (c.ovr_history.getD (c.ovr_history.length - 2) (0, 0)).2
    · rw [if_pos h2, if_pos h2]
      rfl
    · rw [if_neg h2, if_neg h2]
  · rw [if_neg h1, if_neg h1]

theorem mipScan_shift (δ : ℕ) (l : League) :
    (shiftLeague δ l).mipScan = (l.mipScan).map (shiftCard δ) := by
  unfold League.mipScan
  rw [shiftLeague_cards]
  have key := foldl_map_comm
    (fun (a : Option Card × ℤ) => (a.1.map (shiftCard δ), a.2))
    (shiftCard δ) mipStep mipStep
    (fun b a => (mipStep_shift δ b a).symm)
    l.cards (none, -999)
  have key2 := congrArg (fun (a : Option Card × ℤ) => a.1) key
  dsimp only at key2
  exact key2.symm

theorem gtcStep_shift (δ : ℕ) (acc : Option ℕ × ℤ) (p : ℕ × ℕ) :
    gtcStep (acc.1.map (· + δ), acc.2) (p.1 + δ, p.2) =
      ((gtcStep acc p).1.map (· + δ), (gtcStep acc p).2) := by
  unfold gtcStep
  dsimp only
  by_cases h : acc.2 < (p.2 : ℤ)
  · rw [if_pos h, if_pos h]
    rfl
  · rw [if_neg h, if_neg h]

theorem gtcInner_shift (δ : ℕ) (acc : Option ℕ × ℤ) (td : String × List (ℕ × ℕ)) :
    (shiftInner δ td.2).foldl gtcStep (acc.1.map (· + δ), acc.2) =
      (((td.2.foldl gtcStep acc).1).map (· + δ), (td.2.foldl gtcStep acc).2) := by
  unfold shiftInner mapKV
  have key := foldl_map_comm
    (fun (a : Option ℕ × ℤ) => (a.1.map (· + δ), a.2))
    (fun (p : ℕ × ℕ) => (p.1 + δ, p.2))
    gtcStep gtcStep
    (fun b p => (gtcStep_shift δ b p).symm)
    td.2 acc
  exact key.symm

theorem gameTopCard_shift (δ : ℕ) (g : GameResult) :
    gameTopCard (shiftGame δ g) = (gameTopCard g).map (· + δ) := by
  unfold gameTopCard
  rw [show (shiftGame δ g).details = shiftDetails δ g.details from rfl]
  unfold shiftDetails mapKV
  have key := foldl_map_comm
    (fun (a : Option ℕ × ℤ) => (a.1.map (· + δ), a.2))
    (fun (td : String × List (ℕ × ℕ)) => (td.1, shiftInner δ td.2))
    (fun (acc : Option ℕ × ℤ) td => td.2.foldl gtcStep acc)
    (fun (acc : Option ℕ × ℤ) td => td.2.foldl gtcStep acc)
    (fun b td => by
      dsimp only
      exact (gtcInner_shift δ b td).symm)
    g.details (none, -1)
  have key2 := congrArg (fun (a : Option ℕ × ℤ) => a.1) key
  dsimp only at key2
  exact key2.symm

theorem motyStep_shift (δ : ℕ) (acc : List (ℕ × ℕ) × ℕ) (g : GameResult) :
    motyStep (acc.1.map (fun p => (p.1, p.2 + δ)), acc.2) (shiftGame δ g) =
      ((motyStep acc g).1.map (fun p => (p.1, p.2 + δ)), (motyStep acc g).2) := by
  unfold motyStep
  dsimp only
  rw [show (shiftGame δ g).highlights = g.highlights from rfl,
    shiftGame_home_crowns, shiftGame_away_crowns]
  rw [gameTopCard_shift]
  rw [show (acc.1.map (fun p => (p.1, p.2 + δ))).length = acc.1.length from
    List.length_map _ _]
  by_cases h1 : (2 < g.highlights.length + (g.home_crowns - g.away_crowns).natAbs * 2
      ∧ acc.1.length < 6)
  · rw [if_pos h1, if_pos h1]
    rcases hg : gameTopCard g with _ | cid
    · rfl
    · simp only [Option.map_some']
      rw [List.map_append]
      rfl
  · rw [if_neg h1, if_neg h1]

theorem motyScan_shift (δ : ℕ) (l : League) :
    (shiftLeague δ l).motyScan = l.motyScan.map (fun p => (p.1, p.2 + δ)) := by
  unfold League.motyScan
  rw [shiftLeague_game_log]
  have key := foldl_map_comm
    (fun (a : List (ℕ × ℕ) × ℕ) => (a.1.map (fun p => (p.1, p.2 + δ)), a.2))
    (shiftGame δ) motyStep motyStep
    (fun b a => (motyStep_shift δ b a).symm)
    l.game_log ([], 0)
  have key2 := congrArg (fun (a : List (ℕ × ℕ) × ℕ) => a.1) key
  dsimp only at key2
  exact key2.symm

theorem bumpAward_shift (δ : ℕ) (cards : List Card) (cid : ℕ) (award : String) :
    bumpAward (cards.map (shiftCard δ)) (cid + δ) award =
      (bumpAward cards cid award).map (shiftCard δ) := by
  unfold bumpAward
  exact updateCard_map_shift δ cards cid _ _ (fun c => rfl)

theorem opt_id_shift (δ : ℕ) (ob : Option Card) :
    (ob.map (shiftCard δ)).map (fun c => c.id) =
      (ob.map (fun c => c.id)).map (· + δ) := by
  cases ob <;> rfl

theorem compute_awards_shift (δ : ℕ) (l : League) :
    (shiftLeague δ l).compute_awards =
      (shiftAwards δ (l.compute_awards).1, shiftLeague δ (l.compute_awards).2) := by
  have hteams : ∀ (lx : League) (ids : List ℕ),
      (ids.map (· + δ)).foldl
          (fun st cid => { st with cards := bumpAward st.cards cid "ALL_TEAM" })
          (shiftLeague δ lx) =
        shiftLeague δ (ids.foldl
          (fun st cid => { st with cards := bumpAward st.cards cid "ALL_TEAM" }) lx) := by
    intro lx ids
    exact (foldl_map_comm (shiftLeague δ) (fun x => x + δ) _ _
      (fun b a => by
        dsimp only
        rw [shiftLeague_cards, bumpAward_shift, shiftLeague_setCards]) ids lx).symm
  have hstar : ∀ (lx : League) (ids : List ℕ),
      (ids.map (· + δ)).foldl
          (fun st cid =>
            { st with
              cards := updateCard (bumpAward st.cards cid "ALL_STAR") cid
                (fun c => { c with all_star_appearances := c.all_star_appearances + 1 }) })
          (shiftLeague δ lx) =
        shiftLeague δ (ids.foldl
          (fun st cid =>
            { st with
              cards := updateCard (bumpAward st.cards cid "ALL_STAR") cid
                (fun c => { c with all_star_appearances := c.all_star_appearances + 1 }) })
          lx) := by
    intro lx ids
    exact (foldl_map_comm (shiftLeague δ) (fun x => x + δ) _ _
      (fun b a => by
        dsimp only
        rw [shiftLeague_cards, bumpAward_shift]
        rw [updateCard_map_shift δ _ a
          (fun c => { c with all_star_appearances := c.all_star_appearances + 1 })
          _ (fun c => rfl)]
        rw [shiftLeague_setCards]) ids lx).symm
  have hmoty : ∀ (lx : League) (ms : List (ℕ × ℕ)),
      (ms.map (fun p => (p.1, p.2 + δ))).foldl
          (fun st p => { st with cards := bumpAward st.cards p.2 "MOTY" })
          (shiftLeague δ lx) =
        shiftLeague δ (ms.foldl
          (fun st p => { st with cards := bumpAward st.cards p.2 "MOTY" }) lx) := by
    intro lx ms
    exact (foldl_map_comm (shiftLeague δ) (fun (p : ℕ × ℕ) => (p.1, p.2 + δ)) _ _
      (fun b a => by
        dsimp only
        rw [shiftLeague_cards, bumpAward_shift, shiftLeague_setCards]) ms lx).symm
  unfold League.compute_awards
  dsimp only
  rw [mvpScan_shift, mipScan_shift, motyScan_shift]
  rw [shiftLeague_cards]
  rw [show (l.cards.map (shiftCard δ)).filter (fun c => 0 < c.seasons_left) =
    (l.cards.filter (fun c => 0 < c.seasons_left)).map (shiftCard δ) from
    filter_map_shift _ _ δ l.cards (fun c => rfl)]
  rw [stableSort_map (shiftCard δ)
    (fun (a b : Card) => decide (b.crowns_total ≤ a.crowns_total))
    (fun (a b : Card) => decide (b.crowns_total ≤ a.crowns_total))
    (fun a b => rfl)]
  simp only [← List.map_take, ← List.map_drop, map_id_shift]
  rcases hb : l.mvpScan with _ | bc
  · rcases hm : l.mipScan with _ | mc
    · simp only [Option.map_none']
      simp only [← List.map_append]
      rw [hteams, hstar, hmoty]
      rfl
    · simp only [Option.map_none', Option.map_some']
      simp only [shiftCard_id, shiftLeague_cards]
      rw [bumpAward_shift, shiftLeague_setCards]
      simp only [← List.map_append]
      rw [hteams, hstar, hmoty]
      rfl
  · rcases hm : l.mipScan with _ | mc
    · simp only [Option.map_none', Option.map_some']
      simp only [shiftCard_id, shiftLeague_cards]
      rw [bumpAward_shift, shiftLeague_setCards]
      simp only [← List.map_append]
      rw [hteams, hstar, hmoty]
      rfl
    · simp only [Option.map_some']
      simp only [shiftCard_id, shiftLeague_cards]
      rw [bumpAward_shift, bumpAward_shift, shiftLeague_setCards]
      simp only [← List.map_append]
      rw [hteams, hstar, hmoty]
      rfl

end CLF
